import Mathlib

/-!
# Feng: a shallow embedding of the RTP transport, the resource description
accessors and the SDP builder

Three source files are translated into pure Lean functions:
`rtp/RTP_transport.c` (`RTP_send_packet`, `RTP_recv`, `RTP_transport_close`,
`RTP_session_destroy`), `mediathread/descriptionAPI.c` (the `r_descr_*`
accessors) and `src/network/sdp2.c` (`sdp_session_descr` and its callbacks).

Calls of the transport into collaborators that live outside the translated
file (the buffer pool, the socket layer, the allocator, the port allocator,
the event hook) are recorded in a trace of `Call`s, and the values they
return are supplied by an explicit environment, so that every statement
quantifies over all behaviours of those collaborators.  The SDP builder
appends to a `GString`, which is a `String` here; what it takes from outside
the repository (the clock, the build configuration, `printf`'s `%f`, GLib's
URI escaping) is an explicit argument.

Conventions.
* Machine integers are natural numbers; a conversion to a `w`-bit unsigned
  type is an explicit `% 2^w`.
* The `double` values of the source are rational numbers on which every
  operation rounds once, to the nearest value with 53 significant bits, ties
  to even (`f64_round`): the arithmetic of the SSE2 unit, without fused
  multiply-add.  `slot->timestamp` is a rational that is read as the nearest
  `double`.  Infinities and NaN are not values of the model; a magnitude of
  `2^1024` or more stands for an infinity, which the conversion below treats
  alike.
* The conversion of a `double` to `uint32_t` is the one of the x86-64 targets
  of the server (`double_to_uint32`): the fractional part is dropped and the
  low 32 bits of the 64-bit integer are kept; a value outside the 64-bit
  range converts to 0.
* The `float` values of `NTP_time` in the SDP builder are integers rounded to
  24 significant bits (`f32_round`).
* `fnc_log` calls are not modelled: logging has no effect on the data the
  functions return or hand to their collaborators.
-/

namespace Feng

/-! ## Data model -/

/-- One slot of the buffer pool, as read by `RTP_send_packet`:
`slot_seq`, `timestamp`, `rtp_time`, `data`, `data_size` and `marker`. -/
structure BPSlot where
  slot_seq : Nat
  timestamp : ℚ
  rtp_time : Nat
  data : List Nat
  data_size : Nat
  marker : Nat
  deriving DecidableEq

/-- The properties of a track read by the packetizer
(`t->properties->payload_type`, `t->properties->clock_rate`). -/
structure MediaProperties where
  payload_type : Nat
  clock_rate : Nat
  deriving DecidableEq

/-- A track, reduced to the properties the packetizer dereferences. -/
structure Track where
  properties : MediaProperties
  deriving DecidableEq

/-- Socket kinds of the socket layer (`s->socktype`). -/
inductive sock_type where
  | UDP
  | LOCAL
  | TCP
  deriving DecidableEq, Repr

/-- A socket handle: an identity, its kind and its local port. -/
structure Sock where
  fd : Nat
  socktype : sock_type
  local_port : Nat
  deriving DecidableEq

/-- The two counters of `rtcp_stats[i_server]` that `RTP_send_packet` updates.

Modelled from the spec: the declaration of the statistics record is not among
the sources; the spec describes `pkt_count` and `octet_count` as counters of
packets and of payload octets, so they are natural numbers here. -/
structure RTCP_stats where
  pkt_count : Nat
  octet_count : Nat
  deriving DecidableEq

/-- The transport of a session: the RTP and RTCP sockets and the cached
peer address `last_stg`. -/
structure RTP_transport where
  rtp_sock : Sock
  rtcp_sock : Sock
  last_stg : List Nat
  deriving DecidableEq

/-- An RTP session.  `cons` is the reader side of the buffer pool: the slots
that are ready and not yet acknowledged, oldest first.  `next` is the link to
the following session, `track_selector` the handle of the track store. -/
structure RTP_session where
  start_seq : Nat
  start_rtptime : Nat
  ssrc : Nat
  cons : List BPSlot
  track_selector : Nat
  selected_track : Track
  transport : RTP_transport
  rtcp_stats_server : RTCP_stats
  rtcp_inbuffer : List Nat
  rtcp_insize : Int
  next : Option Nat
  deriving DecidableEq

/-- The RTP header `r` as `RTP_send_packet` fills it in.  The two multi-byte
fields assigned through `htons` and `htonl` are kept as the 16-bit and 32-bit
values whose network-order bytes the header holds. -/
structure RTP_header where
  version : Nat
  padding : Nat
  extension : Nat
  csrc_len : Nat
  marker : Nat
  payload : Nat
  seq_no : Nat
  timestamp : Nat
  ssrc : Nat
  deriving DecidableEq

/-! ## Integer conversions -/

/-- Big-endian bytes of a 16-bit value. -/
def be16 (v : Nat) : List Nat := [v / 256 % 256, v % 256]

/-- Big-endian bytes of a 32-bit value. -/
def be32 (v : Nat) : List Nat :=
  [v / 16777216 % 256, v / 65536 % 256, v / 256 % 256, v % 256]

/-- The argument of `htons` is converted to `uint16_t`: an `int` value is
reduced modulo `2^16`. -/
def htons (v : Int) : Nat := (v % 65536).toNat

/-- The argument of `htonl` is converted to `uint32_t`: an integer value is
reduced modulo `2^32`.  At lines 74-76 the argument is a `double`, whose
integer part `double_trunc` supplies. -/
def htonl (v : Int) : Nat := (v % 4294967296).toNat

/-- Conversion of a `double` to an integer discards the fractional part
(truncation toward zero). -/
def double_trunc (x : ℚ) : Int := Int.tdiv x.num (x.den : Int)

/-! ## Arithmetic in `double` -/

/-- The quotient `a / b` rounded to the nearest natural number, a tie going
to the even neighbour. -/
def round_half_even (a b : Nat) : Nat :=
  if 2 * (a % b) < b then a / b
  else if 2 * (a % b) = b ∧ a / b % 2 = 0 then a / b
  else a / b + 1

/-- The number of binary places by which `p / q` exceeds 53 significant bits:
the least `e` with `p / (q * 2^e) < 2^53`, searched up to `fuel`. -/
def f64_up : Nat → Nat → Nat → Nat
  | 0, _, _ => 0
  | fuel + 1, p, q => if p < q * 2 ^ 53 then 0 else f64_up fuel p (q * 2) + 1

/-- The number of binary places `p / q` has to be scaled up by to reach
`2^52`: the least `e` with `2^52 ≤ p * 2^e / q`, searched up to `fuel`. -/
def f64_down : Nat → Nat → Nat → Nat
  | 0, _, _ => 0
  | fuel + 1, p, q => if q * 2 ^ 52 ≤ p then 0 else f64_down fuel (p * 2) q + 1

/-- The `double` nearest to the positive fraction `p / q`, as numerator and
denominator.  The fraction is scaled by a power of two so that its integer
part has 53 bits, rounded to an integer, and scaled back.  The downward
search stops at 1074 places, the weight `2^-1074` of the last bit of the
subnormal numbers; the upward search stops at 971 places, the exponent of the
largest finite `double`. -/
def f64_round_frac (p q : Nat) : Nat × Nat :=
  if p = 0 then (0, 1)
  else
    (round_half_even (p * 2 ^ f64_down 1074 p q) (q * 2 ^ f64_up 971 p q)
        * 2 ^ f64_up 971 p q,
     2 ^ f64_down 1074 p q)

/-- Rounding of a real result to `double`: round to nearest, ties to even, the
default rounding mode; the rounding is symmetric in the sign. -/
def f64_round (x : ℚ) : ℚ :=
  if 0 ≤ x then
    ((f64_round_frac x.num.natAbs x.den).1 : ℚ) / ((f64_round_frac x.num.natAbs x.den).2 : ℚ)
  else
    -(((f64_round_frac x.num.natAbs x.den).1 : ℚ)
        / ((f64_round_frac x.num.natAbs x.den).2 : ℚ))

/-- Conversion of a `double` to `uint32_t` as compiled for x86-64: the 64-bit
truncating conversion (`cvttsd2si`) followed by the low 32 bits.  A value
whose integer part is not a signed 64-bit integer converts to
`0x8000000000000000`, whose low 32 bits are 0. -/
def double_to_uint32 (x : ℚ) : Nat :=
  if -9223372036854775808 ≤ x ∧ x < 9223372036854775808 then htonl (double_trunc x)
  else 0

/-! ## The packetizer (body of the loop of `RTP_send_packet`, lines 65-84) -/

/-- The operand `(slot->rtp_time) ? slot->rtp_time : (slot->timestamp *
clock_rate)` of the timestamp expression; both branches have type `double`
by the usual arithmetic conversions.  The integers `rtp_time` and
`clock_rate` are unsigned 32-bit values and convert exactly.  The media time
is read as a `double` (unchanged when it is one, `f64_round_idem`), and its
product with the converted clock rate is rounded. -/
def rtp_delta (t : Track) (slot : BPSlot) : ℚ :=
  if slot.rtp_time ≠ 0 then (slot.rtp_time : ℚ)
  else f64_round (f64_round slot.timestamp * (t.properties.clock_rate : ℚ))

/-- The header built for one slot (lines 66-78).  The bit-fields `marker` and
`payload` keep the low 1 and 7 bits of what is assigned to them; the sum
passed to `htonl` is computed in `double` because one branch of the
conditional is, and converted to `uint32_t`.  When the operand is
`slot->rtp_time` the sum is one of two unsigned 32-bit integers: it is below
`2^33`, exact in `double` and inside the range of the conversion, so that
branch is written without the rounding (`u32_sum_exact` below).  When the
operand is the product the sum is rounded like any other result. -/
def RTP_build_header (session : RTP_session) (t : Track) (slot : BPSlot) : RTP_header :=
  { version := 2
    padding := 0
    extension := 0
    csrc_len := 0
    marker := slot.marker % 2
    payload := t.properties.payload_type % 128
    seq_no := htons ((slot.slot_seq : Int) + (session.start_seq : Int) - 1)
    timestamp :=
      if slot.rtp_time ≠ 0 then
        htonl (double_trunc ((session.start_rtptime : ℚ) + rtp_delta t slot))
      else
        double_to_uint32 (f64_round ((session.start_rtptime : ℚ) + rtp_delta t slot))
    ssrc := htonl (session.ssrc : Int) }

/-- The twelve bytes of a header in memory.

Modelled from the spec: the declaration of `RTP_header` (its bit-fields) is
not among the sources; the layout is the one the spec fixes, RFC 3550 §5.1:
version, padding, extension and CSRC count in byte 0, marker and payload type
in byte 1, then sequence number, timestamp and SSRC in network byte order. -/
def RTP_header.bytes (r : RTP_header) : List Nat :=
  [r.version % 4 * 64 + r.padding % 2 * 32 + r.extension % 2 * 16 + r.csrc_len % 16,
   r.marker % 2 * 128 + r.payload % 128]
  ++ be16 r.seq_no ++ be32 r.timestamp ++ be32 r.ssrc

/-- The size of the header, `sizeof(r)`. -/
def hdr_size : Nat := 12

/-- The first `n` bytes of a buffer, zero-filled past its end (what `memcpy`
of `n` bytes reads from a buffer holding `data`). -/
def mem_read (data : List Nat) (n : Nat) : List Nat :=
  (data ++ List.replicate n 0).take n

/-- The datagram built for one slot (lines 79-84): the header followed by
`data_size` bytes of the slot's data. -/
def RTP_build_packet (session : RTP_session) (t : Track) (slot : BPSlot) : List Nat :=
  (RTP_build_header session t slot).bytes ++ mem_read slot.data slot.data_size

/-! ## Collaborators -/

/-- Calls into the collaborators of the transport, in the order they are
made, each with the value it returned where the caller looks at it. -/
inductive Call where
  | bp_getreader (slot : Option BPSlot)
  | calloc (size : Nat) (ok : Bool)
  | Sock_write (sock : Sock) (packet : List Nat) (len : Nat) (ret : Int)
  | free
  | bp_gotreader
  | event_buffer_low (ret : Int)
  | Sock_read (sock : Sock) (cap : Nat) (with_addr : Bool) (ret : Int)
  | RTP_release_port_pair (rtp : Nat) (rtcp : Nat)
  | Sock_close (sock : Sock)
  | r_close_tracks (selector : Nat)
  | bp_unref
  | free_session
  deriving DecidableEq

/-- What one `Sock_read` delivers: its return value, the bytes it stored in
the buffer and the source address it stored (when asked for one). -/
structure ReadResult where
  size : Int
  buffer : List Nat
  addr : List Nat
  deriving DecidableEq

/-- The behaviour of the collaborators during one call, and the constants of
headers that are not among the sources.
* `calloc_ok k size`: whether the `k`-th allocation of the run succeeds;
* `Sock_write k packet`: the value the `k`-th write of the run returns;
* `event_buffer_low session`: the status the event hook returns;
* `Sock_read sock cap`: what a read delivers;
* `Sock_close sock`, `release_status`: the values the teardown calls return;
* `ERR_ALLOC`: the error code of that name;
* `rtcp_inbuffer_size`: `sizeof(session->rtcp_inbuffer)`. -/
structure Env where
  calloc_ok : Nat → Nat → Bool
  Sock_write : Nat → List Nat → Int
  event_buffer_low : RTP_session → Int
  Sock_read : Sock → Nat → ReadResult
  Sock_close : Sock → Int
  release_status : Int
  ERR_ALLOC : Int
  rtcp_inbuffer_size : Nat

/-- The result of a call: the value returned, the session afterwards and the
calls made to the collaborators. -/
structure Outcome where
  ret : Int
  session : RTP_session
  trace : List Call

/-- The track the selector of a session designates, `r_selected_track`. -/
def r_selected_track (session : RTP_session) : Track := session.selected_track

/-- The local port of a socket, `get_local_port`. -/
def get_local_port (s : Sock) : Nat := s.local_port

/-! ## `RTP_send_packet` -/

/-- The statistics update of lines 115-117. -/
def stats_sent (st : RTCP_stats) (slot : BPSlot) : RTCP_stats :=
  { pkt_count := st.pkt_count + 1, octet_count := st.octet_count + slot.data_size }

/-- The `while` loop of `RTP_send_packet` and the code after it.  The state
the loop changes is the consumer (`pending`: the slots `bp_getreader` will
yield, oldest first; `bp_gotreader` drops the first) and the server
statistics `stats`; `k` counts the iterations already made.  The other
fields of `session` are only read. -/
def RTP_send_loop (env : Env) (session : RTP_session) (t : Track) :
    List BPSlot → Nat → RTCP_stats → Outcome
  | [], _, stats =>
    let session := { session with cons := [], rtcp_stats_server := stats }
    let res := env.event_buffer_low session
    { ret := res
      session := session
      trace := [Call.bp_getreader none, Call.event_buffer_low res] }
  | slot :: rest, k, stats =>
    let packet := RTP_build_packet session t slot
    let size := slot.data_size + hdr_size
    if env.calloc_ok k size then
      let psize_sent := env.Sock_write k packet
      let stats := if psize_sent < 0 then stats else stats_sent stats slot
      let out := RTP_send_loop env session t rest (k + 1) stats
      { out with
        trace := [Call.bp_getreader (some slot), Call.calloc size true,
                  Call.Sock_write session.transport.rtp_sock packet size psize_sent,
                  Call.free, Call.bp_gotreader] ++ out.trace }
    else
      { ret := env.ERR_ALLOC
        session := { session with cons := slot :: rest, rtcp_stats_server := stats }
        trace := [Call.bp_getreader (some slot), Call.calloc size false] }

/-- The function `RTP_send_packet` (lines 54-139). -/
def RTP_send_packet (env : Env) (session : RTP_session) : Outcome :=
  RTP_send_loop env session (r_selected_track session) session.cons 0
    session.rtcp_stats_server

/-! ## `RTP_recv` -/

/-- The protocols a receive can name.

Modelled from the spec: the enumeration `rtp_protos` is declared in a header
that is not among the sources; the spec distinguishes RTCP from any other
protocol. -/
inductive rtp_protos where
  | rtp_proto
  | rtcp_proto
  deriving DecidableEq

/-- The function `RTP_recv` (lines 147-173). -/
def RTP_recv (env : Env) (session : RTP_session) (proto : rtp_protos) : Outcome :=
  let s := session.transport.rtcp_sock
  if proto = rtp_protos.rtcp_proto then
    match s.socktype with
    | sock_type.UDP =>
      let r := env.Sock_read s env.rtcp_inbuffer_size
      let session :=
        { session with
          rtcp_insize := r.size
          rtcp_inbuffer := r.buffer
          transport := { session.transport with last_stg := r.addr } }
      { ret := session.rtcp_insize, session := session,
        trace := [Call.Sock_read s env.rtcp_inbuffer_size true r.size] }
    | sock_type.LOCAL =>
      let r := env.Sock_read s env.rtcp_inbuffer_size
      let session := { session with rtcp_insize := r.size, rtcp_inbuffer := r.buffer }
      { ret := session.rtcp_insize, session := session,
        trace := [Call.Sock_read s env.rtcp_inbuffer_size false r.size] }
    | _ =>
      let session := { session with rtcp_insize := -1 }
      { ret := session.rtcp_insize, session := session, trace := [] }
  else
    { ret := -1, session := session, trace := [] }

/-! ## Teardown -/

/-- The function `RTP_transport_close` (lines 180-193): the value it returns
and the calls it makes.  The values those calls return (`env.release_status`,
`env.Sock_close`) are discarded by the source. -/
def RTP_transport_close (_env : Env) (session : RTP_session) : Int × List Call :=
  let pair_RTP := get_local_port session.transport.rtp_sock
  let pair_RTCP := get_local_port session.transport.rtcp_sock
  let release :=
    match session.transport.rtp_sock.socktype with
    | sock_type.UDP => [Call.RTP_release_port_pair pair_RTP pair_RTCP]
    | _ => []
  (0, release ++ [Call.Sock_close session.transport.rtp_sock,
                  Call.Sock_close session.transport.rtcp_sock])

/-- The function `RTP_session_destroy` (lines 200-217): the link it returns
and the calls it makes. -/
def RTP_session_destroy (env : Env) (session : RTP_session) : Option Nat × List Call :=
  let next := session.next
  let closed := RTP_transport_close env session
  (next, closed.2 ++ [Call.r_close_tracks session.track_selector, Call.bp_unref,
                      Call.free_session])

/-! ## Definitions used to state the properties -/

/-- Rounding to the nearest integer, as the spec words the timestamp
(`round(slot.timestamp * track.clock_rate)`). -/
def spec_round (x : ℚ) : Int := Rat.floor (x + 1 / 2)

/-- The session of the spec's header scenario. -/
def scenario_session : RTP_session :=
  { start_seq := 1000, start_rtptime := 500000, ssrc := 0xDEADBEEF, cons := []
    track_selector := 0, selected_track := ⟨⟨96, 90000⟩⟩
    transport := ⟨⟨3, sock_type.UDP, 5004⟩, ⟨4, sock_type.UDP, 5005⟩, []⟩
    rtcp_stats_server := ⟨0, 0⟩, rtcp_inbuffer := [], rtcp_insize := 0, next := none }

/-- The track of the spec's header scenario: payload type 96 at 90 kHz. -/
def scenario_track : Track := ⟨⟨96, 90000⟩⟩

/-- The slot of the spec's header scenario; the media time 0.04 s is written
4/100 and read as the nearest `double`, whose product with 90000 rounds to
3600. -/
def scenario_slot : BPSlot :=
  { slot_seq := 1, timestamp := 4 / 100, rtp_time := 0, data := [], data_size := 0, marker := 1 }

/-- The scenario slot with a precomputed `rtp_time` of 1234 ticks. -/
def override_slot : BPSlot :=
  { slot_seq := 1, timestamp := 4 / 100, rtp_time := 1234, data := [], data_size := 0,
    marker := 1 }

/-- A slot whose media time, 3/64 s (a binary fraction, exact as a `double`),
gives 4218.75 ticks at 90 kHz. -/
def fractional_slot : BPSlot :=
  { slot_seq := 1, timestamp := 3 / 64, rtp_time := 0, data := [], data_size := 0, marker := 0 }

/-- A slot whose media time is the `double` nearest to 0.12 s,
`1080863910568919 / 2^53`.  Its exact product with 90000 is below 10800 by
less than half a unit of the last place; the `double` product is 10800. -/
def rounded_slot : BPSlot :=
  { slot_seq := 1, timestamp := 1080863910568919 / 9007199254740992, rtp_time := 0, data := [],
    data_size := 0, marker := 0 }

/-- A slot whose media time is the `double` just below the one nearest to
0.04 s, `2882303761517117 / 2^56` (0.039999999999999994).  The `double`
product with 90000 is below 3600, and adding 500000 rounds the sum to
503600. -/
def below_slot : BPSlot :=
  { slot_seq := 1, timestamp := 2882303761517117 / 72057594037927936, rtp_time := 0, data := [],
    data_size := 0, marker := 0 }

/-- A slot whose media time is `2^47` s: at 90 kHz the product exceeds
`2^63`. -/
def late_slot : BPSlot :=
  { slot_seq := 1, timestamp := 140737488355328, rtp_time := 0, data := [], data_size := 0,
    marker := 0 }

/-- The sum `start_rtptime + timestamp * clock_rate` as the arithmetic in
`double` yields it: the timestamp is a `double`, the product is rounded, and
the sum of the start value and the rounded product is rounded. -/
def double_sum (start_rtptime : Nat) (timestamp : ℚ) (clock_rate : Nat) : ℚ :=
  f64_round ((start_rtptime : ℚ) + f64_round (f64_round timestamp * (clock_rate : ℚ)))

/-- Whether the write of the numbered slot `p` succeeds (`psize_sent >= 0`). -/
def write_ok (env : Env) (session : RTP_session) (t : Track) (p : Nat × BPSlot) : Bool :=
  decide (0 ≤ env.Sock_write p.1 (RTP_build_packet session t p.2))

/-- The calls of one complete iteration on the numbered slot `p`. -/
def slot_calls (env : Env) (session : RTP_session) (t : Track) (p : Nat × BPSlot) :
    List Call :=
  [Call.bp_getreader (some p.2), Call.calloc (p.2.data_size + hdr_size) true,
   Call.Sock_write session.transport.rtp_sock (RTP_build_packet session t p.2)
     (p.2.data_size + hdr_size) (env.Sock_write p.1 (RTP_build_packet session t p.2)),
   Call.free, Call.bp_gotreader]

/-- The statistics after the numbered slots `ps` have been written out. -/
def stats_after (env : Env) (session : RTP_session) (t : Track) :
    List (Nat × BPSlot) → RTCP_stats → RTCP_stats
  | [], st => st
  | p :: ps, st =>
    stats_after env session t ps (if write_ok env session t p then stats_sent st p.2 else st)

/-- No allocation fails on the slots `pending`, numbered from `k`. -/
def alloc_ok_on (env : Env) (pending : List BPSlot) (k : Nat) : Prop :=
  ∀ p ∈ pending.enumFrom k, env.calloc_ok p.1 (p.2.data_size + hdr_size) = true

/-- The slots `bp_getreader` handed out in a trace, in order. -/
def obtained (tr : List Call) : List BPSlot :=
  tr.filterMap fun c =>
    match c with
    | Call.bp_getreader (some slot) => some slot
    | _ => none

/-- The datagrams handed to `Sock_write` in a trace, in order, each with the
length passed along. -/
def writes (tr : List Call) : List (List Nat × Nat) :=
  tr.filterMap fun c =>
    match c with
    | Call.Sock_write _ packet len _ => some (packet, len)
    | _ => none

/-- The number of `bp_gotreader` calls in a trace. -/
def gotreader_count (tr : List Call) : Nat :=
  (tr.filter fun c =>
    match c with
    | Call.bp_gotreader => true
    | _ => false).length

/-- The statuses `event_buffer_low` returned in a trace, in order. -/
def buffer_low_calls (tr : List Call) : List Int :=
  tr.filterMap fun c =>
    match c with
    | Call.event_buffer_low ret => some ret
    | _ => none

/-- An environment in which the first allocation fails. -/
def env_alloc_fails : Env :=
  { calloc_ok := fun _ _ => false
    Sock_write := fun _ packet => (packet.length : Int)
    event_buffer_low := fun _ => 0
    Sock_read := fun _ _ => ⟨0, [], []⟩
    Sock_close := fun _ => 0
    release_status := 0
    ERR_ALLOC := -4
    rtcp_inbuffer_size := 1500 }

/-- An environment in which every allocation succeeds, the first write
succeeds and every later write fails, and the event hook reports 0. -/
def env_second_write_fails : Env :=
  { calloc_ok := fun _ _ => true
    Sock_write := fun k packet => if k = 0 then (packet.length : Int) else -1
    event_buffer_low := fun _ => 0
    Sock_read := fun _ _ => ⟨0, [], []⟩
    Sock_close := fun _ => 0
    release_status := 0
    ERR_ALLOC := -4
    rtcp_inbuffer_size := 1500 }

/-- An environment in which the first allocation succeeds and the second
fails; every write succeeds. -/
def env_second_alloc_fails : Env :=
  { calloc_ok := fun k _ => decide (k = 0)
    Sock_write := fun _ packet => (packet.length : Int)
    event_buffer_low := fun _ => 0
    Sock_read := fun _ _ => ⟨0, [], []⟩
    Sock_close := fun _ => 0
    release_status := 0
    ERR_ALLOC := -4
    rtcp_inbuffer_size := 1500 }

/-- Slot A of the spec's drain scenario: three payload bytes. -/
def slot_A : BPSlot :=
  { slot_seq := 1, timestamp := 0, rtp_time := 3600, data := [1, 2, 3], data_size := 3,
    marker := 0 }

/-- Slot B of the spec's drain scenario: two payload bytes. -/
def slot_B : BPSlot :=
  { slot_seq := 2, timestamp := 0, rtp_time := 7200, data := [4, 5], data_size := 2,
    marker := 1 }

/-- The scenario session with slots A and B ready in its consumer. -/
def drain_session : RTP_session := { scenario_session with cons := [slot_A, slot_B] }

/-! ## Resource description (`mediathread/descriptionAPI.c`) -/

/-- Kinds of private SDP fields.

Modelled from the spec: the enumeration is declared in a header that is not
among the sources; the spec lists the kinds empty, fmtp, rtpmap and other. -/
inductive sdp_field_type where
  | empty_field
  | fmtp
  | rtpmap
  | other
  deriving DecidableEq

/-- A private SDP field: its kind and its text. -/
structure sdp_field where
  type : sdp_field_type
  field : String
  deriving DecidableEq

/-- Kinds of media.

Modelled from the spec: the enumeration is declared in a header that is not
among the sources; the spec lists audio, video, application, data and
control. -/
inductive MediaType where
  | MP_audio
  | MP_video
  | MP_application
  | MP_data
  | MP_control
  deriving DecidableEq

/-- A media description, with the attributes the SDP builder reads through
the `m_descr_*` accessors.

Modelled from the spec: the record and its accessors are declared in a header
that is not among the sources.  Optional strings are pointers that may be
null; `frame_rate` is a `float`, kept as an exact rational. -/
structure MediaDescr where
  type : MediaType
  name : String
  rtp_pt : Nat
  rtp_port : Nat
  frame_rate : ℚ
  sdp_private : List sdp_field
  commons_deed : Option String
  rdf_page : Option String
  title : Option String
  author : Option String
  deriving DecidableEq

/-- The info record of a resource.  `mrl`, `name`, `descrURI`, `email` and
`phone` are `char` pointers (`none` is the null pointer); `twin`, `multicast`
and `ttl` are `char` arrays held in the record, which the accessors test
with `*r_descr->info->twin`. -/
structure ResourceInfo where
  mrl : Option String
  name : Option String
  descrURI : Option String
  email : Option String
  phone : Option String
  sdp_private : List sdp_field
  duration : ℚ
  twin : String
  multicast : String
  ttl : String
  deriving DecidableEq

/-- A resource description: the info record (a pointer that may be null),
the media groups in insertion order, and the instant of the last change
(seconds since the epoch, a natural number). -/
structure ResourceDescr where
  info : Option ResourceInfo
  media : List (List MediaDescr)
  last_change : Nat
  deriving DecidableEq

/-- The accessor `r_descr_last_change` (line 38); `none` is a null
`r_descr`. -/
def r_descr_last_change (r_descr : Option ResourceDescr) : Nat :=
  match r_descr with
  | some r => r.last_change
  | none => 0

/-- The accessor `r_descr_mrl` (line 43). -/
def r_descr_mrl (r_descr : Option ResourceDescr) : Option String :=
  match r_descr with
  | some r =>
    match r.info with
    | some info => info.mrl
    | none => none
  | none => none

/-- The accessor `r_descr_twin` (line 48). -/
def r_descr_twin (r_descr : Option ResourceDescr) : Option String :=
  match r_descr with
  | some r =>
    match r.info with
    | some info => if info.twin ≠ "" then some info.twin else none
    | none => none
  | none => none

/-- The accessor `r_descr_multicast` (line 55). -/
def r_descr_multicast (r_descr : Option ResourceDescr) : Option String :=
  match r_descr with
  | some r =>
    match r.info with
    | some info => if info.multicast ≠ "" then some info.multicast else none
    | none => none
  | none => none

/-- The accessor `r_descr_ttl` (line 62). -/
def r_descr_ttl (r_descr : Option ResourceDescr) : Option String :=
  match r_descr with
  | some r =>
    match r.info with
    | some info => if info.ttl ≠ "" then some info.ttl else none
    | none => none
  | none => none

/-- Modelled from the spec: the accessor `r_descr_name` is not among the
sources; `name(r)` yields the stored name or nil. -/
def r_descr_name (r_descr : ResourceDescr) : Option String :=
  match r_descr.info with
  | some info => info.name
  | none => none

/-- Modelled from the spec: the accessor `r_descr_descrURI` is not among the
sources; `description_uri(r)` yields the stored string or nil. -/
def r_descr_descrURI (r_descr : ResourceDescr) : Option String :=
  match r_descr.info with
  | some info => info.descrURI
  | none => none

/-- Modelled from the spec: the accessor `r_descr_email` is not among the
sources; it yields the stored string or nil. -/
def r_descr_email (r_descr : ResourceDescr) : Option String :=
  match r_descr.info with
  | some info => info.email
  | none => none

/-- Modelled from the spec: the accessor `r_descr_phone` is not among the
sources; it yields the stored string or nil. -/
def r_descr_phone (r_descr : ResourceDescr) : Option String :=
  match r_descr.info with
  | some info => info.phone
  | none => none

/-- Modelled from the spec: the accessor `r_descr_time` is not among the
sources; `duration(r)` yields the duration in seconds, 0 when unknown. -/
def r_descr_time (r_descr : ResourceDescr) : ℚ :=
  match r_descr.info with
  | some info => info.duration
  | none => 0

/-- Modelled from the spec: the accessor `r_descr_sdp_private` is not among
the sources; `private_fields(r)` yields the fields in order. -/
def r_descr_sdp_private (r_descr : ResourceDescr) : List sdp_field :=
  match r_descr.info with
  | some info => info.sdp_private
  | none => []

/-- Modelled from the spec: the accessor `r_descr_get_media` is not among the
sources; `media_groups(r)` yields the groups in order. -/
def r_descr_get_media (r_descr : ResourceDescr) : List (List MediaDescr) := r_descr.media

/-! ## SDP session description (`src/network/sdp2.c`) -/

/-- The line terminator `SDP2_EL`. -/
def SDP2_EL : String := "\r\n"

/-- The default multicast time to live, `DEFAULT_TTL`. -/
def DEFAULT_TTL : Nat := 32

/-- What the builder takes from outside the repository: the `PACKAGE` and
`VERSION` strings of the build configuration, the `%f` conversion of `printf`
and the URI escaping of GLib. -/
structure Externals where
  PACKAGE : String
  VERSION : String
  printf_f : ℚ → String
  g_uri_escape_string : String → String

/-- The request URL, with the two components the builder reads. -/
structure Url where
  hostname : String
  path : String
  deriving DecidableEq

/-- The server data, reduced to the resources it can describe.

Modelled from the spec: `struct feng` and the lookup `r_descr_get` are not
among the sources; the lookup yields the description of the resource at a
path, or fails. -/
structure feng where
  resources : String → Option ResourceDescr

/-- Modelled from the spec: the lookup `r_descr_get` is not among the
sources; it yields the description of a found resource and nil otherwise. -/
def r_descr_get (srv : feng) (path : String) : Option ResourceDescr := srv.resources path

/-- The number of low bits a natural number loses when it is reduced to 24
significant bits; the first argument bounds the number of halvings and is
taken to be the number itself. -/
def f32_shift : Nat → Nat → Nat
  | 0, _ => 0
  | fuel + 1, n => if n < 16777216 then 0 else f32_shift fuel (n / 2) + 1

/-- The value of a natural number converted to `float` (IEEE 754 single
precision): 24 significant bits, rounding to nearest, ties to even. -/
def f32_round (n : Nat) : Nat :=
  let sh := f32_shift n n
  let q := n / 2 ^ sh
  let r := n % 2 ^ sh
  if 2 * r < 2 ^ sh then q * 2 ^ sh
  else if 2 * r = 2 ^ sh ∧ q % 2 = 0 then q * 2 ^ sh
  else (q + 1) * 2 ^ sh

/-- The macro `NTP_time(t)`, `((float)t + 2208988800U)`: both operands are
converted to `float` and the sum, stored in a `float` variable, is a `float`
(single-precision evaluation, as on x86-64).  The value is an integer because
it exceeds `2^24`. -/
def NTP_time (t : Nat) : Nat := f32_round (f32_round t + f32_round 2208988800)

/-- The conversion `%.0f` of an integer-valued `float`: its decimal digits. -/
def printf_0f (x : Nat) : String := Nat.repr x

/-- The conversions `%u` and `%d` of a natural number: its decimal digits. -/
def printf_u (x : Nat) : String := Nat.repr x

/-- Modelled from the spec: the accessor `m_descr_rtp_pt` is not among the
sources; it yields the payload type of a media description. -/
def m_descr_rtp_pt (m : MediaDescr) : Nat := m.rtp_pt

/-- The callback `sdp_mdescr_private_append` (lines 66-89): `descr` and
`media` are the members of the pair passed as user data. -/
def sdp_mdescr_private_append (descr : String) (media : MediaDescr) (priv : sdp_field) :
    String :=
  match priv.type with
  | sdp_field_type.empty_field => descr ++ (priv.field ++ SDP2_EL)
  | sdp_field_type.fmtp =>
    descr ++ ("a=fmtp:" ++ printf_u (m_descr_rtp_pt media) ++ " " ++ priv.field ++ SDP2_EL)
  | sdp_field_type.rtpmap =>
    descr ++ ("a=rtpmap:" ++ printf_u (m_descr_rtp_pt media) ++ " " ++ priv.field ++ SDP2_EL)
  | _ => descr

/-- The callback `sdp_mdescr_private_list_append` (lines 100-110). -/
def sdp_mdescr_private_list_append (descr : String) (media : MediaDescr) : String :=
  media.sdp_private.foldl (fun d priv => sdp_mdescr_private_append d media priv) descr

/-- The callback `sdp_mdescr_pt_append` (lines 121-128). -/
def sdp_mdescr_pt_append (descr : String) (mdescr : MediaDescr) : String :=
  descr ++ (" " ++ printf_u (m_descr_rtp_pt mdescr))

/-- The callback `sdp_media_descr` (lines 140-225); an empty group is the
null list. -/
def sdp_media_descr (ext : Externals) (descr : String) (m_descr_list : List MediaDescr) :
    String :=
  match m_descr_list.head? with
  | none => descr
  | some m_descr =>
    let type := m_descr.type
    let descr :=
      match type with
      | MediaType.MP_audio => descr ++ "m=audio "
      | MediaType.MP_video => descr ++ "m=video "
      | MediaType.MP_application => descr ++ "m=application "
      | MediaType.MP_data => descr ++ "m=data "
      | MediaType.MP_control => descr ++ "m=control "
    let descr := descr ++ (printf_u m_descr.rtp_port ++ " RTP/AVP")
    let descr := m_descr_list.foldl sdp_mdescr_pt_append descr
    let descr := descr ++ SDP2_EL
    let encoded_media_name := ext.g_uri_escape_string m_descr.name
    let descr := descr ++ ("a=control:TrackID=" ++ encoded_media_name ++ SDP2_EL)
    let frame_rate := m_descr.frame_rate
    let descr :=
      if frame_rate ≠ 0 ∧ type = MediaType.MP_video then
        descr ++ ("a=framerate:" ++ ext.printf_f frame_rate ++ SDP2_EL)
      else descr
    let descr := m_descr_list.foldl sdp_mdescr_private_list_append descr
    let descr :=
      match m_descr.commons_deed with
      | some commons_deed => descr ++ ("a=uriLicense:" ++ commons_deed ++ SDP2_EL)
      | none => descr
    let descr :=
      match m_descr.rdf_page with
      | some rdf_page => descr ++ ("a=uriMetadata:" ++ rdf_page ++ SDP2_EL)
      | none => descr
    let descr :=
      match m_descr.title with
      | some title => descr ++ ("a=title:" ++ title ++ SDP2_EL)
      | none => descr
    let descr :=
      match m_descr.author with
      | some author => descr ++ ("a=author:" ++ author ++ SDP2_EL)
      | none => descr
    descr

/-- The callback `sdp_rdescr_private_append` (lines 235-249). -/
def sdp_rdescr_private_append (descr : String) (priv : sdp_field) : String :=
  match priv.type with
  | sdp_field_type.empty_field => descr ++ (priv.field ++ SDP2_EL)
  | _ => descr

/-- The function `sdp_session_descr` (lines 261-357); `now` is the value of
`time(NULL)`, `none` the null result. -/
def sdp_session_descr (ext : Externals) (now : Nat) (srv : feng) (url : Url) :
    Option String :=
  match r_descr_get srv url.path with
  | none => none
  | some r_descr =>
    let descr := "v=0" ++ SDP2_EL
    let currtime_float := NTP_time now
    let restime := r_descr_last_change (some r_descr)
    let restime_float := if restime ≠ 0 then NTP_time restime else currtime_float
    let resname :=
      match r_descr_name r_descr with
      | none => "RTSP Session"
      | some name => name
    let descr := descr ++ ("o=- " ++ printf_0f currtime_float ++ " " ++ printf_0f restime_float
      ++ " IN IP4 " ++ url.hostname ++ SDP2_EL)
    let descr := descr ++ ("s=" ++ resname ++ SDP2_EL)
    let descr :=
      match r_descr_descrURI r_descr with
      | some uri => descr ++ ("u=" ++ uri ++ SDP2_EL)
      | none => descr
    let descr :=
      match r_descr_email r_descr with
      | some email => descr ++ ("e=" ++ email ++ SDP2_EL)
      | none => descr
    let descr :=
      match r_descr_phone r_descr with
      | some phone => descr ++ ("p=" ++ phone ++ SDP2_EL)
      | none => descr
    let descr := descr ++ "c=IN IP4 "
    let descr :=
      match r_descr_multicast (some r_descr) with
      | some multicast =>
        let descr := descr ++ (multicast ++ "/")
        match r_descr_ttl (some r_descr) with
        | some ttl => descr ++ (ttl ++ SDP2_EL)
        | none => descr ++ (printf_u DEFAULT_TTL ++ SDP2_EL)
      | none => descr ++ ("0.0.0.0" ++ SDP2_EL)
    let descr := descr ++ ("t=0 0" ++ SDP2_EL)
    let descr := descr ++ ("a=type:broadcast" ++ SDP2_EL)
    let descr := descr ++ ("a=tool:" ++ ext.PACKAGE ++ " " ++ ext.VERSION
      ++ " Streaming Server" ++ SDP2_EL)
    let descr := descr ++ ("a=control:*" ++ SDP2_EL)
    let duration := r_descr_time r_descr
    let descr :=
      if duration > 0 then descr ++ ("a=range:npt=0-" ++ ext.printf_f duration ++ SDP2_EL)
      else descr
    let descr := (r_descr_sdp_private r_descr).foldl sdp_rdescr_private_append descr
    let descr := (r_descr_get_media r_descr).foldl (sdp_media_descr ext) descr
    some descr

/-! ## The emitted text, line by line -/

/-- Concatenation of a list of strings. -/
def cat (ls : List String) : String := ls.foldr (fun a b => a ++ b) ""

/-- The text made of the given lines, each terminated by CRLF. -/
def crlf_text (ls : List String) : String := cat (ls.map fun l => l ++ SDP2_EL)

/-- The optional line `tag` followed by a value: present exactly when the
value is. -/
def opt_line (tag : String) (v : Option String) : List String :=
  match v with
  | some x => [tag ++ x]
  | none => []

/-- The label of a media kind on the `m=` line. -/
def kind_label : MediaType → String
  | MediaType.MP_audio => "audio"
  | MediaType.MP_video => "video"
  | MediaType.MP_application => "application"
  | MediaType.MP_data => "data"
  | MediaType.MP_control => "control"

/-- The `m=` line of a group whose first member is `first`, as the spec words
it: label, port of the first member, `RTP/AVP`, then the payload type of
every member. -/
def sdp_m_line (g : List MediaDescr) (first : MediaDescr) : String :=
  "m=" ++ kind_label first.type ++ " " ++ printf_u first.rtp_port ++ " RTP/AVP"
    ++ cat (g.map fun m => " " ++ printf_u m.rtp_pt)

/-- The line emitted for a private field of the member `m` of a group, as the
spec words it; no line for the other kinds. -/
def mdescr_private_line (m : MediaDescr) (f : sdp_field) : Option String :=
  match f.type with
  | sdp_field_type.empty_field => some f.field
  | sdp_field_type.fmtp => some ("a=fmtp:" ++ printf_u m.rtp_pt ++ " " ++ f.field)
  | sdp_field_type.rtpmap => some ("a=rtpmap:" ++ printf_u m.rtp_pt ++ " " ++ f.field)
  | sdp_field_type.other => none

/-- The line emitted for a private field of the resource, as the spec words
it: the fields of kind empty, verbatim. -/
def rdescr_private_line (f : sdp_field) : Option String :=
  match f.type with
  | sdp_field_type.empty_field => some f.field
  | _ => none

/-- The lines of the private fields of all members of a group, member by
member and field by field. -/
def group_private_lines (g : List MediaDescr) : List String :=
  g.flatMap fun m => m.sdp_private.filterMap (mdescr_private_line m)

/-- The lines of the media block of a group, as the spec lists them. -/
def media_lines (ext : Externals) (g : List MediaDescr) : List String :=
  match g with
  | [] => []
  | first :: _ =>
    [sdp_m_line g first, "a=control:TrackID=" ++ ext.g_uri_escape_string first.name]
    ++ (if first.frame_rate ≠ 0 ∧ first.type = MediaType.MP_video then
          ["a=framerate:" ++ ext.printf_f first.frame_rate]
        else [])
    ++ group_private_lines g
    ++ opt_line "a=uriLicense:" first.commons_deed
    ++ opt_line "a=uriMetadata:" first.rdf_page
    ++ opt_line "a=title:" first.title
    ++ opt_line "a=author:" first.author

/-- The `o=` line the source prints: both numbers are `float` values. -/
def sdp_o_line (now : Nat) (r : ResourceDescr) (url : Url) : String :=
  "o=- " ++ printf_0f (NTP_time now) ++ " "
    ++ printf_0f (if r.last_change ≠ 0 then NTP_time r.last_change else NTP_time now)
    ++ " IN IP4 " ++ url.hostname

/-- The `o=` line as the spec words it: the session id is the integer
`now + 2208988800`, the version `last_change + 2208988800` when
`last_change > 0` and the session id otherwise. -/
def spec_o_line (now : Nat) (r : ResourceDescr) (url : Url) : String :=
  "o=- " ++ Nat.repr (now + 2208988800) ++ " "
    ++ Nat.repr (if r.last_change > 0 then r.last_change + 2208988800 else now + 2208988800)
    ++ " IN IP4 " ++ url.hostname

/-- The connection line as the spec words it, from the stored strings. -/
def spec_c_line (r : ResourceDescr) : String :=
  match r.info with
  | none => "c=IN IP4 0.0.0.0"
  | some info =>
    if info.multicast = "" then "c=IN IP4 0.0.0.0"
    else if info.ttl = "" then "c=IN IP4 " ++ info.multicast ++ "/32"
    else "c=IN IP4 " ++ info.multicast ++ "/" ++ info.ttl

/-- The session-level lines that follow the `o=` line, up to the optional
range line, as the spec lists them. -/
def session_head_lines (ext : Externals) (r : ResourceDescr) : List String :=
  ["s=" ++ (r_descr_name r).getD "RTSP Session"]
  ++ opt_line "u=" (r_descr_descrURI r)
  ++ opt_line "e=" (r_descr_email r)
  ++ opt_line "p=" (r_descr_phone r)
  ++ [spec_c_line r, "t=0 0", "a=type:broadcast",
      "a=tool:" ++ ext.PACKAGE ++ " " ++ ext.VERSION ++ " Streaming Server",
      "a=control:*"]
  ++ (if r_descr_time r > 0 then ["a=range:npt=0-" ++ ext.printf_f (r_descr_time r)] else [])

/-- All the lines of a session description, in order. -/
def session_lines (ext : Externals) (now : Nat) (url : Url) (r : ResourceDescr) :
    List String :=
  ["v=0", sdp_o_line now r url] ++ session_head_lines ext r
  ++ (r_descr_sdp_private r).filterMap rdescr_private_line
  ++ (r_descr_get_media r).flatMap (media_lines ext)

/-- A line without its trailing carriage return, when it has one. -/
def strip_cr (l : List Char) : List Char :=
  if l.getLast? = some '\r' then l.dropLast else l

/-- The lines of a text: the pieces between line feeds, each without its
trailing carriage return. -/
def text_lines (s : String) : List String :=
  (s.data.splitOn '\n').map fun l => String.mk (strip_cr l)

/-- Whether a line begins with `m=`. -/
def begins_m (l : String) : Bool := decide (l.data.take 2 = ['m', '='])

/-- The lines of a text that begin with `m=`, in order. -/
def sdp_m_lines (s : String) : List String := (text_lines s).filter begins_m

/-- The `m=` line of a group: that of its first member, nothing for an empty
group. -/
def group_m_line (g : List MediaDescr) : String :=
  match g with
  | [] => ""
  | first :: _ => sdp_m_line g first

/-- Whether a line begins with `c=`. -/
def begins_c (l : String) : Bool := decide (l.data.take 2 = ['c', '='])

/-- The lines of a text that begin with `c=`, in order. -/
def sdp_c_lines (s : String) : List String := (text_lines s).filter begins_c

/-! ## Inputs of the examples -/

/-- A stand-in for the `%f` conversion on the integral values of the
examples: the integer part followed by six zero decimals. -/
def printf_f_integral (x : ℚ) : String := Nat.repr (x.num / x.den).toNat ++ ".000000"

/-- The externals of the examples: package `feng`, version `2.1.0`; the
names of the examples consist of unreserved characters, which the URI
escaping leaves unchanged. -/
def ext_feng : Externals :=
  { PACKAGE := "feng"
    VERSION := "2.1.0"
    printf_f := printf_f_integral
    g_uri_escape_string := fun s => s }

/-- The video track of the spec's SDP scenario. -/
def clip_video : MediaDescr :=
  { type := MediaType.MP_video, name := "video0", rtp_pt := 96, rtp_port := 5004
    frame_rate := 25
    sdp_private := [⟨sdp_field_type.fmtp, "profile-level-id=42e01e"⟩]
    commons_deed := none, rdf_page := none, title := none, author := none }

/-- The info record of the spec's SDP scenario. -/
def clip_info : ResourceInfo :=
  { mrl := none, name := some "clip", descrURI := none, email := none, phone := none
    sdp_private := [], duration := 60, twin := "", multicast := "", ttl := "" }

/-- The resource of the spec's SDP scenario. -/
def clip_resource : ResourceDescr :=
  { info := some clip_info, media := [[clip_video]], last_change := 1000000000 }

/-- The request URL of the spec's SDP scenario. -/
def clip_url : Url := { hostname := "srv.example", path := "/clip" }

/-- A server that knows the resource of the scenario at every path. -/
def clip_server : feng := { resources := fun _ => some clip_resource }

/-- The scenario resource with the multicast address `239.0.0.1` and no
time to live. -/
def multicast_resource : ResourceDescr :=
  { clip_resource with info := some { clip_info with multicast := "239.0.0.1" } }

/-- A server that knows the multicast resource at every path. -/
def multicast_server : feng := { resources := fun _ => some multicast_resource }

/-- A resource without media groups whose only private field, of kind empty,
reads `m=audio 0 RTP/AVP 0`. -/
def private_m_resource : ResourceDescr :=
  { info := some { clip_info with
      sdp_private := [⟨sdp_field_type.empty_field, "m=audio 0 RTP/AVP 0"⟩] }
    media := []
    last_change := 1000000000 }

/-- A server that knows the resource with the private `m=` field at every
path. -/
def private_m_server : feng := { resources := fun _ => some private_m_resource }

/-- An audio track with payload type 97 and one field of every kind. -/
def clip_audio : MediaDescr :=
  { type := MediaType.MP_audio, name := "audio0", rtp_pt := 97, rtp_port := 5004
    frame_rate := 0
    sdp_private := [⟨sdp_field_type.rtpmap, "MPA/90000"⟩, ⟨sdp_field_type.fmtp, "layer=3"⟩,
                    ⟨sdp_field_type.empty_field, "a=ptime:20"⟩, ⟨sdp_field_type.other, "x"⟩]
    commons_deed := none, rdf_page := none, title := none, author := none }

/-- A description whose info record is present and whose `mrl` is a pointer
to the empty string. -/
def empty_mrl_descr : ResourceDescr :=
  { info := some { clip_info with mrl := some "" }, media := [], last_change := 0 }

/-- The scenario resource with a name that holds a line break followed by
`m=audio 0 RTP/AVP 0`. -/
def name_break_resource : ResourceDescr :=
  { clip_resource with
    info := some { clip_info with name := some "clip\r\nm=audio 0 RTP/AVP 0" } }

/-- A server that knows the resource with the line break in its name at
every path. -/
def name_break_server : feng := { resources := fun _ => some name_break_resource }

/-- The scenario resource with a private field of kind empty that reads
`c=IN IP4 10.0.0.1`. -/
def private_c_resource : ResourceDescr :=
  { clip_resource with
    info := some { clip_info with
      sdp_private := [⟨sdp_field_type.empty_field, "c=IN IP4 10.0.0.1"⟩] } }

/-- A server that knows the resource with the private `c=` field at every
path. -/
def private_c_server : feng := { resources := fun _ => some private_c_resource }

/-! ## Lemmas on the conversions -/

theorem double_trunc_of_nonneg (x : ℚ) (h : 0 ≤ x) : double_trunc x = ⌊x⌋ := by
  unfold double_trunc
  rw [Rat.floor_def]
  exact Int.tdiv_eq_ediv (Rat.num_nonneg.mpr h) (Int.natCast_nonneg _)

theorem double_trunc_natCast (n : Nat) : double_trunc (n : ℚ) = n := by
  rw [double_trunc_of_nonneg _ (Nat.cast_nonneg n)]
  exact Int.floor_natCast n

theorem double_trunc_nat_add (n : Nat) (x : ℚ) (h : 0 ≤ x) :
    double_trunc ((n : ℚ) + x) = (n : Int) + ⌊x⌋ := by
  rw [double_trunc_of_nonneg _ (add_nonneg (Nat.cast_nonneg n) h)]
  rw [show ((n : ℚ) + x) = x + ((n : ℤ) : ℚ) by push_cast; ring, Int.floor_add_int]
  ring

theorem htonl_natCast (n : Nat) : htonl (n : Int) = n % 4294967296 := by
  unfold htonl
  omega

theorem htons_lt (v : Int) : htons v < 65536 := by
  unfold htons
  omega

/-! ## Lemmas on the arithmetic in `double` -/

theorem round_half_even_one (a : Nat) : round_half_even a 1 = a := by
  simp [round_half_even, Nat.mod_one]

theorem f64_up_of_lt (fuel p q : Nat) (h : p < q * 2 ^ 53) : f64_up fuel p q = 0 := by
  cases fuel with
  | zero => rfl
  | succ k => simp only [f64_up, if_pos h]

theorem f64_round_frac_one (n : Nat) (h : n < 2 ^ 53) :
    ((f64_round_frac n 1).1 : ℚ) / ((f64_round_frac n 1).2 : ℚ) = (n : ℚ) := by
  unfold f64_round_frac
  by_cases h0 : n = 0
  · simp [h0]
  · rw [if_neg h0, f64_up_of_lt _ n 1 (by omega)]
    simp only [pow_zero, mul_one, round_half_even_one, Nat.cast_mul, Nat.cast_pow,
      Nat.cast_ofNat]
    field_simp

/-- A natural number below `2^53` is a `double`: rounding leaves it
unchanged. -/
theorem f64_round_natCast (n : Nat) (h : n < 2 ^ 53) : f64_round (n : ℚ) = (n : ℚ) := by
  unfold f64_round
  rw [if_pos (Nat.cast_nonneg n)]
  simp only [Rat.num_natCast, Int.natAbs_ofNat, Rat.den_natCast]
  exact f64_round_frac_one n h

theorem f64_round_nonneg (x : ℚ) (h : 0 ≤ x) : 0 ≤ f64_round x := by
  unfold f64_round
  rw [if_pos h]
  positivity

theorem double_to_uint32_of_nonneg (x : ℚ) (h0 : 0 ≤ x) (h1 : x < 2 ^ 63) :
    double_to_uint32 x = ⌊x⌋.toNat % 2 ^ 32 := by
  unfold double_to_uint32
  rw [if_pos ⟨by linarith, by norm_num at h1 ⊢; exact h1⟩, double_trunc_of_nonneg x h0]
  obtain ⟨m, hm⟩ := Int.eq_ofNat_of_zero_le (Int.floor_nonneg.mpr h0)
  rw [hm]
  unfold htonl
  simp only [Int.toNat_ofNat]
  omega

theorem double_to_uint32_of_large (x : ℚ) (h : 2 ^ 63 ≤ x) : double_to_uint32 x = 0 := by
  unfold double_to_uint32
  rw [if_neg]
  intro hx
  norm_num at h
  linarith [hx.2]

theorem double_to_uint32_natCast (n : Nat) (h : n < 2 ^ 63) :
    double_to_uint32 (n : ℚ) = n % 2 ^ 32 := by
  rw [double_to_uint32_of_nonneg _ (Nat.cast_nonneg n) (by exact_mod_cast h)]
  simp

/-- The sum of two unsigned 32-bit integers is exact in `double` and inside
the range of the conversion: rounding it and converting it is reduction
modulo `2^32` of the exact sum. -/
theorem u32_sum_exact (a b : Nat) (ha : a < 2 ^ 32) (hb : b < 2 ^ 32) :
    double_to_uint32 (f64_round ((a : ℚ) + (b : ℚ)))
      = htonl (double_trunc ((a : ℚ) + (b : ℚ))) := by
  rw [← Nat.cast_add, f64_round_natCast _ (by omega), double_to_uint32_natCast _ (by omega),
    double_trunc_natCast, htonl_natCast]
  rfl


/-! ### Rounding against the integers -/

theorem round_half_even_ge (a b k : Nat) (hb : 0 < b) (h : k * b ≤ a) :
    k ≤ round_half_even a b := by
  have hk : k ≤ a / b := (Nat.le_div_iff_mul_le hb).mpr h
  unfold round_half_even
  split_ifs <;> omega

theorem round_half_even_le (a b k : Nat) (hb : 0 < b) (h : a ≤ k * b) :
    round_half_even a b ≤ k := by
  have hk : a / b ≤ k := Nat.div_le_of_le_mul (by rw [Nat.mul_comm]; exact h)
  rcases Nat.lt_or_ge (a / b) k with hlt | hge
  · unfold round_half_even
    split_ifs <;> omega
  · have hq : a / b = k := le_antisymm hk hge
    have hm : a % b = 0 := by
      have h1 := Nat.div_add_mod a b
      rw [hq] at h1
      have h2 : b * k = k * b := Nat.mul_comm b k
      omega
    unfold round_half_even
    rw [hm, if_pos (by omega)]
    exact hk

theorem f64_up_spec (fuel p q : Nat) (h : ¬ p < q * 2 ^ 53) :
    q * 2 ^ f64_up fuel p q * 2 ^ 52 ≤ p := by
  induction fuel generalizing q with
  | zero =>
    simp only [f64_up, pow_zero, mul_one]
    omega
  | succ k ih =>
    simp only [f64_up, if_neg h]
    by_cases h2 : p < q * 2 * 2 ^ 53
    · rw [f64_up_of_lt k p (q * 2) h2]
      simp only [zero_add, pow_one]
      omega
    · have := ih (q * 2) h2
      calc q * 2 ^ (f64_up k p (q * 2) + 1) * 2 ^ 52
          = q * 2 * 2 ^ f64_up k p (q * 2) * 2 ^ 52 := by ring
        _ ≤ p := this

theorem f64_up_pos (fuel p q : Nat) (h : ¬ p < q * 2 ^ 53) : 0 < f64_up (fuel + 1) p q := by
  simp only [f64_up, if_neg h]
  omega

theorem f64_down_of_le (fuel p q : Nat) (h : q * 2 ^ 52 ≤ p) : f64_down fuel p q = 0 := by
  cases fuel with
  | zero => rfl
  | succ k => simp only [f64_down, if_pos h]

/-- The value of a non-negative rational as the quotient of the numerator
and denominator `f64_round` works on. -/
theorem rat_eq_natAbs_div (x : ℚ) (h : 0 ≤ x) : x = (x.num.natAbs : ℚ) / (x.den : ℚ) := by
  have h2 : ((x.num.natAbs : ℕ) : ℚ) = (x.num : ℚ) := by
    rw [Nat.cast_natAbs, abs_of_nonneg (Rat.num_nonneg.mpr h)]
  rw [h2]
  exact (Rat.num_div_den x).symm

/-- Rounding to `double` does not cross a natural number below `2^53` from
above. -/
theorem f64_round_ge_nat (x : ℚ) (n : Nat) (hn : n < 2 ^ 53) (h : (n : ℚ) ≤ x) :
    (n : ℚ) ≤ f64_round x := by
  have hx : 0 ≤ x := le_trans (Nat.cast_nonneg n) h
  have hq : 0 < x.den := x.den_pos
  have hqq : (0 : ℚ) < (x.den : ℚ) := by exact_mod_cast hq
  have hnp : n * x.den ≤ x.num.natAbs := by
    have h1 : (n : ℚ) * (x.den : ℚ) ≤ (x.num.natAbs : ℚ) := by
      have := rat_eq_natAbs_div x hx
      rw [this] at h
      exact (le_div_iff₀ hqq).mp h
    exact_mod_cast h1
  unfold f64_round
  rw [if_pos hx]
  unfold f64_round_frac
  by_cases h0 : x.num.natAbs = 0
  · rw [if_pos h0]
    rw [h0] at hnp
    have : n = 0 := by
      rcases Nat.eq_zero_or_pos n with h1 | h1
      · exact h1
      · have := Nat.mul_pos h1 hq
        omega
    simp [this]
  · rw [if_neg h0]
    have hd : (0 : ℚ) < ((2 ^ f64_down 1074 x.num.natAbs x.den : ℕ) : ℚ) := by positivity
    rw [le_div_iff₀ hd]
    by_cases hlt : x.num.natAbs < x.den * 2 ^ 53
    · rw [f64_up_of_lt _ _ _ hlt]
      simp only [pow_zero, mul_one]
      have := round_half_even_ge (x.num.natAbs * 2 ^ f64_down 1074 x.num.natAbs x.den) x.den
        (n * 2 ^ f64_down 1074 x.num.natAbs x.den) hq
        (by calc n * 2 ^ f64_down 1074 x.num.natAbs x.den * x.den
              = n * x.den * 2 ^ f64_down 1074 x.num.natAbs x.den := by ring
            _ ≤ x.num.natAbs * 2 ^ f64_down 1074 x.num.natAbs x.den :=
              Nat.mul_le_mul_right _ hnp)
      exact_mod_cast this
    · have hdz : f64_down 1074 x.num.natAbs x.den = 0 :=
        f64_down_of_le _ _ _ (by omega)
      rw [hdz]
      simp only [pow_zero, mul_one, Nat.cast_one]
      have hu := f64_up_spec 971 x.num.natAbs x.den hlt
      have hup := f64_up_pos 970 x.num.natAbs x.den hlt
      have hR := round_half_even_ge x.num.natAbs (x.den * 2 ^ f64_up 971 x.num.natAbs x.den)
        (2 ^ 52) (by positivity) (by rw [Nat.mul_comm]; exact hu)
      have h2 : 2 ≤ 2 ^ f64_up 971 x.num.natAbs x.den := by
        calc 2 = 2 ^ 1 := rfl
          _ ≤ 2 ^ f64_up 971 x.num.natAbs x.den := Nat.pow_le_pow_right (by norm_num) hup
      have h3 : n ≤ round_half_even x.num.natAbs (x.den * 2 ^ f64_up 971 x.num.natAbs x.den)
          * 2 ^ f64_up 971 x.num.natAbs x.den := by
        calc n ≤ 2 ^ 52 * 2 := by omega
          _ ≤ round_half_even x.num.natAbs (x.den * 2 ^ f64_up 971 x.num.natAbs x.den)
              * 2 ^ f64_up 971 x.num.natAbs x.den := Nat.mul_le_mul hR h2
      exact_mod_cast h3

/-- Rounding to `double` does not cross a natural number below `2^53` from
below. -/
theorem f64_round_le_nat (x : ℚ) (n : Nat) (hn : n < 2 ^ 53) (hx : 0 ≤ x)
    (h : x ≤ (n : ℚ)) :
    f64_round x ≤ (n : ℚ) := by
  have hq : 0 < x.den := x.den_pos
  have hqq : (0 : ℚ) < (x.den : ℚ) := by exact_mod_cast hq
  have hnp : x.num.natAbs ≤ n * x.den := by
    have h1 : (x.num.natAbs : ℚ) ≤ (n : ℚ) * (x.den : ℚ) := by
      have := rat_eq_natAbs_div x hx
      rw [this] at h
      exact (div_le_iff₀ hqq).mp h
    exact_mod_cast h1
  unfold f64_round
  rw [if_pos hx]
  unfold f64_round_frac
  by_cases h0 : x.num.natAbs = 0
  · rw [if_pos h0]
    simp
  · rw [if_neg h0]
    have hd : (0 : ℚ) < ((2 ^ f64_down 1074 x.num.natAbs x.den : ℕ) : ℚ) := by positivity
    rw [div_le_iff₀ hd]
    have hlt : x.num.natAbs < x.den * 2 ^ 53 := by
      calc x.num.natAbs ≤ n * x.den := hnp
        _ < 2 ^ 53 * x.den := Nat.mul_lt_mul_of_pos_right hn hq
        _ = x.den * 2 ^ 53 := Nat.mul_comm _ _
    rw [f64_up_of_lt _ _ _ hlt]
    simp only [pow_zero, mul_one]
    have := round_half_even_le (x.num.natAbs * 2 ^ f64_down 1074 x.num.natAbs x.den) x.den
      (n * 2 ^ f64_down 1074 x.num.natAbs x.den) hq
      (by calc x.num.natAbs * 2 ^ f64_down 1074 x.num.natAbs x.den
            ≤ n * x.den * 2 ^ f64_down 1074 x.num.natAbs x.den := Nat.mul_le_mul_right _ hnp
          _ = n * 2 ^ f64_down 1074 x.num.natAbs x.den * x.den := by ring)
    exact_mod_cast this

/-! ### A `double` is rounded to itself -/

theorem round_half_even_mul_left (k a b : Nat) (hk : 0 < k) :
    round_half_even (k * a) (k * b) = round_half_even a b := by
  unfold round_half_even
  rw [Nat.mul_mod_mul_left, Nat.mul_div_mul_left _ _ hk]
  have e1 : 2 * (k * (a % b)) < k * b ↔ 2 * (a % b) < b := by
    rw [show 2 * (k * (a % b)) = k * (2 * (a % b)) by ring]
    exact Nat.mul_lt_mul_left hk
  have e2 : 2 * (k * (a % b)) = k * b ↔ 2 * (a % b) = b := by
    rw [show 2 * (k * (a % b)) = k * (2 * (a % b)) by ring]
    exact Nat.mul_right_inj (Nat.pos_iff_ne_zero.mp hk)
  simp only [e1, e2]

theorem f64_up_mul_left (fuel k p q : Nat) (hk : 0 < k) :
    f64_up fuel (k * p) (k * q) = f64_up fuel p q := by
  induction fuel generalizing q with
  | zero => rfl
  | succ n ih =>
    have e : k * p < k * (q * 2 ^ 53) ↔ p < q * 2 ^ 53 := Nat.mul_lt_mul_left hk
    simp only [f64_up, e, Nat.mul_assoc, ih]

theorem f64_down_mul_left (fuel k p q : Nat) (hk : 0 < k) :
    f64_down fuel (k * p) (k * q) = f64_down fuel p q := by
  induction fuel generalizing p with
  | zero => rfl
  | succ n ih =>
    have e : k * (q * 2 ^ 52) ≤ k * p ↔ q * 2 ^ 52 ≤ p :=
      ⟨fun h => Nat.le_of_mul_le_mul_left h hk, fun h => Nat.mul_le_mul_left k h⟩
    simp only [f64_down, e, Nat.mul_assoc, ih]

theorem f64_round_frac_mul_left (k p q : Nat) (hk : 0 < k) :
    f64_round_frac (k * p) (k * q) = f64_round_frac p q := by
  unfold f64_round_frac
  have e0 : k * p = 0 ↔ p = 0 := by
    constructor
    · intro h
      rcases Nat.mul_eq_zero.mp h with h1 | h1
      · omega
      · exact h1
    · intro h
      rw [h, Nat.mul_zero]
  simp only [e0, f64_up_mul_left _ _ _ _ hk, f64_down_mul_left _ _ _ _ hk, Nat.mul_assoc,
    round_half_even_mul_left _ _ _ hk]

/-- Rounding of a quotient of natural numbers, whether in lowest terms or
not. -/
theorem f64_round_div (a b : Nat) (hb : 0 < b) :
    f64_round ((a : ℚ) / (b : ℚ))
      = ((f64_round_frac a b).1 : ℚ) / ((f64_round_frac a b).2 : ℚ) := by
  have hx : 0 ≤ (a : ℚ) / (b : ℚ) := by positivity
  obtain ⟨c, hc1, hc2⟩ := Rat.exists_eq_mul_div_num_and_eq_mul_div_den (a : ℤ)
    (show (b : ℤ) ≠ 0 by exact_mod_cast hb.ne')
  have hcast : (((a : ℤ) : ℚ) / ((b : ℤ) : ℚ)) = (a : ℚ) / (b : ℚ) := by simp
  rw [hcast] at hc1 hc2
  have hden : 0 < ((a : ℚ) / (b : ℚ)).den := Rat.den_pos _
  have hcpos : 0 < c := by
    by_contra hneg
    have h1 : (0 : ℤ) < (b : ℤ) := by exact_mod_cast hb
    have h2 : c * (((a : ℚ) / (b : ℚ)).den : ℤ) ≤ 0 :=
      mul_nonpos_of_nonpos_of_nonneg (not_lt.mp hneg) (by exact_mod_cast hden.le)
    omega
  obtain ⟨k, hk⟩ := Int.eq_ofNat_of_zero_le hcpos.le
  have hkpos : 0 < k := by omega
  have hnum : (((a : ℚ) / (b : ℚ)).num.natAbs : ℤ) = ((a : ℚ) / (b : ℚ)).num :=
    Int.natAbs_of_nonneg (Rat.num_nonneg.mpr hx)
  have ha : a = k * ((a : ℚ) / (b : ℚ)).num.natAbs := by
    have : (a : ℤ) = (k : ℤ) * (((a : ℚ) / (b : ℚ)).num.natAbs : ℤ) := by
      rw [hnum, ← hk]
      exact hc1
    exact_mod_cast this
  have hb2 : b = k * ((a : ℚ) / (b : ℚ)).den := by
    have : (b : ℤ) = (k : ℤ) * (((a : ℚ) / (b : ℚ)).den : ℤ) := by
      rw [← hk]
      exact hc2
    exact_mod_cast this
  have hfrac : f64_round_frac a b
      = f64_round_frac ((a : ℚ) / (b : ℚ)).num.natAbs ((a : ℚ) / (b : ℚ)).den := by
    exact (congrArg₂ f64_round_frac ha hb2).trans (f64_round_frac_mul_left k _ _ hkpos)
  unfold f64_round
  rw [if_pos hx, hfrac]

theorem f64_up_le_fuel (fuel p q : Nat) : f64_up fuel p q ≤ fuel := by
  induction fuel generalizing q with
  | zero => exact Nat.le_refl _
  | succ n ih =>
    simp only [f64_up]
    split
    · omega
    · have := ih (q * 2)
      omega

theorem f64_up_le (fuel p q e : Nat) (h : p < q * 2 ^ 53 * 2 ^ e) : f64_up fuel p q ≤ e := by
  induction fuel generalizing q e with
  | zero => exact Nat.zero_le _
  | succ n ih =>
    simp only [f64_up]
    split
    · omega
    · rename_i hlt
      cases e with
      | zero =>
        simp only [pow_zero, mul_one] at h
        exact absurd h hlt
      | succ e2 =>
        have := ih (q * 2) e2 (by
          calc p < q * 2 ^ 53 * 2 ^ (e2 + 1) := h
            _ = q * 2 * 2 ^ 53 * 2 ^ e2 := by ring)
        omega

theorem f64_up_reached (fuel p q : Nat) :
    f64_up fuel p q = fuel ∨ p < q * 2 ^ 53 * 2 ^ f64_up fuel p q := by
  induction fuel generalizing q with
  | zero => exact Or.inl rfl
  | succ n ih =>
    simp only [f64_up]
    split
    · rename_i hlt
      right
      simpa using hlt
    · rcases ih (q * 2) with h | h
      · left
        omega
      · right
        calc p < q * 2 * 2 ^ 53 * 2 ^ f64_up n p (q * 2) := h
          _ = q * 2 ^ 53 * 2 ^ (f64_up n p (q * 2) + 1) := by ring

theorem f64_down_le_fuel (fuel p q : Nat) : f64_down fuel p q ≤ fuel := by
  induction fuel generalizing p with
  | zero => exact Nat.le_refl _
  | succ n ih =>
    simp only [f64_down]
    split
    · omega
    · have := ih (p * 2)
      omega

theorem f64_down_reached (fuel p q : Nat) :
    f64_down fuel p q = fuel ∨ q * 2 ^ 52 ≤ p * 2 ^ f64_down fuel p q := by
  induction fuel generalizing p with
  | zero => exact Or.inl rfl
  | succ n ih =>
    simp only [f64_down]
    split
    · rename_i hle
      right
      simpa using hle
    · rcases ih (p * 2) with h | h
      · left
        omega
      · right
        calc q * 2 ^ 52 ≤ p * 2 * 2 ^ f64_down n (p * 2) q := h
          _ = p * 2 ^ (f64_down n (p * 2) q + 1) := by ring

/-- The scaled fraction stays below `2^53`: the downward search stops as soon
as `2^52` is reached. -/
theorem f64_down_below (fuel p q : Nat) (h : p < q * 2 ^ 53) :
    p * 2 ^ f64_down fuel p q < q * 2 ^ 53 := by
  induction fuel generalizing p with
  | zero => simpa [f64_down] using h
  | succ n ih =>
    simp only [f64_down]
    split
    · simpa using h
    · rename_i hle
      have := ih (p * 2) (by omega)
      calc p * 2 ^ (f64_down n (p * 2) q + 1)
          = p * 2 * 2 ^ f64_down n (p * 2) q := by ring
        _ < q * 2 ^ 53 := this

theorem round_half_even_of_dvd (a b : Nat) (h : b ∣ a) :
    round_half_even a b * b = a := by
  obtain ⟨c, rfl⟩ := h
  rcases Nat.eq_zero_or_pos b with hb | hb
  · subst hb
    simp [round_half_even]
  · unfold round_half_even
    rw [Nat.mul_mod_right, Nat.mul_div_cancel_left c hb, if_pos (by omega)]
    exact Nat.mul_comm c b

theorem f64_round_frac_of_dvd (n d : Nat) (hn : 0 < n) (hd : 0 < d)
    (h : d * 2 ^ f64_up 971 n d ∣ n * 2 ^ f64_down 1074 n d) :
    ((f64_round_frac n d).1 : ℚ) / ((f64_round_frac n d).2 : ℚ) = (n : ℚ) / (d : ℚ) := by
  have hr := round_half_even_of_dvd _ _ h
  unfold f64_round_frac
  rw [if_neg (by omega)]
  simp only
  have hdq : (0 : ℚ) < (d : ℚ) := by exact_mod_cast hd
  have h2 : (0 : ℚ) < ((2 ^ f64_down 1074 n d : ℕ) : ℚ) := by positivity
  rw [div_eq_div_iff h2.ne' hdq.ne']
  have : round_half_even (n * 2 ^ f64_down 1074 n d) (d * 2 ^ f64_up 971 n d)
      * 2 ^ f64_up 971 n d * d = n * 2 ^ f64_down 1074 n d := by
    calc round_half_even (n * 2 ^ f64_down 1074 n d) (d * 2 ^ f64_up 971 n d)
          * 2 ^ f64_up 971 n d * d
        = round_half_even (n * 2 ^ f64_down 1074 n d) (d * 2 ^ f64_up 971 n d)
          * (d * 2 ^ f64_up 971 n d) := by ring
      _ = n * 2 ^ f64_down 1074 n d := hr
  exact_mod_cast this

theorem pow_two_dvd_of_le (a b c : Nat) (h : a ≤ b) : 2 ^ a ∣ c * 2 ^ b :=
  dvd_mul_of_dvd_right (Nat.pow_dvd_pow 2 h) c

/-- The result of a rounding, rounded again, is itself (fractions). -/
theorem f64_round_frac_fixed (p q : Nat) :
    ((f64_round_frac (f64_round_frac p q).1 (f64_round_frac p q).2).1 : ℚ)
        / ((f64_round_frac (f64_round_frac p q).1 (f64_round_frac p q).2).2 : ℚ)
      = ((f64_round_frac p q).1 : ℚ) / ((f64_round_frac p q).2 : ℚ) := by
  by_cases hp : p = 0
  · have : f64_round_frac p q = (0, 1) := by simp [f64_round_frac, hp]
    rw [this]
    rfl
  have hfr : f64_round_frac p q
      = (round_half_even (p * 2 ^ f64_down 1074 p q) (q * 2 ^ f64_up 971 p q)
          * 2 ^ f64_up 971 p q, 2 ^ f64_down 1074 p q) := by
    simp [f64_round_frac, hp]
  rw [hfr]
  simp only
  generalize hR : round_half_even (p * 2 ^ f64_down 1074 p q) (q * 2 ^ f64_up 971 p q) = R
  by_cases hR0 : R = 0
  · subst hR0
    simp [f64_round_frac]
  have hRpos : 0 < R := Nat.pos_of_ne_zero hR0
  apply f64_round_frac_of_dvd _ _ (Nat.mul_pos hRpos (by positivity)) (by positivity)
  by_cases hlt : p < q * 2 ^ 53
  · -- the value is below 2^53: no upward scaling
    have hu : f64_up 971 p q = 0 := f64_up_of_lt _ _ _ hlt
    rw [hu] at hR ⊢
    simp only [pow_zero, mul_one] at hR ⊢
    have hq : 0 < q := by
      rcases Nat.eq_zero_or_pos q with h | h
      · rw [h] at hlt
        omega
      · exact h
    have hRle : R ≤ 2 ^ 53 := by
      rw [← hR]
      apply round_half_even_le _ _ _ hq
      have := f64_down_below 1074 p q hlt
      rw [Nat.mul_comm (2 ^ 53) q]
      exact this.le
    have hdle : f64_down 1074 p q ≤ 1074 := f64_down_le_fuel _ _ _
    generalize f64_down 1074 p q = d at hdle hR ⊢
    have hpd : 0 < 2 ^ d := by positivity
    rcases Nat.lt_or_ge R (2 ^ 53) with hR53 | hR53
    · have hu2 : f64_up 971 R (2 ^ d) = 0 := by
        apply f64_up_of_lt
        calc R < 2 ^ 53 := hR53
          _ = 1 * 2 ^ 53 := (Nat.one_mul _).symm
          _ ≤ 2 ^ d * 2 ^ 53 := Nat.mul_le_mul_right _ hpd
      rw [hu2, pow_zero, mul_one]
      apply pow_two_dvd_of_le
      rcases f64_down_reached 1074 R (2 ^ d) with h | h
      · omega
      · by_contra hcon
        have h1 : f64_down 1074 R (2 ^ d) + 1 ≤ d := by omega
        have h2 : R * 2 ^ f64_down 1074 R (2 ^ d) < 2 ^ d * 2 ^ 52 := by
          calc R * 2 ^ f64_down 1074 R (2 ^ d)
              < 2 ^ 53 * 2 ^ f64_down 1074 R (2 ^ d) :=
                Nat.mul_lt_mul_of_pos_right hR53 (by positivity)
            _ = 2 ^ (f64_down 1074 R (2 ^ d) + 1) * 2 ^ 52 := by ring
            _ ≤ 2 ^ d * 2 ^ 52 :=
                Nat.mul_le_mul_right _ (Nat.pow_le_pow_right (by norm_num) h1)
        omega
    · have hReq : R = 2 ^ 53 := le_antisymm hRle hR53
      rw [hReq]
      have hu2 : f64_up 971 (2 ^ 53) (2 ^ d) ≤ 1 := by
        apply f64_up_le
        calc 2 ^ 53 < 1 * 2 ^ 53 * 2 ^ 1 := by norm_num
          _ ≤ 2 ^ d * 2 ^ 53 * 2 ^ 1 :=
            Nat.mul_le_mul_right _ (Nat.mul_le_mul_right _ hpd)
      have hsum : d + f64_up 971 (2 ^ 53) (2 ^ d) ≤ 53 + f64_down 1074 (2 ^ 53) (2 ^ d) := by
        rcases Nat.eq_zero_or_pos d with hd0 | hd0
        · omega
        · have hu3 : f64_up 971 (2 ^ 53) (2 ^ d) = 0 := by
            apply f64_up_of_lt
            calc 2 ^ 53 = 1 * 2 ^ 53 := (Nat.one_mul _).symm
              _ < 2 ^ d * 2 ^ 53 :=
                Nat.mul_lt_mul_of_pos_right (Nat.one_lt_two_pow (by omega)) (by positivity)
          rcases f64_down_reached 1074 (2 ^ 53) (2 ^ d) with h | h
          · omega
          · have h3 : 2 ^ (d + 52) ≤ 2 ^ (53 + f64_down 1074 (2 ^ 53) (2 ^ d)) := by
              calc 2 ^ (d + 52) = 2 ^ d * 2 ^ 52 := by ring
                _ ≤ 2 ^ 53 * 2 ^ f64_down 1074 (2 ^ 53) (2 ^ d) := h
                _ = 2 ^ (53 + f64_down 1074 (2 ^ 53) (2 ^ d)) := by ring
            have := (Nat.pow_le_pow_iff_right (by norm_num : 1 < 2)).mp h3
            omega
      rw [← pow_add, ← pow_add]
      exact Nat.pow_dvd_pow 2 hsum
  · -- the value is 2^53 or more: no downward scaling
    have hq52 : q * 2 ^ 52 ≤ p := by omega
    have hd : f64_down 1074 p q = 0 := f64_down_of_le _ _ _ hq52
    rw [hd] at hR ⊢
    simp only [pow_zero, mul_one, one_mul] at hR ⊢
    have hule : f64_up 971 p q ≤ 971 := f64_up_le_fuel _ _ _
    have hreach := f64_up_reached 971 p q
    generalize f64_up 971 p q = u at hule hreach hR ⊢
    rcases hreach with hcap | hreach
    · have := f64_up_le_fuel 971 (R * 2 ^ u) 1
      exact dvd_mul_of_dvd_left (pow_two_dvd_of_le _ _ R (by omega)) _
    · have hq : 0 < q := by
        rcases Nat.eq_zero_or_pos q with h | h
        · rw [h] at hreach
          omega
        · exact h
      have hRle : R ≤ 2 ^ 53 := by
        rw [← hR]
        apply round_half_even_le _ _ _ (Nat.mul_pos hq (by positivity))
        calc p ≤ q * 2 ^ 53 * 2 ^ u := hreach.le
          _ = 2 ^ 53 * (q * 2 ^ u) := by ring
      rcases Nat.lt_or_ge R (2 ^ 53) with hR53 | hR53
      · have hu2 : f64_up 971 (R * 2 ^ u) 1 ≤ u := by
          apply f64_up_le
          calc R * 2 ^ u < 2 ^ 53 * 2 ^ u := Nat.mul_lt_mul_of_pos_right hR53 (by positivity)
            _ = 1 * 2 ^ 53 * 2 ^ u := by ring
        exact dvd_mul_of_dvd_left (pow_two_dvd_of_le _ _ R hu2) _
      · have hReq : R = 2 ^ 53 := le_antisymm hRle hR53
        rw [hReq]
        have hu2 : f64_up 971 (2 ^ 53 * 2 ^ u) 1 ≤ u + 1 := by
          apply f64_up_le
          calc 2 ^ 53 * 2 ^ u < 2 ^ 53 * 2 ^ (u + 1) :=
                Nat.mul_lt_mul_of_pos_left
                  (Nat.pow_lt_pow_right (by norm_num) (Nat.lt_succ_self u)) (by positivity)
            _ = 1 * 2 ^ 53 * 2 ^ (u + 1) := by ring
        have e : 2 ^ 53 * 2 ^ u = 2 ^ (53 + u) := (pow_add 2 53 u).symm
        rw [e] at hu2 ⊢
        apply dvd_mul_of_dvd_left
        apply Nat.pow_dvd_pow
        omega

theorem f64_round_frac_den_pos (p q : Nat) : 0 < (f64_round_frac p q).2 := by
  unfold f64_round_frac
  split
  · exact Nat.one_pos
  · positivity

theorem f64_round_neg (z : ℚ) (hz : 0 < z) : f64_round (-z) = -f64_round z := by
  unfold f64_round
  rw [if_neg (by linarith), if_pos hz.le]
  simp only [Rat.num_neg_eq_neg_num, Int.natAbs_neg, Rat.den_neg_eq_den]

/-- Rounding to `double` is idempotent: the result of a rounding is a
`double`, and a `double` is rounded to itself. -/
theorem f64_round_idem (x : ℚ) : f64_round (f64_round x) = f64_round x := by
  have key : ∀ p q : Nat,
      f64_round (((f64_round_frac p q).1 : ℚ) / ((f64_round_frac p q).2 : ℚ))
        = ((f64_round_frac p q).1 : ℚ) / ((f64_round_frac p q).2 : ℚ) := by
    intro p q
    rw [f64_round_div _ _ (f64_round_frac_den_pos p q)]
    exact f64_round_frac_fixed p q
  by_cases hx : 0 ≤ x
  · have h1 : f64_round x
        = ((f64_round_frac x.num.natAbs x.den).1 : ℚ)
          / ((f64_round_frac x.num.natAbs x.den).2 : ℚ) := by
      unfold f64_round
      rw [if_pos hx]
    rw [h1]
    exact key _ _
  · have h1 : f64_round x
        = -(((f64_round_frac x.num.natAbs x.den).1 : ℚ)
          / ((f64_round_frac x.num.natAbs x.den).2 : ℚ)) := by
      unfold f64_round
      rw [if_neg hx]
    rw [h1]
    have hnn : (0 : ℚ) ≤ ((f64_round_frac x.num.natAbs x.den).1 : ℚ)
        / ((f64_round_frac x.num.natAbs x.den).2 : ℚ) := by positivity
    rcases hnn.lt_or_eq with hpos | hzero
    · rw [f64_round_neg _ hpos, key]
    · rw [← hzero, neg_zero]
      have := f64_round_natCast 0 (by norm_num)
      simpa using this


/-- Rounding of a value given as a quotient, from the rounding of the
numerator and denominator. -/
theorem f64_round_of_frac (x : ℚ) (a b n d : Nat) (hb : 0 < b)
    (hx : x = (a : ℚ) / (b : ℚ)) (h : f64_round_frac a b = (n, d)) :
    f64_round x = (n : ℚ) / (d : ℚ) := by
  subst hx
  rw [f64_round_div a b hb, h]

/-! ### The header fields -/

theorem packet_drop_two (session : RTP_session) (t : Track) (slot : BPSlot) :
    ((RTP_build_packet session t slot).drop 2).take 2
      = be16 (RTP_build_header session t slot).seq_no := by
  simp [RTP_build_packet, RTP_header.bytes, be16, be32]

theorem packet_drop_four (session : RTP_session) (t : Track) (slot : BPSlot) :
    ((RTP_build_packet session t slot).drop 4).take 4
      = be32 (RTP_build_header session t slot).timestamp := by
  simp [RTP_build_packet, RTP_header.bytes, be16, be32]

theorem packet_take_header (session : RTP_session) (t : Track) (slot : BPSlot) :
    (RTP_build_packet session t slot).take 12 = (RTP_build_header session t slot).bytes := by
  simp [RTP_build_packet, RTP_header.bytes, be16, be32]

theorem timestamp_of_rtp_time (session : RTP_session) (t : Track) (slot : BPSlot)
    (h : slot.rtp_time ≠ 0) :
    (RTP_build_header session t slot).timestamp
      = (session.start_rtptime + slot.rtp_time) % 4294967296 := by
  simp only [RTP_build_header, rtp_delta, if_pos h]
  rw [← Nat.cast_add, double_trunc_natCast, htonl_natCast]

theorem timestamp_of_media_time (session : RTP_session) (t : Track) (slot : BPSlot)
    (h : slot.rtp_time = 0) :
    (RTP_build_header session t slot).timestamp
      = double_to_uint32 (f64_round ((session.start_rtptime : ℚ)
          + f64_round (f64_round slot.timestamp * (t.properties.clock_rate : ℚ)))) := by
  simp only [RTP_build_header, rtp_delta, h, ne_eq, not_true_eq_false, if_false]

theorem media_timestamp_eval (session : RTP_session) (t : Track) (slot : BPSlot)
    (h : slot.rtp_time = 0) (T P S : ℚ) (hT : f64_round slot.timestamp = T)
    (hP : f64_round (T * (t.properties.clock_rate : ℚ)) = P)
    (hS : f64_round ((session.start_rtptime : ℚ) + P) = S) :
    (RTP_build_header session t slot).timestamp = double_to_uint32 S := by
  rw [timestamp_of_media_time session t slot h, hT, hP, hS]


/-! ### Evaluation at the example inputs -/

/-- The `double` read from the media time 4/100 s. -/
theorem scenario_media_time :
    f64_round (4 / 100)
      = 5764607523034235 / 144115188075855872 := by
  rw [f64_round_of_frac
    (4 / 100)
    1 25
    5764607523034235 144115188075855872
    (by decide) (by norm_num) (by decide)]
  norm_num

/-- The `double` product of the media time 4/100 s and the clock rate 90000. -/
theorem scenario_ticks :
    f64_round (5764607523034235 / 144115188075855872 * ((90000 : Nat) : ℚ))
      = 3600 := by
  rw [f64_round_of_frac
    (5764607523034235 / 144115188075855872 * ((90000 : Nat) : ℚ))
    32425917317067571875 9007199254740992
    7916483719987200 2199023255552
    (by decide) (by norm_num) (by decide)]
  norm_num

/-- The `double` sum of 500000 and the product for the media time 4/100 s. -/
theorem scenario_sum :
    f64_round (((500000 : Nat) : ℚ) + 3600)
      = 503600 := by
  rw [f64_round_of_frac
    (((500000 : Nat) : ℚ) + 3600)
    503600 1
    8651782121062400 17179869184
    (by decide) (by norm_num) (by decide)]
  norm_num

/-- The `double` read from the media time 3/64 s. -/
theorem fractional_media_time :
    f64_round (3 / 64)
      = 3 / 64 := by
  rw [f64_round_of_frac
    (3 / 64)
    3 64
    6755399441055744 144115188075855872
    (by decide) (by norm_num) (by decide)]
  norm_num

/-- The `double` product of the media time 3/64 s and the clock rate 90000. -/
theorem fractional_ticks :
    f64_round (3 / 64 * ((90000 : Nat) : ℚ))
      = 16875 / 4 := by
  rw [f64_round_of_frac
    (3 / 64 * ((90000 : Nat) : ℚ))
    16875 4
    4638564679680000 1099511627776
    (by decide) (by norm_num) (by decide)]
  norm_num

/-- The `double` sum of 500000 and the product for the media time 3/64 s. -/
theorem fractional_sum :
    f64_round (((500000 : Nat) : ℚ) + 16875 / 4)
      = 2016875 / 4 := by
  rw [f64_round_of_frac
    (((500000 : Nat) : ℚ) + 16875 / 4)
    2016875 4
    8662412165120000 17179869184
    (by decide) (by norm_num) (by decide)]
  norm_num

/-- The `double` read from the media time of `rounded_slot`. -/
theorem rounded_media_time :
    f64_round (1080863910568919 / 9007199254740992)
      = 1080863910568919 / 9007199254740992 := by
  rw [f64_round_of_frac
    (1080863910568919 / 9007199254740992)
    1080863910568919 9007199254740992
    8646911284551352 72057594037927936
    (by decide) (by norm_num) (by decide)]
  norm_num

/-- The `double` product of the media time of `rounded_slot` and the clock rate 90000. -/
theorem rounded_ticks :
    f64_round (1080863910568919 / 9007199254740992 * ((90000 : Nat) : ℚ))
      = 10800 := by
  rw [f64_round_of_frac
    (1080863910568919 / 9007199254740992 * ((90000 : Nat) : ℚ))
    6079859496950169375 562949953421312
    5937362789990400 549755813888
    (by decide) (by norm_num) (by decide)]
  norm_num

/-- The `double` sum of 500000 and the product for the media time of `rounded_slot`. -/
theorem rounded_sum :
    f64_round (((500000 : Nat) : ℚ) + 10800)
      = 510800 := by
  rw [f64_round_of_frac
    (((500000 : Nat) : ℚ) + 10800)
    510800 1
    8775477179187200 17179869184
    (by decide) (by norm_num) (by decide)]
  norm_num

/-- The `double` read from the media time of `below_slot`. -/
theorem below_media_time :
    f64_round (2882303761517117 / 72057594037927936)
      = 2882303761517117 / 72057594037927936 := by
  rw [f64_round_of_frac
    (2882303761517117 / 72057594037927936)
    2882303761517117 72057594037927936
    5764607523034234 144115188075855872
    (by decide) (by norm_num) (by decide)]
  norm_num

/-- The `double` product of the media time of `below_slot` and the clock rate 90000. -/
theorem below_ticks :
    f64_round (2882303761517117 / 72057594037927936 * ((90000 : Nat) : ℚ))
      = 7916483719987199 / 2199023255552 := by
  rw [f64_round_of_frac
    (2882303761517117 / 72057594037927936 * ((90000 : Nat) : ℚ))
    16212958658533783125 4503599627370496
    7916483719987199 2199023255552
    (by decide) (by norm_num) (by decide)]
  norm_num

/-- The `double` sum of 500000 and the product for the media time of `below_slot`. -/
theorem below_sum :
    f64_round (((500000 : Nat) : ℚ) + 7916483719987199 / 2199023255552)
      = 503600 := by
  rw [f64_round_of_frac
    (((500000 : Nat) : ℚ) + 7916483719987199 / 2199023255552)
    1107428111495987199 2199023255552
    8651782121062400 17179869184
    (by decide) (by norm_num) (by decide)]
  norm_num

/-- The `double` read from the media time `2^47` s. -/
theorem late_media_time :
    f64_round (140737488355328)
      = 140737488355328 := by
  rw [f64_round_of_frac
    (140737488355328)
    140737488355328 1
    4503599627370496 32
    (by decide) (by norm_num) (by decide)]
  norm_num

/-- The `double` product of the media time `2^47` s and the clock rate 90000. -/
theorem late_ticks :
    f64_round (140737488355328 * ((90000 : Nat) : ℚ))
      = 12666373951979520000 := by
  rw [f64_round_of_frac
    (140737488355328 * ((90000 : Nat) : ℚ))
    12666373951979520000 1
    12666373951979520000 1
    (by decide) (by norm_num) (by decide)]
  norm_num

/-- The `double` sum of 500000 and the product for the media time `2^47` s. -/
theorem late_sum :
    f64_round (((500000 : Nat) : ℚ) + 12666373951979520000)
      = 12666373951980019712 := by
  rw [f64_round_of_frac
    (((500000 : Nat) : ℚ) + 12666373951979520000)
    12666373951980020000 1
    12666373951980019712 1
    (by decide) (by norm_num) (by decide)]
  norm_num

theorem double_to_uint32_floor (x : ℚ) (n : Nat) (h0 : (n : ℚ) ≤ x) (h1 : x < (n : ℚ) + 1)
    (h : n < 2 ^ 63) : double_to_uint32 x = n % 2 ^ 32 := by
  have hx : 0 ≤ x := le_trans (Nat.cast_nonneg n) h0
  have hn : (n : ℚ) + 1 ≤ 2 ^ 63 := by exact_mod_cast h
  have hf : ⌊x⌋ = (n : Int) := by
    rw [Int.floor_eq_iff]
    exact ⟨by exact_mod_cast h0, by exact_mod_cast h1⟩
  rw [double_to_uint32_of_nonneg x hx (lt_of_lt_of_le h1 hn), hf, Int.toNat_ofNat]

theorem scenario_header_timestamp (session : RTP_session) (slot : BPSlot) :
    (RTP_build_header
        { session with start_seq := 1000, start_rtptime := 500000, ssrc := 0xDEADBEEF }
        ⟨⟨96, 90000⟩⟩
        { slot with slot_seq := 1, marker := 1, timestamp := 4 / 100, rtp_time := 0 }).timestamp
      = 503600 := by
  rw [timestamp_of_media_time _ _ _ rfl]
  show double_to_uint32 (f64_round (((500000 : Nat) : ℚ)
    + f64_round (f64_round (4 / 100) * ((90000 : Nat) : ℚ)))) = 503600
  rw [scenario_media_time, scenario_ticks, scenario_sum]
  rw [double_to_uint32_floor 503600 503600 (by norm_num) (by norm_num) (by norm_num)]
  rfl

theorem fractional_header_timestamp :
    (RTP_build_header scenario_session scenario_track fractional_slot).timestamp = 504218 := by
  rw [timestamp_of_media_time _ _ _ rfl]
  show double_to_uint32 (f64_round (((500000 : Nat) : ℚ)
    + f64_round (f64_round (3 / 64) * ((90000 : Nat) : ℚ)))) = 504218
  rw [fractional_media_time, fractional_ticks, fractional_sum]
  rw [double_to_uint32_floor (2016875 / 4) 504218 (by norm_num) (by norm_num) (by norm_num)]
  rfl

theorem rounded_header_timestamp :
    (RTP_build_header scenario_session scenario_track rounded_slot).timestamp = 510800 := by
  rw [timestamp_of_media_time _ _ _ rfl]
  show double_to_uint32 (f64_round (((500000 : Nat) : ℚ)
    + f64_round (f64_round (1080863910568919 / 9007199254740992) * ((90000 : Nat) : ℚ)))) = 510800
  rw [rounded_media_time, rounded_ticks, rounded_sum]
  rw [double_to_uint32_floor 510800 510800 (by norm_num) (by norm_num) (by norm_num)]
  rfl

theorem below_header_timestamp :
    (RTP_build_header scenario_session scenario_track below_slot).timestamp = 503600 := by
  rw [timestamp_of_media_time _ _ _ rfl]
  show double_to_uint32 (f64_round (((500000 : Nat) : ℚ)
    + f64_round (f64_round (2882303761517117 / 72057594037927936) * ((90000 : Nat) : ℚ))))
    = 503600
  rw [below_media_time, below_ticks, below_sum]
  rw [double_to_uint32_floor 503600 503600 (by norm_num) (by norm_num) (by norm_num)]
  rfl

theorem late_header_timestamp :
    (RTP_build_header scenario_session scenario_track late_slot).timestamp = 0 := by
  rw [timestamp_of_media_time _ _ _ rfl]
  show double_to_uint32 (f64_round (((500000 : Nat) : ℚ)
    + f64_round (f64_round (140737488355328) * ((90000 : Nat) : ℚ)))) = 0
  rw [late_media_time, late_ticks, late_sum]
  exact double_to_uint32_of_large _ (by norm_num)

theorem fractional_spec_timestamp :
    (scenario_session.start_rtptime
        + (spec_round (fractional_slot.timestamp
            * (scenario_track.properties.clock_rate : ℚ))).toNat) % 2 ^ 32 = 504219 := by
  have h : spec_round (fractional_slot.timestamp * ((90000 : Nat) : ℚ)) = 4219 := by
    simp only [fractional_slot]
    show ⌊(3 / 64 * ((90000 : Nat) : ℚ) + 1 / 2 : ℚ)⌋ = 4219
    rw [Int.floor_eq_iff]
    norm_num
  show (500000 + (spec_round (fractional_slot.timestamp * ((90000 : Nat) : ℚ))).toNat)
    % 2 ^ 32 = 504219
  rw [h]
  rfl

theorem scenario_header_bytes (session : RTP_session) (slot : BPSlot) :
    (RTP_build_header
        { session with start_seq := 1000, start_rtptime := 500000, ssrc := 0xDEADBEEF }
        ⟨⟨96, 90000⟩⟩
        { slot with slot_seq := 1, marker := 1, timestamp := 4 / 100, rtp_time := 0 }).bytes
      = [0x80, 0xE0, 0x03, 0xE8, 0x00, 0x07, 0xAF, 0x30, 0xDE, 0xAD, 0xBE, 0xEF] := by
  have ht := scenario_header_timestamp session slot
  simp only [RTP_header.bytes, ht]
  simp only [RTP_build_header, htons, htonl, be16, be32]
  norm_num
  decide

theorem double_sum_nonneg (start_rtptime : Nat) (timestamp : ℚ) (clock_rate : Nat)
    (hp : 0 ≤ timestamp * (clock_rate : ℚ)) :
    0 ≤ double_sum start_rtptime timestamp clock_rate := by
  unfold double_sum
  apply f64_round_nonneg
  apply add_nonneg (Nat.cast_nonneg _)
  apply f64_round_nonneg
  rcases Nat.eq_zero_or_pos clock_rate with hc | hc
  · simp [hc]
  · have hc2 : (0 : ℚ) < (clock_rate : ℚ) := by exact_mod_cast hc
    exact mul_nonneg (f64_round_nonneg _ (nonneg_of_mul_nonneg_left hp hc2)) hc2.le

theorem fractional_double_sum :
    double_sum scenario_session.start_rtptime fractional_slot.timestamp
      scenario_track.properties.clock_rate = 2016875 / 4 := by
  show f64_round (((500000 : Nat) : ℚ) + f64_round (f64_round (3 / 64) * ((90000 : Nat) : ℚ)))
    = 2016875 / 4
  rw [fractional_media_time, fractional_ticks, fractional_sum]

/-- Rounding a non-negative value to `double` stays between the integer part
and its successor, as long as these are below `2^53`. -/
theorem f64_round_floor_bounds (x : ℚ) (k : Nat) (h0 : (k : ℚ) ≤ x) (h1 : x ≤ (k : ℚ) + 1)
    (hk : k + 1 < 2 ^ 53) :
    (k : ℚ) ≤ f64_round x ∧ f64_round x ≤ (k : ℚ) + 1 := by
  refine ⟨f64_round_ge_nat x k (by omega) h0, ?_⟩
  have := f64_round_le_nat x (k + 1) hk (le_trans (Nat.cast_nonneg k) h0)
    (by push_cast; exact h1)
  push_cast at this
  exact this

theorem timestamp_near_trunc (session : RTP_session) (t : Track) (slot : BPSlot)
    (h : slot.rtp_time = 0) (hp : 0 ≤ slot.timestamp * (t.properties.clock_rate : ℚ))
    (hb : session.start_rtptime
        + ⌊f64_round slot.timestamp * (t.properties.clock_rate : ℚ)⌋.toNat + 1 < 2 ^ 53) :
    (RTP_build_header session t slot).timestamp
        = (session.start_rtptime
            + ⌊f64_round slot.timestamp * (t.properties.clock_rate : ℚ)⌋.toNat) % 2 ^ 32
    ∨ (RTP_build_header session t slot).timestamp
        = (session.start_rtptime
            + ⌊f64_round slot.timestamp * (t.properties.clock_rate : ℚ)⌋.toNat + 1)
          % 2 ^ 32 := by
  have hx : 0 ≤ f64_round slot.timestamp * (t.properties.clock_rate : ℚ) := by
    rcases Nat.eq_zero_or_pos t.properties.clock_rate with hc | hc
    · simp [hc]
    · have hc2 : (0 : ℚ) < (t.properties.clock_rate : ℚ) := by exact_mod_cast hc
      exact mul_nonneg (f64_round_nonneg _ (nonneg_of_mul_nonneg_left hp hc2)) hc2.le
  obtain ⟨k, hk⟩ := Int.eq_ofNat_of_zero_le (Int.floor_nonneg.mpr hx)
  rw [hk] at hb ⊢
  simp only [Int.toNat_ofNat] at hb ⊢
  have hk0 : (k : ℚ) ≤ f64_round slot.timestamp * (t.properties.clock_rate : ℚ) := by
    have := Int.floor_le (f64_round slot.timestamp * (t.properties.clock_rate : ℚ))
    rw [hk] at this
    exact_mod_cast this
  have hk1 : f64_round slot.timestamp * (t.properties.clock_rate : ℚ) ≤ (k : ℚ) + 1 := by
    have := Int.lt_floor_add_one (f64_round slot.timestamp * (t.properties.clock_rate : ℚ))
    rw [hk] at this
    exact le_of_lt (by exact_mod_cast this)
  obtain ⟨hP0, hP1⟩ := f64_round_floor_bounds _ k hk0 hk1 (by omega)
  have hS := f64_round_floor_bounds
    ((session.start_rtptime : ℚ)
      + f64_round (f64_round slot.timestamp * (t.properties.clock_rate : ℚ)))
    (session.start_rtptime + k) (by push_cast; linarith) (by push_cast; linarith) hb
  obtain ⟨hS0, hS1⟩ := hS
  rw [timestamp_of_media_time session t slot h]
  have hlt : (2 : ℚ) ^ 53 ≤ 2 ^ 63 := by norm_num
  have hbq : ((session.start_rtptime + k : ℕ) : ℚ) + 1 < 2 ^ 53 := by exact_mod_cast hb
  rcases lt_or_le (f64_round ((session.start_rtptime : ℚ)
      + f64_round (f64_round slot.timestamp * (t.properties.clock_rate : ℚ))))
      (((session.start_rtptime + k : ℕ) : ℚ) + 1) with hc | hc
  · left
    exact double_to_uint32_floor _ (session.start_rtptime + k) hS0 hc (by omega)
  · right
    have he : f64_round ((session.start_rtptime : ℚ)
        + f64_round (f64_round slot.timestamp * (t.properties.clock_rate : ℚ)))
        = ((session.start_rtptime + k + 1 : ℕ) : ℚ) := by
      push_cast
      push_cast at hS1 hc
      exact le_antisymm hS1 hc
    rw [he]
    exact double_to_uint32_natCast _ (by omega)

/-! ## Lemmas on the loop -/

theorem send_loop_nil (env : Env) (session : RTP_session) (t : Track) (k : Nat)
    (stats : RTCP_stats) :
    RTP_send_loop env session t [] k stats
      = { ret := env.event_buffer_low { session with cons := [], rtcp_stats_server := stats }
          session := { session with cons := [], rtcp_stats_server := stats }
          trace := [Call.bp_getreader none,
            Call.event_buffer_low
              (env.event_buffer_low { session with cons := [], rtcp_stats_server := stats })] } := by
  simp only [RTP_send_loop]

theorem send_loop_cons_ok (env : Env) (session : RTP_session) (t : Track) (slot : BPSlot)
    (rest : List BPSlot) (k : Nat) (stats : RTCP_stats)
    (h : env.calloc_ok k (slot.data_size + hdr_size) = true) :
    RTP_send_loop env session t (slot :: rest) k stats
      = { RTP_send_loop env session t rest (k + 1)
            (if write_ok env session t (k, slot) then stats_sent stats slot else stats) with
          trace := slot_calls env session t (k, slot)
            ++ (RTP_send_loop env session t rest (k + 1)
                  (if write_ok env session t (k, slot) then stats_sent stats slot
                   else stats)).trace } := by
  have hst : (if env.Sock_write k (RTP_build_packet session t slot) < 0 then stats
        else stats_sent stats slot)
      = (if write_ok env session t (k, slot) then stats_sent stats slot else stats) := by
    simp only [write_ok]
    by_cases h : env.Sock_write k (RTP_build_packet session t slot) < 0
    · simp [h, not_le.mpr h]
    · simp [h, not_lt.mp h]
  simp only [RTP_send_loop, h, if_true, hst]
  simp [slot_calls]

theorem send_loop_cons_fail (env : Env) (session : RTP_session) (t : Track) (slot : BPSlot)
    (rest : List BPSlot) (k : Nat) (stats : RTCP_stats)
    (h : env.calloc_ok k (slot.data_size + hdr_size) = false) :
    RTP_send_loop env session t (slot :: rest) k stats
      = { ret := env.ERR_ALLOC
          session := { session with cons := slot :: rest, rtcp_stats_server := stats }
          trace := [Call.bp_getreader (some slot),
            Call.calloc (slot.data_size + hdr_size) false] } := by
  simp [RTP_send_loop, h]

theorem send_loop_split (env : Env) (session : RTP_session) (t : Track)
    (pre post : List BPSlot) :
    ∀ (k : Nat) (stats : RTCP_stats), alloc_ok_on env pre k →
      RTP_send_loop env session t (pre ++ post) k stats
        = { RTP_send_loop env session t post (k + pre.length)
              (stats_after env session t (pre.enumFrom k) stats) with
            trace := (pre.enumFrom k).flatMap (slot_calls env session t)
              ++ (RTP_send_loop env session t post (k + pre.length)
                    (stats_after env session t (pre.enumFrom k) stats)).trace } := by
  induction pre with
  | nil => intro k stats _; simp [stats_after]
  | cons slot pre ih =>
    intro k stats hall
    have h0 : env.calloc_ok k (slot.data_size + hdr_size) = true :=
      hall (k, slot) (by simp [List.enumFrom_cons])
    have hrest : alloc_ok_on env pre (k + 1) := by
      intro p hp
      exact hall p (by simp [List.enumFrom_cons, hp])
    have hk : k + 1 + pre.length = k + (pre.length + 1) := by omega
    rw [List.cons_append, send_loop_cons_ok _ _ _ _ _ _ _ h0, ih (k + 1) _ hrest, hk]
    simp [List.enumFrom_cons, stats_after]

theorem send_loop_all_ok (env : Env) (session : RTP_session) (t : Track)
    (pending : List BPSlot) (k : Nat) (stats : RTCP_stats) (hall : alloc_ok_on env pending k) :
    RTP_send_loop env session t pending k stats
      = { ret := env.event_buffer_low
            { session with cons := []
                           rtcp_stats_server :=
                             stats_after env session t (pending.enumFrom k) stats }
          session :=
            { session with cons := []
                           rtcp_stats_server :=
                             stats_after env session t (pending.enumFrom k) stats }
          trace := (pending.enumFrom k).flatMap (slot_calls env session t)
            ++ [Call.bp_getreader none,
                Call.event_buffer_low (env.event_buffer_low
                  { session with cons := []
                                 rtcp_stats_server :=
                                   stats_after env session t (pending.enumFrom k) stats })] } := by
  have h := send_loop_split env session t pending [] k stats hall
  rw [List.append_nil] at h
  rw [h, send_loop_nil]

theorem stats_after_counts (env : Env) (session : RTP_session) (t : Track)
    (ps : List (Nat × BPSlot)) :
    ∀ st : RTCP_stats,
      (stats_after env session t ps st).pkt_count
          = st.pkt_count + (ps.filter (write_ok env session t)).length
      ∧ (stats_after env session t ps st).octet_count
          = st.octet_count
            + ((ps.filter (write_ok env session t)).map fun p => p.2.data_size).sum := by
  induction ps with
  | nil => intro st; simp [stats_after]
  | cons p ps ih =>
    intro st
    by_cases h : write_ok env session t p = true
    · have h1 := (ih (stats_sent st p.2)).1
      have h2 := (ih (stats_sent st p.2)).2
      have e1 : (stats_sent st p.2).pkt_count = st.pkt_count + 1 := rfl
      have e2 : (stats_sent st p.2).octet_count = st.octet_count + p.2.data_size := rfl
      rw [e1] at h1
      rw [e2] at h2
      simp only [stats_after, h, if_true, List.filter_cons_of_pos, List.length_cons,
        List.map_cons, List.sum_cons, h1, h2]
      omega
    · have := ih st
      simp only [Bool.not_eq_true] at h
      simp [stats_after, h, this.1, this.2]

theorem obtained_blocks (env : Env) (session : RTP_session) (t : Track)
    (ps : List (Nat × BPSlot)) (tail : List Call) :
    obtained (ps.flatMap (slot_calls env session t) ++ tail)
      = ps.map Prod.snd ++ obtained tail := by
  induction ps with
  | nil => simp
  | cons p ps ih =>
    simp only [List.flatMap_cons, List.append_assoc, List.map_cons, List.cons_append]
    rw [← ih]
    simp [obtained, slot_calls]

theorem writes_blocks (env : Env) (session : RTP_session) (t : Track)
    (ps : List (Nat × BPSlot)) (tail : List Call) :
    writes (ps.flatMap (slot_calls env session t) ++ tail)
      = (ps.map fun p => (RTP_build_packet session t p.2, p.2.data_size + hdr_size))
        ++ writes tail := by
  induction ps with
  | nil => simp
  | cons p ps ih =>
    simp only [List.flatMap_cons, List.append_assoc, List.map_cons, List.cons_append]
    rw [← ih]
    simp [writes, slot_calls]

theorem gotreader_blocks (env : Env) (session : RTP_session) (t : Track)
    (ps : List (Nat × BPSlot)) (tail : List Call) :
    gotreader_count (ps.flatMap (slot_calls env session t) ++ tail)
      = ps.length + gotreader_count tail := by
  induction ps with
  | nil => simp
  | cons p ps ih =>
    simp only [List.flatMap_cons, List.append_assoc, List.length_cons]
    have : gotreader_count (slot_calls env session t p
          ++ (ps.flatMap (slot_calls env session t) ++ tail))
        = 1 + gotreader_count (ps.flatMap (slot_calls env session t) ++ tail) := by
      simp [gotreader_count, slot_calls]
      omega
    rw [this, ih]
    omega

theorem buffer_low_blocks (env : Env) (session : RTP_session) (t : Track)
    (ps : List (Nat × BPSlot)) (tail : List Call) :
    buffer_low_calls (ps.flatMap (slot_calls env session t) ++ tail)
      = buffer_low_calls tail := by
  induction ps with
  | nil => simp
  | cons p ps ih =>
    simp only [List.flatMap_cons, List.append_assoc]
    rw [← ih]
    simp [buffer_low_calls, slot_calls]

theorem send_loop_writes (env : Env) (session : RTP_session) (t : Track)
    (pending : List BPSlot) :
    ∀ (k : Nat) (stats : RTCP_stats) (pl : List Nat × Nat),
      pl ∈ writes (RTP_send_loop env session t pending k stats).trace →
      ∃ slot ∈ pending, pl = (RTP_build_packet session t slot, slot.data_size + hdr_size) := by
  induction pending with
  | nil =>
    intro k stats pl h
    simp [send_loop_nil, writes] at h
  | cons slot rest ih =>
    intro k stats pl h
    by_cases hc : env.calloc_ok k (slot.data_size + hdr_size) = true
    · rw [send_loop_cons_ok _ _ _ _ _ _ _ hc] at h
      have hw := writes_blocks env session t [(k, slot)]
        (RTP_send_loop env session t rest (k + 1)
          (if write_ok env session t (k, slot) then stats_sent stats slot else stats)).trace
      simp only [List.flatMap_cons, List.flatMap_nil, List.append_nil, List.map_cons,
        List.map_nil, List.singleton_append] at hw
      simp only at h
      rw [hw, List.mem_cons] at h
      rcases h with h | h
      · exact ⟨slot, List.mem_cons_self _ _, h⟩
      · obtain ⟨s2, hs2, hpl⟩ := ih _ _ _ h
        exact ⟨s2, List.mem_cons_of_mem _ hs2, hpl⟩
    · simp only [Bool.not_eq_true] at hc
      rw [send_loop_cons_fail _ _ _ _ _ _ _ hc] at h
      simp [writes] at h

/-! ## The RTP header -/

/-- C1: the sequence field of the header built for a slot is
`(start_seq + slot_seq - 1) mod 2^16`; bytes 2-3 of the datagram hold it in
network byte order; `start_seq = 0xFFFF` with `slot_seq = 2` gives 0; and
every datagram `RTP_send_packet` writes is the one built for a slot of the
consumer. -/
theorem seq_no_wraps (env : Env) (session : RTP_session) (t : Track) (slot : BPSlot) :
    (RTP_build_header session t slot).seq_no
        = (((session.start_seq : Int) + (slot.slot_seq : Int) - 1) % 2 ^ 16).toNat
    ∧ ((RTP_build_packet session t slot).drop 2).take 2
        = [(RTP_build_header session t slot).seq_no / 256,
           (RTP_build_header session t slot).seq_no % 256]
    ∧ (RTP_build_header { session with start_seq := 0xFFFF } t
          { slot with slot_seq := 2 }).seq_no = 0
    ∧ ∀ pl ∈ writes (RTP_send_packet env session).trace,
        ∃ s ∈ session.cons,
          pl = (RTP_build_packet session (r_selected_track session) s,
                s.data_size + hdr_size) := by
  refine ⟨?_, ?_, ?_, ?_⟩
  · simp only [RTP_build_header, htons]
    congr 2
    ring
  · rw [packet_drop_two, be16]
    have h2 : (RTP_build_header session t slot).seq_no < 65536 :=
      htons_lt ((slot.slot_seq : Int) + (session.start_seq : Int) - 1)
    congr 1
    omega
  · simp only [RTP_build_header, htons]
    norm_num
  · intro pl hpl
    exact send_loop_writes env session (r_selected_track session) session.cons 0
      session.rtcp_stats_server pl hpl

/-- C2: when `slot.rtp_time` is not 0 the timestamp field is
`(start_rtptime + rtp_time) mod 2^32`, held in network byte order in bytes
4-7 of the datagram, whatever `slot.timestamp` and the clock rate are;
`start_rtptime = 500000` with `rtp_time = 1234` gives 501234. -/
theorem timestamp_from_rtp_time (session : RTP_session) (t : Track) (slot : BPSlot)
    (h : slot.rtp_time ≠ 0) :
    (RTP_build_header session t slot).timestamp
        = (session.start_rtptime + slot.rtp_time) % 2 ^ 32
    ∧ ((RTP_build_packet session t slot).drop 4).take 4
        = be32 ((session.start_rtptime + slot.rtp_time) % 2 ^ 32)
    ∧ (∀ (ts : ℚ) (clock_rate : Nat),
        (RTP_build_header session ⟨⟨t.properties.payload_type, clock_rate⟩⟩
            { slot with timestamp := ts }).timestamp
          = (RTP_build_header session t slot).timestamp)
    ∧ (RTP_build_header { session with start_rtptime := 500000 } t
          { slot with rtp_time := 1234 }).timestamp = 501234 := by
  have h1 := timestamp_of_rtp_time session t slot h
  refine ⟨h1, ?_, ?_, ?_⟩
  · rw [packet_drop_four, h1]
    rfl
  · intro ts clock_rate
    rw [h1, timestamp_of_rtp_time _ _ _ (by exact h)]
  · have h3 : ({ slot with rtp_time := 1234 } : BPSlot).rtp_time ≠ 0 := by
      simp only [ne_eq]
      decide
    rw [timestamp_of_rtp_time _ _ _ h3]
    norm_num

/-- Witness of C2 on the scenario session with `rtp_time = 1234`. -/
theorem timestamp_from_rtp_time_witness :
    override_slot.rtp_time ≠ 0
    ∧ (RTP_build_header scenario_session scenario_track override_slot).timestamp
        = (scenario_session.start_rtptime + override_slot.rtp_time) % 2 ^ 32 :=
  ⟨by decide,
   (timestamp_from_rtp_time scenario_session scenario_track override_slot (by decide)).1⟩

/-- C3 as stated fails: with `rtp_time = 0`, media time 3/64 s and a 90 kHz
clock the product is 4218.75 ticks, exact in `double`; the header carries
500000 + 4218 while rounding to the nearest integer would give
500000 + 4219. -/
theorem timestamp_round_refuted :
    fractional_slot.rtp_time = 0
    ∧ 0 ≤ fractional_slot.timestamp * (scenario_track.properties.clock_rate : ℚ)
    ∧ (RTP_build_header scenario_session scenario_track fractional_slot).timestamp
        ≠ (scenario_session.start_rtptime
            + (spec_round (fractional_slot.timestamp
                * (scenario_track.properties.clock_rate : ℚ))).toNat) % 2 ^ 32 := by
  refine ⟨rfl, ?_, ?_⟩
  · simp only [fractional_slot, scenario_track]
    norm_num
  · rw [fractional_header_timestamp, fractional_spec_timestamp]
    decide

/-- C3, amended: when `slot.rtp_time` is 0 and the product is not negative,
the timestamp field is converted from the sum
`S = start_rtptime + slot.timestamp * clock_rate` computed in `double`, the
product and then the sum each rounded to the nearest `double` (`double_sum`).
The field is `trunc(S) mod 2^32` when `S < 2^63`, where trunc drops the
fractional part, and 0 when `S ≥ 2^63`; bytes 4-7 of the datagram hold it in
network byte order.  With `p` the exact product of the stored timestamp and
the clock rate, as long as `start_rtptime + trunc(p) + 1 < 2^53` the field is
`(start_rtptime + trunc(p)) mod 2^32` or that value plus one.  At 90 kHz from
500000: the `double` nearest 0.12 gives 510800 (its exact product is below
10800), the `double` below the one nearest 0.04 gives 503600 (the sum rounds
up), and `2^47` s gives 0. -/
theorem timestamp_truncates (session : RTP_session) (t : Track) (slot : BPSlot)
    (h : slot.rtp_time = 0) (hp : 0 ≤ slot.timestamp * (t.properties.clock_rate : ℚ)) :
    (double_sum session.start_rtptime slot.timestamp t.properties.clock_rate < 2 ^ 63 →
      (RTP_build_header session t slot).timestamp
        = ⌊double_sum session.start_rtptime slot.timestamp
            t.properties.clock_rate⌋.toNat % 2 ^ 32)
    ∧ (2 ^ 63 ≤ double_sum session.start_rtptime slot.timestamp t.properties.clock_rate →
      (RTP_build_header session t slot).timestamp = 0)
    ∧ ((RTP_build_packet session t slot).drop 4).take 4
        = be32 (RTP_build_header session t slot).timestamp
    ∧ (session.start_rtptime
          + ⌊f64_round slot.timestamp * (t.properties.clock_rate : ℚ)⌋.toNat + 1 < 2 ^ 53 →
        (RTP_build_header session t slot).timestamp
            = (session.start_rtptime
                + ⌊f64_round slot.timestamp * (t.properties.clock_rate : ℚ)⌋.toNat) % 2 ^ 32
        ∨ (RTP_build_header session t slot).timestamp
            = (session.start_rtptime
                + ⌊f64_round slot.timestamp * (t.properties.clock_rate : ℚ)⌋.toNat + 1)
              % 2 ^ 32)
    ∧ (RTP_build_header scenario_session scenario_track rounded_slot).timestamp = 510800
    ∧ (RTP_build_header scenario_session scenario_track below_slot).timestamp = 503600
    ∧ (RTP_build_header scenario_session scenario_track late_slot).timestamp = 0 := by
  have h1 := timestamp_of_media_time session t slot h
  refine ⟨?_, ?_, packet_drop_four session t slot,
    timestamp_near_trunc session t slot h hp, rounded_header_timestamp,
    below_header_timestamp, late_header_timestamp⟩
  · intro hlt
    rw [h1]
    exact double_to_uint32_of_nonneg _
      (double_sum_nonneg session.start_rtptime slot.timestamp t.properties.clock_rate hp) hlt
  · intro hge
    rw [h1]
    exact double_to_uint32_of_large _ hge

/-- Witness of the amended C3 on the slot with 4218.75 ticks: the sum in
`double` is 504218.75 and the field is 504218. -/
theorem timestamp_truncates_witness :
    fractional_slot.rtp_time = 0
    ∧ 0 ≤ fractional_slot.timestamp * (scenario_track.properties.clock_rate : ℚ)
    ∧ double_sum scenario_session.start_rtptime fractional_slot.timestamp
        scenario_track.properties.clock_rate < 2 ^ 63
    ∧ (RTP_build_header scenario_session scenario_track fractional_slot).timestamp
        = ⌊double_sum scenario_session.start_rtptime fractional_slot.timestamp
            scenario_track.properties.clock_rate⌋.toNat % 2 ^ 32 := by
  have hlt : double_sum scenario_session.start_rtptime fractional_slot.timestamp
      scenario_track.properties.clock_rate < 2 ^ 63 := by
    rw [fractional_double_sum]
    norm_num
  have hp : 0 ≤ fractional_slot.timestamp * (scenario_track.properties.clock_rate : ℚ) := by
    simp only [fractional_slot, scenario_track]
    norm_num
  exact ⟨rfl, hp, hlt,
    (timestamp_truncates scenario_session scenario_track fractional_slot rfl hp).1 hlt⟩

/-- C4 as stated fails: on the scenario input the first twelve bytes are not
`80 E0 03 E8 00 07 A1 30 DE AD BE EF` (`0x0007A130` is 500016, not 503600). -/
theorem spec_bytes_refuted :
    (RTP_build_packet scenario_session scenario_track scenario_slot).take 12
      ≠ [0x80, 0xE0, 0x03, 0xE8, 0x00, 0x07, 0xA1, 0x30, 0xDE, 0xAD, 0xBE, 0xEF] := by
  rw [packet_take_header]
  have h := scenario_header_bytes scenario_session scenario_slot
  have h2 : (RTP_build_header scenario_session scenario_track scenario_slot).bytes
      = [0x80, 0xE0, 0x03, 0xE8, 0x00, 0x07, 0xAF, 0x30, 0xDE, 0xAD, 0xBE, 0xEF] := h
  rw [h2]
  decide

/-- C4, amended: for `start_seq = 1000`, `start_rtptime = 500000`,
`ssrc = 0xDEADBEEF`, `slot_seq = 1`, marker set, media time 0.04 s,
`rtp_time = 0`, payload type 96 and clock rate 90000 the first twelve bytes of
the datagram are `80 E0 03 E8 00 07 AF 30 DE AD BE EF` (timestamp 503600 is
`0x0007AF30`), whatever the other fields of the session and the slot are. -/
theorem scenario_wire_bytes (session : RTP_session) (slot : BPSlot) :
    (RTP_build_packet
        { session with start_seq := 1000, start_rtptime := 500000, ssrc := 0xDEADBEEF }
        ⟨⟨96, 90000⟩⟩
        { slot with slot_seq := 1, marker := 1, timestamp := 4 / 100, rtp_time := 0 }).take 12
      = [0x80, 0xE0, 0x03, 0xE8, 0x00, 0x07, 0xAF, 0x30, 0xDE, 0xAD, 0xBE, 0xEF] := by
  rw [packet_take_header, scenario_header_bytes]

/-! ## Draining the consumer -/

/-- C5: in a run of `RTP_send_packet` in which no allocation fails, whatever
the writes return, `pkt_count` grows by the number of slots whose write
succeeded and `octet_count` by the sum of `data_size` over those slots (the
header bytes are not counted); slots whose write failed add nothing. -/
theorem stats_count_successful_writes (env : Env) (session : RTP_session)
    (hall : alloc_ok_on env session.cons 0) :
    (RTP_send_packet env session).session.rtcp_stats_server.pkt_count
        = session.rtcp_stats_server.pkt_count
          + ((session.cons.enumFrom 0).filter
              (write_ok env session (r_selected_track session))).length
    ∧ (RTP_send_packet env session).session.rtcp_stats_server.octet_count
        = session.rtcp_stats_server.octet_count
          + (((session.cons.enumFrom 0).filter
              (write_ok env session (r_selected_track session))).map
                fun p => p.2.data_size).sum := by
  unfold RTP_send_packet
  rw [send_loop_all_ok env session _ session.cons 0 _ hall]
  exact stats_after_counts env session _ _ _

/-- Witness of C5: slots A and B, the write of B fails. -/
theorem stats_count_successful_writes_witness :
    alloc_ok_on env_second_write_fails drain_session.cons 0
    ∧ (RTP_send_packet env_second_write_fails drain_session).session.rtcp_stats_server.pkt_count
        = drain_session.rtcp_stats_server.pkt_count
          + ((drain_session.cons.enumFrom 0).filter
              (write_ok env_second_write_fails drain_session
                (r_selected_track drain_session))).length :=
  ⟨fun _ _ => rfl,
   (stats_count_successful_writes env_second_write_fails drain_session
      (fun _ _ => rfl)).1⟩

/-- C6 as stated fails: when the allocation for the first slot fails, the
slot has been obtained from `bp_getreader` but no write is attempted and no
`bp_gotreader` is issued. -/
theorem write_per_slot_refuted :
    obtained (RTP_send_packet env_alloc_fails drain_session).trace = [slot_A]
    ∧ writes (RTP_send_packet env_alloc_fails drain_session).trace = []
    ∧ gotreader_count (RTP_send_packet env_alloc_fails drain_session).trace = 0 := by
  have h : (RTP_send_packet env_alloc_fails drain_session).trace
      = [Call.bp_getreader (some slot_A), Call.calloc (slot_A.data_size + hdr_size) false] := by
    unfold RTP_send_packet
    show (RTP_send_loop env_alloc_fails drain_session _ (slot_A :: [slot_B]) 0 _).trace = _
    rw [send_loop_cons_fail _ _ _ _ _ _ _ rfl]
  rw [h]
  simp [obtained, writes, gotreader_count]

/-- C6, amended: in a run of `RTP_send_packet` in which no allocation fails,
the slots obtained from `bp_getreader` are those of the consumer, and for
each of them exactly one `Sock_write` is attempted (with the datagram built
for it) and exactly one `bp_gotreader` is issued, whatever the writes
return. -/
theorem one_write_per_slot (env : Env) (session : RTP_session)
    (hall : alloc_ok_on env session.cons 0) :
    obtained (RTP_send_packet env session).trace = session.cons
    ∧ (writes (RTP_send_packet env session).trace).length
        = (obtained (RTP_send_packet env session).trace).length
    ∧ gotreader_count (RTP_send_packet env session).trace
        = (obtained (RTP_send_packet env session).trace).length
    ∧ (RTP_send_packet env session).trace
        = (session.cons.enumFrom 0).flatMap (slot_calls env session (r_selected_track session))
          ++ [Call.bp_getreader none,
              Call.event_buffer_low (RTP_send_packet env session).ret] := by
  have h := send_loop_all_ok env session (r_selected_track session) session.cons 0
    session.rtcp_stats_server hall
  have htr : (RTP_send_packet env session).trace
      = (session.cons.enumFrom 0).flatMap (slot_calls env session (r_selected_track session))
        ++ [Call.bp_getreader none,
            Call.event_buffer_low (RTP_send_packet env session).ret] := by
    unfold RTP_send_packet
    rw [h]
  have hsnd : (session.cons.enumFrom 0).map Prod.snd = session.cons := by
    rw [← List.enum, List.enum_map_snd]
  refine ⟨?_, ?_, ?_, htr⟩
  · rw [htr, obtained_blocks, hsnd]
    simp [obtained]
  · rw [htr, obtained_blocks, writes_blocks, hsnd]
    simp [obtained, writes]
  · rw [htr, obtained_blocks, gotreader_blocks, hsnd]
    simp [obtained, gotreader_count]

/-- Witness of the amended C6: slots A and B, the write of B fails. -/
theorem one_write_per_slot_witness :
    alloc_ok_on env_second_write_fails drain_session.cons 0
    ∧ obtained (RTP_send_packet env_second_write_fails drain_session).trace
        = drain_session.cons
    ∧ (writes (RTP_send_packet env_second_write_fails drain_session).trace).length
        = (obtained (RTP_send_packet env_second_write_fails drain_session).trace).length
    ∧ gotreader_count (RTP_send_packet env_second_write_fails drain_session).trace
        = (obtained (RTP_send_packet env_second_write_fails drain_session).trace).length :=
  ⟨fun _ _ => rfl,
   (one_write_per_slot env_second_write_fails drain_session (fun _ _ => rfl)).1,
   (one_write_per_slot env_second_write_fails drain_session (fun _ _ => rfl)).2.1,
   (one_write_per_slot env_second_write_fails drain_session (fun _ _ => rfl)).2.2.1⟩

/-- C7: in a run of `RTP_send_packet` in which no allocation fails,
`event_buffer_low` is called exactly once, as the last call and after every
`bp_gotreader`, and the value returned is the status it returned, whatever
that status is and whatever the writes returned. -/
theorem returns_buffer_low_status (env : Env) (session : RTP_session)
    (hall : alloc_ok_on env session.cons 0) :
    buffer_low_calls (RTP_send_packet env session).trace = [(RTP_send_packet env session).ret]
    ∧ (RTP_send_packet env session).ret
        = env.event_buffer_low (RTP_send_packet env session).session
    ∧ ∃ before : List Call,
        (RTP_send_packet env session).trace
          = before ++ [Call.event_buffer_low (RTP_send_packet env session).ret]
        ∧ gotreader_count before = session.cons.length
        ∧ buffer_low_calls before = [] := by
  have h := send_loop_all_ok env session (r_selected_track session) session.cons 0
    session.rtcp_stats_server hall
  have htr : (RTP_send_packet env session).trace
      = (session.cons.enumFrom 0).flatMap (slot_calls env session (r_selected_track session))
        ++ [Call.bp_getreader none,
            Call.event_buffer_low (RTP_send_packet env session).ret] := by
    unfold RTP_send_packet
    rw [h]
  refine ⟨?_, ?_, ?_⟩
  · rw [htr, buffer_low_blocks]
    simp [buffer_low_calls]
  · unfold RTP_send_packet
    rw [h]
  · refine ⟨(session.cons.enumFrom 0).flatMap
        (slot_calls env session (r_selected_track session)) ++ [Call.bp_getreader none],
      ?_, ?_, ?_⟩
    · rw [htr]
      simp
    · rw [gotreader_blocks]
      simp [gotreader_count]
    · rw [buffer_low_blocks]
      simp [buffer_low_calls]

/-- Witness of C7: slots A and B, the write of B fails, the hook reports 0. -/
theorem returns_buffer_low_status_witness :
    alloc_ok_on env_second_write_fails drain_session.cons 0
    ∧ buffer_low_calls (RTP_send_packet env_second_write_fails drain_session).trace
        = [(RTP_send_packet env_second_write_fails drain_session).ret]
    ∧ (RTP_send_packet env_second_write_fails drain_session).ret
        = env_second_write_fails.event_buffer_low
            (RTP_send_packet env_second_write_fails drain_session).session :=
  ⟨fun _ _ => rfl,
   (returns_buffer_low_status env_second_write_fails drain_session (fun _ _ => rfl)).1,
   (returns_buffer_low_status env_second_write_fails drain_session (fun _ _ => rfl)).2.1⟩

/-- C8: when the allocation fails at the slot that follows the slots `pre`
(the k-th slot, k = `pre.length + 1`), `RTP_send_packet` returns `ERR_ALLOC`,
the failed allocation is its last call, the slot in hand stays in the
consumer, and the server statistics are those accumulated over `pre`. -/
theorem alloc_failure_keeps_stats (env : Env) (session : RTP_session)
    (pre : List BPSlot) (slot : BPSlot) (post : List BPSlot)
    (hcons : session.cons = pre ++ slot :: post)
    (hpre : alloc_ok_on env pre 0)
    (hfail : env.calloc_ok pre.length (slot.data_size + hdr_size) = false) :
    (RTP_send_packet env session).ret = env.ERR_ALLOC
    ∧ (RTP_send_packet env session).trace
        = (pre.enumFrom 0).flatMap (slot_calls env session (r_selected_track session))
          ++ [Call.bp_getreader (some slot), Call.calloc (slot.data_size + hdr_size) false]
    ∧ (RTP_send_packet env session).session.cons = slot :: post
    ∧ (RTP_send_packet env session).session.rtcp_stats_server.pkt_count
        = session.rtcp_stats_server.pkt_count
          + ((pre.enumFrom 0).filter
              (write_ok env session (r_selected_track session))).length
    ∧ (RTP_send_packet env session).session.rtcp_stats_server.octet_count
        = session.rtcp_stats_server.octet_count
          + (((pre.enumFrom 0).filter
              (write_ok env session (r_selected_track session))).map
                fun p => p.2.data_size).sum := by
  have hfail2 : env.calloc_ok (0 + pre.length) (slot.data_size + hdr_size) = false := by
    rw [Nat.zero_add]
    exact hfail
  have h : RTP_send_packet env session
      = { ret := env.ERR_ALLOC
          session :=
            { session with
              cons := slot :: post
              rtcp_stats_server :=
                stats_after env session (r_selected_track session) (pre.enumFrom 0)
                  session.rtcp_stats_server }
          trace := (pre.enumFrom 0).flatMap (slot_calls env session (r_selected_track session))
            ++ [Call.bp_getreader (some slot),
                Call.calloc (slot.data_size + hdr_size) false] } := by
    unfold RTP_send_packet
    rw [hcons, send_loop_split env session _ pre (slot :: post) 0 _ hpre,
      send_loop_cons_fail _ _ _ _ _ _ _ hfail2]
  rw [h]
  exact ⟨rfl, rfl, rfl, stats_after_counts env session _ _ _⟩

/-- Witness of C8: slots A and B, the allocation for B fails after A was
sent. -/
theorem alloc_failure_keeps_stats_witness :
    drain_session.cons = [slot_A] ++ slot_B :: []
    ∧ alloc_ok_on env_second_alloc_fails [slot_A] 0
    ∧ env_second_alloc_fails.calloc_ok [slot_A].length (slot_B.data_size + hdr_size) = false
    ∧ (RTP_send_packet env_second_alloc_fails drain_session).ret
        = env_second_alloc_fails.ERR_ALLOC :=
  ⟨rfl, by intro p hp; simp [List.enumFrom] at hp; subst hp; rfl, rfl,
   (alloc_failure_keeps_stats env_second_alloc_fails drain_session [slot_A] slot_B [] rfl
      (by intro p hp; simp [List.enumFrom] at hp; subst hp; rfl) rfl).1⟩

/-! ## Teardown and receive -/

/-- C9: `RTP_session_destroy` releases the port pair (local ports of the RTP
and RTCP sockets) exactly when the RTP socket is UDP, then closes the RTP
socket, closes the RTCP socket, closes the tracks, unreferences the consumer
and frees the session, in this order and whatever the calls return; it
returns the `next` link the session had. -/
theorem session_destroy_order (env : Env) (session : RTP_session) :
    RTP_session_destroy env session
      = (session.next,
         (if session.transport.rtp_sock.socktype = sock_type.UDP then
            [Call.RTP_release_port_pair session.transport.rtp_sock.local_port
               session.transport.rtcp_sock.local_port]
          else [])
         ++ [Call.Sock_close session.transport.rtp_sock,
             Call.Sock_close session.transport.rtcp_sock,
             Call.r_close_tracks session.track_selector,
             Call.bp_unref, Call.free_session]) := by
  unfold RTP_session_destroy RTP_transport_close get_local_port
  cases hs : session.transport.rtp_sock.socktype <;> simp

/-- C10: for a protocol other than `rtcp_proto`, `RTP_recv` returns -1, makes
no call (no socket read) and leaves the session unchanged. -/
theorem recv_rejects_other_protocols (env : Env) (session : RTP_session)
    (proto : rtp_protos) (h : proto ≠ rtp_protos.rtcp_proto) :
    (RTP_recv env session proto).ret = -1
    ∧ (RTP_recv env session proto).trace = []
    ∧ (RTP_recv env session proto).session = session := by
  unfold RTP_recv
  simp [h]

/-- Witness of C10: a receive that names the RTP protocol. -/
theorem recv_rejects_other_protocols_witness :
    rtp_protos.rtp_proto ≠ rtp_protos.rtcp_proto
    ∧ (RTP_recv env_alloc_fails scenario_session rtp_protos.rtp_proto).ret = -1
    ∧ (RTP_recv env_alloc_fails scenario_session rtp_protos.rtp_proto).trace = []
    ∧ (RTP_recv env_alloc_fails scenario_session rtp_protos.rtp_proto).session
        = scenario_session :=
  ⟨by decide,
   recv_rejects_other_protocols env_alloc_fails scenario_session rtp_protos.rtp_proto
     (by decide)⟩

/-! ## Lemmas on the `float` conversion -/

theorem f32_shift_enough (fuel : Nat) :
    ∀ n : Nat, n < 16777216 * 2 ^ fuel → n / 2 ^ f32_shift fuel n < 16777216 := by
  induction fuel with
  | zero =>
    intro n h
    simp only [f32_shift, pow_zero, Nat.div_one]
    omega
  | succ fuel ih =>
    intro n h
    by_cases hn : n < 16777216
    · simp only [f32_shift, hn, if_true, pow_zero, Nat.div_one]
    · have h2 : n / 2 < 16777216 * 2 ^ fuel := by
        rw [pow_succ] at h
        omega
      have := ih (n / 2) h2
      simp only [f32_shift, hn, if_false]
      rw [pow_succ, Nat.mul_comm, ← Nat.div_div_eq_div_mul]
      exact this

theorem f32_shift_self (n : Nat) : n / 2 ^ f32_shift n n < 16777216 := by
  apply f32_shift_enough
  have : n < 2 ^ n := Nat.lt_two_pow n
  omega

theorem f32_round_small (n : Nat) (h : n < 16777216) : f32_round n = n := by
  have hs : f32_shift n n = 0 := by
    cases n with
    | zero => rfl
    | succ k => simp [f32_shift, h]
  simp [f32_round, hs, Nat.mod_one]

/-! ## Lemmas on the emitted text -/

theorem cat_nil : cat [] = "" := rfl

theorem cat_cons (a : String) (ls : List String) : cat (a :: ls) = a ++ cat ls := rfl

theorem cat_append (xs ys : List String) : cat (xs ++ ys) = cat xs ++ cat ys := by
  induction xs with
  | nil => simp [cat_nil]
  | cons a xs ih => simp [cat_cons, ih, String.append_assoc]

theorem crlf_text_nil : crlf_text [] = "" := rfl

theorem crlf_text_cons (a : String) (ls : List String) :
    crlf_text (a :: ls) = a ++ SDP2_EL ++ crlf_text ls := rfl

theorem crlf_text_append (xs ys : List String) :
    crlf_text (xs ++ ys) = crlf_text xs ++ crlf_text ys := by
  simp [crlf_text, cat_append]

theorem foldl_append_text {α : Type} (F : α → List String) (f : String → α → String)
    (hf : ∀ d x, f d x = d ++ crlf_text (F x)) (xs : List α) :
    ∀ d : String, xs.foldl f d = d ++ crlf_text (xs.flatMap F) := by
  induction xs with
  | nil => intro d; simp [crlf_text_nil]
  | cons x xs ih =>
    intro d
    simp [List.foldl_cons, ih, hf, crlf_text_append, String.append_assoc]

theorem foldl_append_cat {α : Type} (F : α → String) (f : String → α → String)
    (hf : ∀ d x, f d x = d ++ F x) (xs : List α) :
    ∀ d : String, xs.foldl f d = d ++ cat (xs.map F) := by
  induction xs with
  | nil => intro d; simp [cat_nil]
  | cons x xs ih =>
    intro d
    simp [List.foldl_cons, ih, hf, cat_cons, String.append_assoc]

theorem mdescr_private_append_text (descr : String) (media : MediaDescr) (priv : sdp_field) :
    sdp_mdescr_private_append descr media priv
      = descr ++ crlf_text (mdescr_private_line media priv).toList := by
  unfold sdp_mdescr_private_append mdescr_private_line m_descr_rtp_pt
  cases priv.type <;>
    simp [crlf_text_cons, crlf_text_nil, String.append_assoc]

theorem mdescr_private_list_append_text (descr : String) (media : MediaDescr) :
    sdp_mdescr_private_list_append descr media
      = descr ++ crlf_text (media.sdp_private.filterMap (mdescr_private_line media)) := by
  unfold sdp_mdescr_private_list_append
  rw [foldl_append_text (fun priv => (mdescr_private_line media priv).toList) _
    (fun d x => mdescr_private_append_text d media x)]
  congr 2
  induction media.sdp_private with
  | nil => rfl
  | cons f fs ih =>
    cases h : mdescr_private_line media f <;> simp [List.filterMap_cons, h, ih]

theorem rdescr_private_append_text (descr : String) (priv : sdp_field) :
    sdp_rdescr_private_append descr priv
      = descr ++ crlf_text (rdescr_private_line priv).toList := by
  unfold sdp_rdescr_private_append rdescr_private_line
  cases priv.type <;>
    simp [crlf_text_cons, crlf_text_nil, String.append_assoc]

theorem flatMap_toList_filterMap {α : Type} (F : α → Option String) (xs : List α) :
    xs.flatMap (fun x => (F x).toList) = xs.filterMap F := by
  induction xs with
  | nil => rfl
  | cons f fs ih =>
    cases h : F f <;> simp [List.filterMap_cons, h, ih]

theorem opt_append_text (descr tag : String) (v : Option String) :
    (match v with
      | some x => descr ++ (tag ++ x ++ SDP2_EL)
      | none => descr)
      = descr ++ crlf_text (opt_line tag v) := by
  cases v <;> simp [opt_line, crlf_text_cons, crlf_text_nil, String.append_assoc]

theorem cond_append_text (c : Prop) [Decidable c] (descr line : String) :
    (if c then descr ++ (line ++ SDP2_EL) else descr)
      = descr ++ crlf_text (if c then [line] else []) := by
  by_cases h : c <;> simp [h, crlf_text_cons, crlf_text_nil, String.append_assoc]

theorem label_append (descr : String) (ty : MediaType) :
    (match ty with
      | MediaType.MP_audio => descr ++ "m=audio "
      | MediaType.MP_video => descr ++ "m=video "
      | MediaType.MP_application => descr ++ "m=application "
      | MediaType.MP_data => descr ++ "m=data "
      | MediaType.MP_control => descr ++ "m=control ")
      = descr ++ ("m=" ++ kind_label ty ++ " ") := by
  cases ty <;> rfl

theorem media_descr_text (ext : Externals) (descr : String) (g : List MediaDescr) :
    sdp_media_descr ext descr g = descr ++ crlf_text (media_lines ext g) := by
  cases g with
  | nil => simp [sdp_media_descr, media_lines, crlf_text_nil]
  | cons first rest =>
    simp only [sdp_media_descr, List.head?_cons, media_lines]
    rw [label_append]
    rw [foldl_append_cat (fun (m : MediaDescr) => " " ++ printf_u m.rtp_pt)
      sdp_mdescr_pt_append (fun d x => rfl)]
    rw [opt_append_text, opt_append_text, opt_append_text, opt_append_text]
    rw [foldl_append_text (fun m => m.sdp_private.filterMap (mdescr_private_line m))
      sdp_mdescr_private_list_append mdescr_private_list_append_text]
    rw [cond_append_text]
    simp only [crlf_text_append, crlf_text_cons, crlf_text_nil, sdp_m_line,
      group_private_lines, String.append_assoc, String.append_empty, List.cons_append,
      List.nil_append]

theorem c_line_text (descr : String) (r : ResourceDescr) :
    (match r_descr_multicast (some r) with
      | some multicast =>
        match r_descr_ttl (some r) with
        | some ttl => descr ++ "c=IN IP4 " ++ (multicast ++ "/") ++ (ttl ++ SDP2_EL)
        | none => descr ++ "c=IN IP4 " ++ (multicast ++ "/") ++ (printf_u DEFAULT_TTL ++ SDP2_EL)
      | none => descr ++ "c=IN IP4 " ++ ("0.0.0.0" ++ SDP2_EL))
      = descr ++ crlf_text [spec_c_line r] := by
  cases hi : r.info with
  | none =>
    have hm1 : r_descr_multicast (some r) = none := by simp [r_descr_multicast, hi]
    have hc : spec_c_line r = "c=IN IP4 " ++ "0.0.0.0" := by simp [spec_c_line, hi]
    rw [hm1, hc]
    simp only [crlf_text_cons, crlf_text_nil, String.append_assoc, String.append_empty]
  | some info =>
    by_cases hm : info.multicast = ""
    · have hm1 : r_descr_multicast (some r) = none := by simp [r_descr_multicast, hi, hm]
      have hc : spec_c_line r = "c=IN IP4 " ++ "0.0.0.0" := by simp [spec_c_line, hi, hm]
      rw [hm1, hc]
      simp only [crlf_text_cons, crlf_text_nil, String.append_assoc, String.append_empty]
    · have hm1 : r_descr_multicast (some r) = some info.multicast := by
        simp [r_descr_multicast, hi, hm]
      by_cases ht : info.ttl = ""
      · have ht1 : r_descr_ttl (some r) = none := by simp [r_descr_ttl, hi, ht]
        have hc : spec_c_line r = "c=IN IP4 " ++ info.multicast ++ "/" ++ printf_u DEFAULT_TTL := by
          have h32 : printf_u DEFAULT_TTL = "32" := by decide
          rw [h32]
          simp [spec_c_line, hi, hm, ht, String.append_assoc]
        rw [hm1, ht1, hc]
        simp only [crlf_text_cons, crlf_text_nil, String.append_assoc, String.append_empty]
      · have ht1 : r_descr_ttl (some r) = some info.ttl := by simp [r_descr_ttl, hi, ht]
        have hc : spec_c_line r = "c=IN IP4 " ++ info.multicast ++ "/" ++ info.ttl := by
          simp [spec_c_line, hi, hm, ht]
        rw [hm1, ht1, hc]
        simp only [crlf_text_cons, crlf_text_nil, String.append_assoc, String.append_empty]

theorem session_descr_text (ext : Externals) (now : Nat) (srv : feng) (url : Url) :
    sdp_session_descr ext now srv url
      = (r_descr_get srv url.path).map fun r => crlf_text (session_lines ext now url r) := by
  unfold sdp_session_descr
  cases hget : r_descr_get srv url.path with
  | none => rfl
  | some r =>
    simp only [Option.map_some']
    rw [foldl_append_text (media_lines ext) (sdp_media_descr ext) (media_descr_text ext)]
    rw [foldl_append_text (fun f => (rdescr_private_line f).toList) sdp_rdescr_private_append
      rdescr_private_append_text, flatMap_toList_filterMap]
    rw [cond_append_text, c_line_text, opt_append_text, opt_append_text, opt_append_text]
    have hname : (match r_descr_name r with
        | none => "RTSP Session"
        | some name => name) = (r_descr_name r).getD "RTSP Session" := by
      cases r_descr_name r <;> rfl
    rw [hname]
    simp only [session_lines, session_head_lines, sdp_o_line, r_descr_last_change,
      crlf_text_append, crlf_text_cons, crlf_text_nil,
      String.append_assoc, String.append_empty, List.cons_append, List.nil_append]

/-! ## Lemmas on the lines of a text -/

theorem strip_cr_append (l : List Char) : strip_cr (l ++ ['\r']) = l := by
  simp [strip_cr]

theorem crlf_text_data (ls : List String) :
    (crlf_text ls).data = (ls.map fun l => l.data ++ ['\r', '\n']).flatten := by
  induction ls with
  | nil => rfl
  | cons a ls ih =>
    rw [crlf_text_cons, String.data_append, String.data_append, ih]
    simp [SDP2_EL]

theorem splitOn_crlf (ls : List String) (h : ∀ l ∈ ls, '\n' ∉ l.data) :
    ((ls.map fun l => l.data ++ ['\r', '\n']).flatten).splitOn '\n'
      = (ls.map fun l => l.data ++ ['\r']) ++ [[]] := by
  induction ls with
  | nil => simp [List.splitOn_nil]
  | cons a ls ih =>
    have ha : '\n' ∉ a.data := h a (List.mem_cons_self _ _)
    have hrest : ∀ l ∈ ls, '\n' ∉ l.data := fun l hl => h l (List.mem_cons_of_mem _ hl)
    have hsplit := List.splitOnP_first (fun c => c == '\n') (a.data ++ ['\r'])
      (by
        intro x hx
        simp only [List.mem_append, List.mem_singleton] at hx
        rcases hx with hx | hx
        · intro hc
          simp only [beq_iff_eq] at hc
          exact ha (hc ▸ hx)
        · subst hx
          decide)
      '\n' (by simp) ((ls.map fun l => l.data ++ ['\r', '\n']).flatten)
    simp only [List.map_cons, List.flatten_cons, List.cons_append]
    have e : a.data ++ ['\r', '\n'] ++ (ls.map fun l => l.data ++ ['\r', '\n']).flatten
        = (a.data ++ ['\r']) ++ '\n' :: (ls.map fun l => l.data ++ ['\r', '\n']).flatten := by
      simp
    rw [e]
    unfold List.splitOn at ih ⊢
    rw [hsplit, ih hrest]

theorem text_lines_crlf (ls : List String) (h : ∀ l ∈ ls, '\n' ∉ l.data) :
    text_lines (crlf_text ls) = ls ++ [""] := by
  unfold text_lines
  rw [crlf_text_data, splitOn_crlf ls h]
  simp only [List.map_append, List.map_map, List.map_cons, List.map_nil]
  congr 1
  · conv_rhs => rw [← List.map_id ls]
    apply List.map_congr_left
    intro l _
    simp [strip_cr_append]

theorem m_lines_crlf (ls : List String) (h : ∀ l ∈ ls, '\n' ∉ l.data) :
    sdp_m_lines (crlf_text ls) = ls.filter begins_m := by
  unfold sdp_m_lines
  rw [text_lines_crlf ls h, List.filter_append]
  have : [""].filter begins_m = [] := by decide
  rw [this, List.append_nil]

theorem begins_m_append (p x : String) (h : 2 ≤ p.data.length) :
    begins_m (p ++ x) = begins_m p := by
  unfold begins_m
  rw [String.data_append, List.take_append_of_le_length h]

theorem filter_none {l : List String} (h : ∀ x ∈ l, begins_m x = false) :
    l.filter begins_m = [] := by
  rw [List.filter_eq_nil_iff]
  intro x hx
  simp [h x hx]

theorem begins_m_opt_line (tag : String) (v : Option String) (htag : 2 ≤ tag.data.length)
    (hm : begins_m tag = false) : ∀ x ∈ opt_line tag v, begins_m x = false := by
  intro x hx
  cases v with
  | none => simp [opt_line] at hx
  | some y =>
    simp only [opt_line, List.mem_singleton] at hx
    rw [hx, begins_m_append _ _ htag, hm]

theorem begins_m_o_line (now : Nat) (r : ResourceDescr) (url : Url) :
    begins_m (sdp_o_line now r url) = false := by
  unfold sdp_o_line
  simp only [String.append_assoc]
  rw [begins_m_append _ _ (by decide)]
  decide

theorem begins_m_c_line (r : ResourceDescr) : begins_m (spec_c_line r) = false := by
  unfold spec_c_line
  cases r.info with
  | none => decide
  | some info =>
    simp only
    split
    · decide
    · split
      · simp only [String.append_assoc]
        rw [begins_m_append _ _ (by decide)]
        decide
      · simp only [String.append_assoc]
        rw [begins_m_append _ _ (by decide)]
        decide

theorem begins_m_head_lines (ext : Externals) (r : ResourceDescr) :
    ∀ x ∈ session_head_lines ext r, begins_m x = false := by
  intro x hx
  simp only [session_head_lines, List.mem_append, List.mem_cons, List.mem_singleton,
    List.not_mem_nil, or_false] at hx
  rcases hx with ((((hx | hx) | hx) | hx) | hx) | hx
  · rw [hx, begins_m_append _ _ (by decide)]
    decide
  · exact begins_m_opt_line _ _ (by decide) (by decide) x hx
  · exact begins_m_opt_line _ _ (by decide) (by decide) x hx
  · exact begins_m_opt_line _ _ (by decide) (by decide) x hx
  · rcases hx with hx | hx | hx | hx | hx
    · rw [hx]; exact begins_m_c_line r
    · rw [hx]; decide
    · rw [hx]; decide
    · rw [hx]
      simp only [String.append_assoc]
      rw [begins_m_append _ _ (by decide)]
      decide
    · rw [hx]; decide
  · split at hx
    · simp only [List.mem_singleton] at hx
      rw [hx, begins_m_append _ _ (by decide)]
      decide
    · simp at hx

theorem begins_m_m_line (g : List MediaDescr) (first : MediaDescr) :
    begins_m (sdp_m_line g first) = true := by
  unfold sdp_m_line
  simp only [String.append_assoc]
  rw [begins_m_append _ _ (by decide)]
  decide

theorem begins_m_mdescr_private (m : MediaDescr) (f : sdp_field) (x : String)
    (h : f.type = sdp_field_type.empty_field → begins_m f.field = false)
    (hx : mdescr_private_line m f = some x) : begins_m x = false := by
  unfold mdescr_private_line at hx
  cases hty : f.type with
  | empty_field =>
    rw [hty] at hx
    simp only [Option.some.injEq] at hx
    rw [← hx]
    exact h hty
  | fmtp =>
    rw [hty] at hx
    simp only [Option.some.injEq] at hx
    rw [← hx]
    simp only [String.append_assoc]
    rw [begins_m_append _ _ (by decide)]
    decide
  | rtpmap =>
    rw [hty] at hx
    simp only [Option.some.injEq] at hx
    rw [← hx]
    simp only [String.append_assoc]
    rw [begins_m_append _ _ (by decide)]
    decide
  | other =>
    rw [hty] at hx
    simp at hx

theorem begins_m_group_private (g : List MediaDescr)
    (h : ∀ m ∈ g, ∀ f ∈ m.sdp_private,
      f.type = sdp_field_type.empty_field → begins_m f.field = false) :
    ∀ x ∈ group_private_lines g, begins_m x = false := by
  intro x hx
  simp only [group_private_lines, List.mem_flatMap, List.mem_filterMap] at hx
  obtain ⟨m, hm, f, hf, hxf⟩ := hx
  exact begins_m_mdescr_private m f x (h m hm f hf) hxf

theorem media_lines_filter (ext : Externals) (first : MediaDescr) (rest : List MediaDescr)
    (h : ∀ m ∈ first :: rest, ∀ f ∈ m.sdp_private,
      f.type = sdp_field_type.empty_field → begins_m f.field = false) :
    (media_lines ext (first :: rest)).filter begins_m = [sdp_m_line (first :: rest) first] := by
  have hctl : begins_m ("a=control:TrackID=" ++ ext.g_uri_escape_string first.name) = false := by
    rw [begins_m_append _ _ (by decide)]
    decide
  have hfr : (if first.frame_rate ≠ 0 ∧ first.type = MediaType.MP_video then
        ["a=framerate:" ++ ext.printf_f first.frame_rate] else []).filter begins_m = [] := by
    apply filter_none
    intro x hx
    split at hx
    · simp only [List.mem_singleton] at hx
      rw [hx, begins_m_append _ _ (by decide)]
      decide
    · simp at hx
  simp only [media_lines, List.filter_append, hfr,
    filter_none (begins_m_group_private _ h),
    filter_none (begins_m_opt_line "a=uriLicense:" first.commons_deed (by decide) (by decide)),
    filter_none (begins_m_opt_line "a=uriMetadata:" first.rdf_page (by decide) (by decide)),
    filter_none (begins_m_opt_line "a=title:" first.title (by decide) (by decide)),
    filter_none (begins_m_opt_line "a=author:" first.author (by decide) (by decide)),
    List.append_nil]
  simp [List.filter_cons, begins_m_m_line, hctl]

theorem media_filter (ext : Externals) (media : List (List MediaDescr))
    (hne : ∀ g ∈ media, g ≠ [])
    (h : ∀ g ∈ media, ∀ m ∈ g, ∀ f ∈ m.sdp_private,
      f.type = sdp_field_type.empty_field → begins_m f.field = false) :
    (media.flatMap (media_lines ext)).filter begins_m = media.map group_m_line := by
  induction media with
  | nil => rfl
  | cons g media ih =>
    have hg := hne g (List.mem_cons_self _ _)
    have ih2 := ih (fun g2 hg2 => hne g2 (List.mem_cons_of_mem _ hg2))
      (fun g2 hg2 => h g2 (List.mem_cons_of_mem _ hg2))
    cases g with
    | nil => exact absurd rfl hg
    | cons first rest =>
      rw [List.flatMap_cons, List.filter_append, ih2,
        media_lines_filter ext first rest (h _ (List.mem_cons_self _ _))]
      rfl

theorem session_lines_filter (ext : Externals) (now : Nat) (url : Url) (r : ResourceDescr)
    (hne : ∀ g ∈ r.media, g ≠ [])
    (hres : ∀ f ∈ r_descr_sdp_private r,
      f.type = sdp_field_type.empty_field → begins_m f.field = false)
    (hmed : ∀ g ∈ r.media, ∀ m ∈ g, ∀ f ∈ m.sdp_private,
      f.type = sdp_field_type.empty_field → begins_m f.field = false) :
    (session_lines ext now url r).filter begins_m = r.media.map group_m_line := by
  have hpriv : ∀ x ∈ (r_descr_sdp_private r).filterMap rdescr_private_line,
      begins_m x = false := by
    intro x hx
    simp only [List.mem_filterMap] at hx
    obtain ⟨f, hf, hxf⟩ := hx
    unfold rdescr_private_line at hxf
    cases hty : f.type <;> rw [hty] at hxf <;> simp at hxf
    rw [← hxf]
    exact hres f hf hty
  simp only [session_lines, List.filter_append, filter_none (begins_m_head_lines ext r),
    filter_none hpriv, r_descr_get_media, media_filter ext r.media hne hmed]
  simp [List.filter_cons, begins_m_o_line]
  decide

theorem rdescr_private_filter (fs : List sdp_field) :
    fs.filterMap rdescr_private_line
      = (fs.filter fun f => f.type = sdp_field_type.empty_field).map fun f => f.field := by
  induction fs with
  | nil => rfl
  | cons f fs ih =>
    cases hty : f.type <;> simp [List.filterMap_cons, rdescr_private_line, hty, ih]

theorem media_blocks_text (ext : Externals) (media : List (List MediaDescr)) :
    crlf_text (media.flatMap (media_lines ext))
      = cat (media.map fun g => sdp_media_descr ext "" g) := by
  induction media with
  | nil => rfl
  | cons g media ih =>
    rw [List.flatMap_cons, crlf_text_append, ih, List.map_cons, cat_cons, media_descr_text,
      String.empty_append]

/-! ## Lemmas on the lines that begin with `c=` -/

theorem c_lines_crlf (ls : List String) (h : ∀ l ∈ ls, '\n' ∉ l.data) :
    sdp_c_lines (crlf_text ls) = ls.filter begins_c := by
  unfold sdp_c_lines
  rw [text_lines_crlf ls h, List.filter_append]
  have : [""].filter begins_c = [] := by decide
  rw [this, List.append_nil]

theorem begins_c_append (p x : String) (h : 2 ≤ p.data.length) :
    begins_c (p ++ x) = begins_c p := by
  unfold begins_c
  rw [String.data_append, List.take_append_of_le_length h]

theorem filter_c_none {l : List String} (h : ∀ x ∈ l, begins_c x = false) :
    l.filter begins_c = [] := by
  rw [List.filter_eq_nil_iff]
  intro x hx
  simp [h x hx]

theorem begins_c_opt_line (tag : String) (v : Option String) (htag : 2 ≤ tag.data.length)
    (hm : begins_c tag = false) : ∀ x ∈ opt_line tag v, begins_c x = false := by
  intro x hx
  cases v with
  | none => simp [opt_line] at hx
  | some y =>
    simp only [opt_line, List.mem_singleton] at hx
    rw [hx, begins_c_append _ _ htag, hm]

theorem begins_c_o_line (now : Nat) (r : ResourceDescr) (url : Url) :
    begins_c (sdp_o_line now r url) = false := by
  unfold sdp_o_line
  simp only [String.append_assoc]
  rw [begins_c_append _ _ (by decide)]
  decide

theorem begins_c_c_line (r : ResourceDescr) : begins_c (spec_c_line r) = true := by
  unfold spec_c_line
  cases r.info with
  | none => decide
  | some info =>
    simp only
    split
    · decide
    · split
      · simp only [String.append_assoc]
        rw [begins_c_append _ _ (by decide)]
        decide
      · simp only [String.append_assoc]
        rw [begins_c_append _ _ (by decide)]
        decide

theorem head_lines_filter_c (ext : Externals) (r : ResourceDescr) :
    (session_head_lines ext r).filter begins_c = [spec_c_line r] := by
  have hs : begins_c ("s=" ++ (r_descr_name r).getD "RTSP Session") = false := by
    rw [begins_c_append _ _ (by decide)]
    decide
  have htool : begins_c ("a=tool:" ++ ext.PACKAGE ++ " " ++ ext.VERSION ++ " Streaming Server")
      = false := by
    simp only [String.append_assoc]
    rw [begins_c_append _ _ (by decide)]
    decide
  have ht : begins_c "t=0 0" = false := by decide
  have hty : begins_c "a=type:broadcast" = false := by decide
  have hctl : begins_c "a=control:*" = false := by decide
  have hrange : (if r_descr_time r > 0 then
        ["a=range:npt=0-" ++ ext.printf_f (r_descr_time r)] else []).filter begins_c = [] := by
    apply filter_c_none
    intro x hx
    split at hx
    · simp only [List.mem_singleton] at hx
      rw [hx, begins_c_append _ _ (by decide)]
      decide
    · simp at hx
  simp only [session_head_lines, List.filter_append, hrange,
    filter_c_none (begins_c_opt_line "u=" (r_descr_descrURI r) (by decide) (by decide)),
    filter_c_none (begins_c_opt_line "e=" (r_descr_email r) (by decide) (by decide)),
    filter_c_none (begins_c_opt_line "p=" (r_descr_phone r) (by decide) (by decide)),
    List.append_nil]
  simp [List.filter_cons, hs, htool, ht, hty, hctl, begins_c_c_line]

theorem begins_c_mdescr_private (m : MediaDescr) (f : sdp_field) (x : String)
    (h : f.type = sdp_field_type.empty_field → begins_c f.field = false)
    (hx : mdescr_private_line m f = some x) : begins_c x = false := by
  unfold mdescr_private_line at hx
  cases hty : f.type with
  | empty_field =>
    rw [hty] at hx
    simp only [Option.some.injEq] at hx
    rw [← hx]
    exact h hty
  | fmtp =>
    rw [hty] at hx
    simp only [Option.some.injEq] at hx
    rw [← hx]
    simp only [String.append_assoc]
    rw [begins_c_append _ _ (by decide)]
    decide
  | rtpmap =>
    rw [hty] at hx
    simp only [Option.some.injEq] at hx
    rw [← hx]
    simp only [String.append_assoc]
    rw [begins_c_append _ _ (by decide)]
    decide
  | other =>
    rw [hty] at hx
    simp at hx

theorem begins_c_group_private (g : List MediaDescr)
    (h : ∀ m ∈ g, ∀ f ∈ m.sdp_private,
      f.type = sdp_field_type.empty_field → begins_c f.field = false) :
    ∀ x ∈ group_private_lines g, begins_c x = false := by
  intro x hx
  simp only [group_private_lines, List.mem_flatMap, List.mem_filterMap] at hx
  obtain ⟨m, hm, f, hf, hxf⟩ := hx
  exact begins_c_mdescr_private m f x (h m hm f hf) hxf

theorem media_lines_filter_c (ext : Externals) (g : List MediaDescr)
    (h : ∀ m ∈ g, ∀ f ∈ m.sdp_private,
      f.type = sdp_field_type.empty_field → begins_c f.field = false) :
    (media_lines ext g).filter begins_c = [] := by
  cases g with
  | nil => rfl
  | cons first rest =>
    have hm : begins_c (sdp_m_line (first :: rest) first) = false := by
      unfold sdp_m_line
      simp only [String.append_assoc]
      rw [begins_c_append _ _ (by decide)]
      decide
    have hctl : begins_c ("a=control:TrackID=" ++ ext.g_uri_escape_string first.name)
        = false := by
      rw [begins_c_append _ _ (by decide)]
      decide
    have hfr : (if first.frame_rate ≠ 0 ∧ first.type = MediaType.MP_video then
          ["a=framerate:" ++ ext.printf_f first.frame_rate] else []).filter begins_c = [] := by
      apply filter_c_none
      intro x hx
      split at hx
      · simp only [List.mem_singleton] at hx
        rw [hx, begins_c_append _ _ (by decide)]
        decide
      · simp at hx
    simp only [media_lines, List.filter_append, hfr,
      filter_c_none (begins_c_group_private _ h),
      filter_c_none (begins_c_opt_line "a=uriLicense:" first.commons_deed (by decide)
        (by decide)),
      filter_c_none (begins_c_opt_line "a=uriMetadata:" first.rdf_page (by decide)
        (by decide)),
      filter_c_none (begins_c_opt_line "a=title:" first.title (by decide) (by decide)),
      filter_c_none (begins_c_opt_line "a=author:" first.author (by decide) (by decide)),
      List.append_nil]
    simp [List.filter_cons, hm, hctl]

theorem media_filter_c (ext : Externals) (media : List (List MediaDescr))
    (h : ∀ g ∈ media, ∀ m ∈ g, ∀ f ∈ m.sdp_private,
      f.type = sdp_field_type.empty_field → begins_c f.field = false) :
    (media.flatMap (media_lines ext)).filter begins_c = [] := by
  induction media with
  | nil => rfl
  | cons g media ih =>
    rw [List.flatMap_cons, List.filter_append,
      ih (fun g2 hg2 => h g2 (List.mem_cons_of_mem _ hg2)),
      media_lines_filter_c ext g (h _ (List.mem_cons_self _ _))]
    rfl

theorem session_lines_filter_c (ext : Externals) (now : Nat) (url : Url) (r : ResourceDescr)
    (hres : ∀ f ∈ r_descr_sdp_private r,
      f.type = sdp_field_type.empty_field → begins_c f.field = false)
    (hmed : ∀ g ∈ r.media, ∀ m ∈ g, ∀ f ∈ m.sdp_private,
      f.type = sdp_field_type.empty_field → begins_c f.field = false) :
    (session_lines ext now url r).filter begins_c = [spec_c_line r] := by
  have hpriv : ∀ x ∈ (r_descr_sdp_private r).filterMap rdescr_private_line,
      begins_c x = false := by
    intro x hx
    simp only [List.mem_filterMap] at hx
    obtain ⟨f, hf, hxf⟩ := hx
    unfold rdescr_private_line at hxf
    cases hty : f.type <;> rw [hty] at hxf <;> simp at hxf
    rw [← hxf]
    exact hres f hf hty
  have hv : begins_c "v=0" = false := by decide
  simp only [session_lines, List.filter_append, head_lines_filter_c ext r,
    filter_c_none hpriv, r_descr_get_media, media_filter_c ext r.media hmed]
  simp [List.filter_cons, begins_c_o_line, hv]

/-! ## The session description -/

/-- C11: for a found resource the text is made of these CRLF-terminated
lines, in this order: `v=0`, the `o=` line, `s=` with the name or
`RTSP Session`, `u=`, `e=` and `p=` exactly when the value is present, the
`c=IN IP4` line, `t=0 0`, `a=type:broadcast`, the `a=tool:` line,
`a=control:*`, `a=range:npt=0-<duration>` exactly when the duration is
positive, the resource's private fields of kind empty verbatim in list order;
after them come the media blocks, group by group. -/
theorem session_line_order (ext : Externals) (now : Nat) (srv : feng) (url : Url)
    (r : ResourceDescr) (hget : r_descr_get srv url.path = some r) :
    sdp_session_descr ext now srv url
      = some (crlf_text
          (["v=0", sdp_o_line now r url, "s=" ++ (r_descr_name r).getD "RTSP Session"]
            ++ opt_line "u=" (r_descr_descrURI r)
            ++ opt_line "e=" (r_descr_email r)
            ++ opt_line "p=" (r_descr_phone r)
            ++ [spec_c_line r, "t=0 0", "a=type:broadcast",
                "a=tool:" ++ ext.PACKAGE ++ " " ++ ext.VERSION ++ " Streaming Server",
                "a=control:*"]
            ++ (if r_descr_time r > 0 then
                  ["a=range:npt=0-" ++ ext.printf_f (r_descr_time r)]
                else [])
            ++ ((r_descr_sdp_private r).filter fun f =>
                  f.type = sdp_field_type.empty_field).map fun f => f.field)
        ++ cat ((r_descr_get_media r).map fun g => sdp_media_descr ext "" g)) := by
  rw [session_descr_text, hget, Option.map_some']
  unfold session_lines
  rw [crlf_text_append _ ((r_descr_get_media r).flatMap (media_lines ext)), media_blocks_text]
  simp only [session_head_lines, rdescr_private_filter, List.append_assoc, List.cons_append,
    List.nil_append]

set_option maxRecDepth 20000 in
/-- Witness of C11: the one-track video resource of the spec's scenario. -/
theorem session_line_order_witness :
    r_descr_get clip_server clip_url.path = some clip_resource
    ∧ sdp_session_descr ext_feng 0 clip_server clip_url
      = some (crlf_text
          (["v=0", sdp_o_line 0 clip_resource clip_url,
            "s=" ++ (r_descr_name clip_resource).getD "RTSP Session"]
            ++ opt_line "u=" (r_descr_descrURI clip_resource)
            ++ opt_line "e=" (r_descr_email clip_resource)
            ++ opt_line "p=" (r_descr_phone clip_resource)
            ++ [spec_c_line clip_resource, "t=0 0", "a=type:broadcast",
                "a=tool:" ++ ext_feng.PACKAGE ++ " " ++ ext_feng.VERSION ++ " Streaming Server",
                "a=control:*"]
            ++ (if r_descr_time clip_resource > 0 then
                  ["a=range:npt=0-" ++ ext_feng.printf_f (r_descr_time clip_resource)]
                else [])
            ++ ((r_descr_sdp_private clip_resource).filter fun f =>
                  f.type = sdp_field_type.empty_field).map fun f => f.field)
        ++ cat ((r_descr_get_media clip_resource).map fun g =>
            sdp_media_descr ext_feng "" g)) :=
  ⟨rfl, session_line_order ext_feng 0 clip_server clip_url clip_resource rfl⟩

set_option maxRecDepth 20000 in
/-- C12, the code at the failing input: with `now = 0` and
`last_change = 1000000000` the `o=` line carries 2208988672 and 3208988672,
the `float` values nearest to the NTP times 2208988800 and 3208988800 that
the spec's wording gives; the same happens for a present-day clock. -/
theorem o_line_float_precision :
    sdp_o_line 0 clip_resource clip_url = "o=- 2208988672 3208988672 IN IP4 srv.example"
    ∧ spec_o_line 0 clip_resource clip_url = "o=- 2208988800 3208988800 IN IP4 srv.example"
    ∧ sdp_session_descr ext_feng 0 clip_server clip_url
        = some ("v=0\r\no=- 2208988672 3208988672 IN IP4 srv.example\r\ns=clip\r\n"
            ++ "c=IN IP4 0.0.0.0\r\nt=0 0\r\na=type:broadcast\r\n"
            ++ "a=tool:feng 2.1.0 Streaming Server\r\na=control:*\r\n"
            ++ "a=range:npt=0-60.000000\r\nm=video 5004 RTP/AVP 96\r\n"
            ++ "a=control:TrackID=video0\r\na=framerate:25.000000\r\n"
            ++ "a=fmtp:96 profile-level-id=42e01e\r\n")
    ∧ NTP_time 1700000000 = 3908988672
    ∧ 1700000000 + 2208988800 = 3908988800 := by
  refine ⟨by decide, by decide, by decide, by decide, by decide⟩

set_option maxRecDepth 20000 in
/-- C13 as stated fails: private fields of kind empty are emitted verbatim,
so the scenario resource with the private field `c=IN IP4 10.0.0.1` yields a
text with two lines that begin with `c=`, the connection line of the builder
and the private one. -/
theorem second_connection_line :
    r_descr_get private_c_server clip_url.path = some private_c_resource
    ∧ ∃ text, sdp_session_descr ext_feng 0 private_c_server clip_url = some text
        ∧ sdp_c_lines text = ["c=IN IP4 0.0.0.0", "c=IN IP4 10.0.0.1"]
        ∧ (sdp_c_lines text).length ≠ 1 := by
  refine ⟨rfl, _, rfl, ?_, ?_⟩
  · decide
  · decide

set_option maxRecDepth 20000 in
/-- C13, amended: for a found resource in which no emitted line contains a
line feed and no private field of kind empty (of the resource or of a media
description) begins with `c=`, the text holds exactly one line that begins
with `c=`.  It stands between the `s=`/`u=`/`e=`/`p=` lines and `t=0 0` and
reads `c=IN IP4 <multicast>/<ttl>` when both stored strings are non-empty,
`c=IN IP4 <multicast>/32` when the ttl is empty, `c=IN IP4 0.0.0.0` when the
multicast string is empty or the info record is absent; multicast
`239.0.0.1` without ttl gives `c=IN IP4 239.0.0.1/32`. -/
theorem connection_line (ext : Externals) (now : Nat) (srv : feng) (url : Url)
    (r : ResourceDescr) (hget : r_descr_get srv url.path = some r)
    (hlf : ∀ l ∈ session_lines ext now url r, '\n' ∉ l.data)
    (hres : ∀ f ∈ r_descr_sdp_private r,
      f.type = sdp_field_type.empty_field → begins_c f.field = false)
    (hmed : ∀ g ∈ r.media, ∀ m ∈ g, ∀ f ∈ m.sdp_private,
      f.type = sdp_field_type.empty_field → begins_c f.field = false) :
    (∃ text, sdp_session_descr ext now srv url = some text
      ∧ text = crlf_text
            (["v=0", sdp_o_line now r url, "s=" ++ (r_descr_name r).getD "RTSP Session"]
              ++ opt_line "u=" (r_descr_descrURI r)
              ++ opt_line "e=" (r_descr_email r)
              ++ opt_line "p=" (r_descr_phone r))
          ++ ((match r.info with
                | none => "c=IN IP4 0.0.0.0"
                | some info =>
                  if info.multicast = "" then "c=IN IP4 0.0.0.0"
                  else if info.ttl = "" then "c=IN IP4 " ++ info.multicast ++ "/32"
                  else "c=IN IP4 " ++ info.multicast ++ "/" ++ info.ttl) ++ "\r\n")
          ++ crlf_text
            (["t=0 0", "a=type:broadcast",
              "a=tool:" ++ ext.PACKAGE ++ " " ++ ext.VERSION ++ " Streaming Server",
              "a=control:*"]
              ++ (if r_descr_time r > 0 then
                    ["a=range:npt=0-" ++ ext.printf_f (r_descr_time r)]
                  else [])
              ++ (r_descr_sdp_private r).filterMap rdescr_private_line
              ++ (r_descr_get_media r).flatMap (media_lines ext))
      ∧ sdp_c_lines text
          = [match r.info with
              | none => "c=IN IP4 0.0.0.0"
              | some info =>
                if info.multicast = "" then "c=IN IP4 0.0.0.0"
                else if info.ttl = "" then "c=IN IP4 " ++ info.multicast ++ "/32"
                else "c=IN IP4 " ++ info.multicast ++ "/" ++ info.ttl]
      ∧ (sdp_c_lines text).length = 1)
    ∧ sdp_session_descr ext_feng 0 multicast_server clip_url
        = some ("v=0\r\no=- 2208988672 3208988672 IN IP4 srv.example\r\ns=clip\r\n"
            ++ "c=IN IP4 239.0.0.1/32\r\n"
            ++ "t=0 0\r\na=type:broadcast\r\n"
            ++ "a=tool:feng 2.1.0 Streaming Server\r\na=control:*\r\n"
            ++ "a=range:npt=0-60.000000\r\nm=video 5004 RTP/AVP 96\r\n"
            ++ "a=control:TrackID=video0\r\na=framerate:25.000000\r\n"
            ++ "a=fmtp:96 profile-level-id=42e01e\r\n") := by
  refine ⟨⟨crlf_text (session_lines ext now url r), ?_, ?_, ?_, ?_⟩, by decide⟩
  · rw [session_descr_text, hget, Option.map_some']
  · have hc : (match r.info with
        | none => "c=IN IP4 0.0.0.0"
        | some info =>
          if info.multicast = "" then "c=IN IP4 0.0.0.0"
          else if info.ttl = "" then "c=IN IP4 " ++ info.multicast ++ "/32"
          else "c=IN IP4 " ++ info.multicast ++ "/" ++ info.ttl) = spec_c_line r := rfl
    have hel : ("\r\n" : String) = SDP2_EL := rfl
    rw [hc, hel]
    simp only [session_lines, session_head_lines, crlf_text_append, crlf_text_cons,
      crlf_text_nil, String.append_assoc, String.append_empty, List.cons_append,
      List.nil_append, List.append_assoc]
  · rw [c_lines_crlf _ hlf, session_lines_filter_c ext now url r hres hmed]
    rfl
  · rw [c_lines_crlf _ hlf, session_lines_filter_c ext now url r hres hmed]
    rfl

set_option maxRecDepth 20000 in
/-- Witness of the amended C13: the multicast resource without ttl, whose
text holds the one connection line `c=IN IP4 239.0.0.1/32`. -/
theorem connection_line_witness :
    r_descr_get multicast_server clip_url.path = some multicast_resource
    ∧ (∀ l ∈ session_lines ext_feng 0 clip_url multicast_resource, '\n' ∉ l.data)
    ∧ ∃ text, sdp_session_descr ext_feng 0 multicast_server clip_url = some text
        ∧ sdp_c_lines text = ["c=IN IP4 239.0.0.1/32"] := by
  obtain ⟨text, h1, _, h3, _⟩ :=
    (connection_line ext_feng 0 multicast_server clip_url multicast_resource rfl
      (by decide) (by decide) (by decide)).1
  exact ⟨rfl, by decide, text, h1, h3⟩

/-! ## Media blocks -/

/-- C14: the block of a non-empty group begins with the line `m=<label>
<rtp_port of the first member> RTP/AVP`, followed by a space and the payload
type for every member in group order, and CRLF; the label is audio, video,
application, data or control according to the kind of the first member. -/
theorem media_m_line (ext : Externals) (descr : String) (first : MediaDescr)
    (rest : List MediaDescr) :
    sdp_media_descr ext descr (first :: rest)
      = descr
        ++ ("m=" ++ kind_label first.type ++ " " ++ printf_u first.rtp_port ++ " RTP/AVP"
            ++ cat ((first :: rest).map fun m => " " ++ printf_u m.rtp_pt) ++ "\r\n")
        ++ crlf_text (media_lines ext (first :: rest)).tail
    ∧ kind_label MediaType.MP_audio = "audio"
    ∧ kind_label MediaType.MP_video = "video"
    ∧ kind_label MediaType.MP_application = "application"
    ∧ kind_label MediaType.MP_data = "data"
    ∧ kind_label MediaType.MP_control = "control"
    ∧ sdp_media_descr ext_feng "" [clip_video, clip_audio]
        = "m=video 5004 RTP/AVP 96 97\r\n"
          ++ crlf_text (media_lines ext_feng [clip_video, clip_audio]).tail := by
  have h : ∀ (e : Externals) (d : String) (f : MediaDescr) (rs : List MediaDescr),
      sdp_media_descr e d (f :: rs)
        = d ++ ("m=" ++ kind_label f.type ++ " " ++ printf_u f.rtp_port ++ " RTP/AVP"
            ++ cat ((f :: rs).map fun m => " " ++ printf_u m.rtp_pt) ++ "\r\n")
          ++ crlf_text (media_lines e (f :: rs)).tail := by
    intro e d f rs
    rw [media_descr_text]
    have hel : ("\r\n" : String) = SDP2_EL := rfl
    rw [hel]
    simp only [media_lines, List.cons_append, List.tail_cons, crlf_text_cons, sdp_m_line,
      String.append_assoc]
  refine ⟨h ext descr first rest, rfl, rfl, rfl, rfl, rfl, ?_⟩
  rw [h]
  decide

/-- C16: in the block of a group the private fields come after the `m=`,
control and frame rate lines and before the licence lines, member by member
in group order and field by field in list order; a field of kind fmtp gives
`a=fmtp:<pt> <field>`, one of kind rtpmap `a=rtpmap:<pt> <field>`, with the
payload type of the member that owns the field, a field of kind empty is
emitted verbatim and any other kind gives nothing; each line ends with
CRLF. -/
theorem media_private_fields (ext : Externals) (descr : String) (first : MediaDescr)
    (rest : List MediaDescr) (m : MediaDescr) (text : String) :
    sdp_media_descr ext descr (first :: rest)
      = descr
        ++ crlf_text
            ([sdp_m_line (first :: rest) first,
              "a=control:TrackID=" ++ ext.g_uri_escape_string first.name]
              ++ (if first.frame_rate ≠ 0 ∧ first.type = MediaType.MP_video then
                    ["a=framerate:" ++ ext.printf_f first.frame_rate]
                  else []))
        ++ cat ((first :: rest).map fun owner =>
            cat (owner.sdp_private.map fun f => sdp_mdescr_private_append "" owner f))
        ++ crlf_text
            (opt_line "a=uriLicense:" first.commons_deed
              ++ opt_line "a=uriMetadata:" first.rdf_page
              ++ opt_line "a=title:" first.title
              ++ opt_line "a=author:" first.author)
    ∧ sdp_mdescr_private_append descr m ⟨sdp_field_type.fmtp, text⟩
        = descr ++ ("a=fmtp:" ++ printf_u m.rtp_pt ++ " " ++ text ++ "\r\n")
    ∧ sdp_mdescr_private_append descr m ⟨sdp_field_type.rtpmap, text⟩
        = descr ++ ("a=rtpmap:" ++ printf_u m.rtp_pt ++ " " ++ text ++ "\r\n")
    ∧ sdp_mdescr_private_append descr m ⟨sdp_field_type.empty_field, text⟩
        = descr ++ (text ++ "\r\n")
    ∧ sdp_mdescr_private_append descr m ⟨sdp_field_type.other, text⟩ = descr
    ∧ cat ([clip_video, clip_audio].map fun owner =>
          cat (owner.sdp_private.map fun f => sdp_mdescr_private_append "" owner f))
        = "a=fmtp:96 profile-level-id=42e01e\r\na=rtpmap:97 MPA/90000\r\n"
          ++ "a=fmtp:97 layer=3\r\na=ptime:20\r\n" := by
  refine ⟨?_, rfl, rfl, rfl, rfl, by decide⟩
  rw [media_descr_text]
  have hp : crlf_text (group_private_lines (first :: rest))
      = cat ((first :: rest).map fun owner =>
          cat (owner.sdp_private.map fun f => sdp_mdescr_private_append "" owner f)) := by
    unfold group_private_lines
    induction (first :: rest) with
    | nil => rfl
    | cons o os ih =>
      rw [List.flatMap_cons, crlf_text_append, ih, List.map_cons, cat_cons]
      congr 1
      induction o.sdp_private with
      | nil => rfl
      | cons f fs ihf =>
        rw [List.map_cons, cat_cons, mdescr_private_append_text, String.empty_append, ← ihf]
        cases hl : mdescr_private_line o f <;>
          simp [List.filterMap_cons, hl, crlf_text_cons, crlf_text_nil, String.append_assoc]
  rw [← hp]
  simp only [media_lines, crlf_text_append, String.append_assoc, List.append_assoc]

set_option maxRecDepth 20000 in
/-- C15 as stated fails: a resource without media groups whose private field
of kind empty reads `m=audio 0 RTP/AVP 0` yields a text with one line that
begins with `m=`, for zero groups; and a resource with one group whose name
holds a line break followed by `m=audio 0 RTP/AVP 0` yields two such lines,
for one group. -/
theorem m_lines_refuted :
    (∀ g ∈ private_m_resource.media, g ≠ [])
    ∧ (∃ text, sdp_session_descr ext_feng 0 private_m_server clip_url = some text
        ∧ sdp_m_lines text = ["m=audio 0 RTP/AVP 0"]
        ∧ (sdp_m_lines text).length ≠ private_m_resource.media.length)
    ∧ (∀ g ∈ name_break_resource.media, g ≠ [])
    ∧ (∃ text, sdp_session_descr ext_feng 0 name_break_server clip_url = some text
        ∧ sdp_m_lines text = ["m=audio 0 RTP/AVP 0", "m=video 5004 RTP/AVP 96"]
        ∧ (sdp_m_lines text).length ≠ name_break_resource.media.length) := by
  refine ⟨by decide, ⟨_, rfl, ?_, ?_⟩, by decide, ⟨_, rfl, ?_, ?_⟩⟩
  · decide
  · decide
  · decide
  · decide

/-- C15, amended: for a found resource whose media groups are all non-empty,
when no emitted line contains a line feed and no private field of kind empty
(of the resource or of a media description) begins with `m=`, the lines of
the text that begin with `m=` are, in order, the `m=` lines of the media
groups: as many as there are groups, the i-th being that of the i-th
group. -/
theorem m_lines_match_groups (ext : Externals) (now : Nat) (srv : feng) (url : Url)
    (r : ResourceDescr) (hget : r_descr_get srv url.path = some r)
    (hne : ∀ g ∈ r.media, g ≠ [])
    (hlf : ∀ l ∈ session_lines ext now url r, '\n' ∉ l.data)
    (hres : ∀ f ∈ r_descr_sdp_private r,
      f.type = sdp_field_type.empty_field → begins_m f.field = false)
    (hmed : ∀ g ∈ r.media, ∀ m ∈ g, ∀ f ∈ m.sdp_private,
      f.type = sdp_field_type.empty_field → begins_m f.field = false) :
    ∃ text, sdp_session_descr ext now srv url = some text
      ∧ sdp_m_lines text = r.media.map group_m_line
      ∧ (sdp_m_lines text).length = r.media.length := by
  refine ⟨crlf_text (session_lines ext now url r), ?_, ?_, ?_⟩
  · rw [session_descr_text, hget, Option.map_some']
  · rw [m_lines_crlf _ hlf, session_lines_filter ext now url r hne hres hmed]
  · rw [m_lines_crlf _ hlf, session_lines_filter ext now url r hne hres hmed,
      List.length_map]

set_option maxRecDepth 20000 in
/-- Witness of the amended C15: the one-track video resource of the spec's
scenario. -/
theorem m_lines_match_groups_witness :
    r_descr_get clip_server clip_url.path = some clip_resource
    ∧ (∀ g ∈ clip_resource.media, g ≠ [])
    ∧ (∀ l ∈ session_lines ext_feng 0 clip_url clip_resource, '\n' ∉ l.data)
    ∧ ∃ text, sdp_session_descr ext_feng 0 clip_server clip_url = some text
        ∧ sdp_m_lines text = clip_resource.media.map group_m_line
        ∧ (sdp_m_lines text).length = clip_resource.media.length :=
  ⟨rfl, by decide, by decide,
   m_lines_match_groups ext_feng 0 clip_server clip_url clip_resource rfl (by decide)
     (by decide) (by decide) (by decide)⟩

set_option maxRecDepth 20000 in
/-- C17 as stated fails: two builds for the same resource, URL and server
identity, one with the clock at 0 and one with the clock at 100000, return
different texts. -/
theorem build_depends_on_clock :
    sdp_session_descr ext_feng 0 clip_server clip_url
      ≠ sdp_session_descr ext_feng 100000 clip_server clip_url := by
  decide

/-- C17, amended: the text is determined by the resource description, the
request URL, the server identity and the clock reading: two builds with the
same three inputs whose clock readings convert to the same NTP value return
the same text, and two builds with any clock readings differ at most in the
`o=` line. -/
theorem build_determined_by_inputs_and_clock (ext : Externals) (srv : feng) (url : Url)
    (now1 now2 : Nat) (h : NTP_time now1 = NTP_time now2) :
    sdp_session_descr ext now1 srv url = sdp_session_descr ext now2 srv url
    ∧ ∀ (t1 t2 : Nat) (r : ResourceDescr), r_descr_get srv url.path = some r →
        ∃ tail : String,
          sdp_session_descr ext t1 srv url
            = some ("v=0\r\n" ++ (sdp_o_line t1 r url ++ "\r\n") ++ tail)
          ∧ sdp_session_descr ext t2 srv url
            = some ("v=0\r\n" ++ (sdp_o_line t2 r url ++ "\r\n") ++ tail) := by
  constructor
  · have hl : ∀ r, session_lines ext now1 url r = session_lines ext now2 url r := by
      intro r
      simp only [session_lines, sdp_o_line, h]
    rw [session_descr_text, session_descr_text]
    simp only [hl]
  · intro t1 t2 r hr
    refine ⟨crlf_text (session_head_lines ext r
        ++ (r_descr_sdp_private r).filterMap rdescr_private_line
        ++ (r_descr_get_media r).flatMap (media_lines ext)), ?_, ?_⟩
    · rw [session_descr_text, hr, Option.map_some']
      have hel : ("\r\n" : String) = SDP2_EL := rfl
      have hv : ("v=0\r\n" : String) = "v=0" ++ SDP2_EL := rfl
      rw [hv, hel]
      simp only [session_lines, crlf_text_append, crlf_text_cons, crlf_text_nil,
        String.append_assoc, String.append_empty, List.cons_append, List.nil_append,
        List.append_assoc]
    · rw [session_descr_text, hr, Option.map_some']
      have hel : ("\r\n" : String) = SDP2_EL := rfl
      have hv : ("v=0\r\n" : String) = "v=0" ++ SDP2_EL := rfl
      rw [hv, hel]
      simp only [session_lines, crlf_text_append, crlf_text_cons, crlf_text_nil,
        String.append_assoc, String.append_empty, List.cons_append, List.nil_append,
        List.append_assoc]

/-- Witness of the amended C17: the clock readings 0 and 1 convert to the
same NTP value. -/
theorem build_determined_by_inputs_and_clock_witness :
    NTP_time 0 = NTP_time 1
    ∧ sdp_session_descr ext_feng 0 clip_server clip_url
        = sdp_session_descr ext_feng 1 clip_server clip_url :=
  ⟨by decide,
   (build_determined_by_inputs_and_clock ext_feng clip_server clip_url 0 1 (by decide)).1⟩

/-! ## Accessors of the resource description -/

/-- C18 as stated fails for `r_descr_mrl`: a description whose info record
holds an `mrl` pointing to the empty string yields that empty string, not
nil. -/
theorem mrl_empty_not_nil :
    empty_mrl_descr.info.map (fun info => info.mrl) = some (some "")
    ∧ r_descr_mrl (some empty_mrl_descr) = some ""
    ∧ r_descr_mrl (some empty_mrl_descr) ≠ none := by
  refine ⟨rfl, rfl, ?_⟩
  intro h
  cases h

/-- C18, amended: `r_descr_twin`, `r_descr_multicast` and `r_descr_ttl` yield
nil when the stored string is empty, exactly as when the description or its
info record is absent, and the stored string otherwise; `r_descr_mrl` yields
the stored `mrl` pointer as it is, nil only when the description, the info
record or the pointer is absent. -/
theorem string_accessors (info : ResourceInfo) (media : List (List MediaDescr))
    (last_change : Nat) :
    r_descr_twin (some ⟨some info, media, last_change⟩)
        = (if info.twin = "" then none else some info.twin)
    ∧ r_descr_multicast (some ⟨some info, media, last_change⟩)
        = (if info.multicast = "" then none else some info.multicast)
    ∧ r_descr_ttl (some ⟨some info, media, last_change⟩)
        = (if info.ttl = "" then none else some info.ttl)
    ∧ r_descr_mrl (some ⟨some info, media, last_change⟩) = info.mrl
    ∧ r_descr_twin (some ⟨none, media, last_change⟩) = none
    ∧ r_descr_multicast (some ⟨none, media, last_change⟩) = none
    ∧ r_descr_ttl (some ⟨none, media, last_change⟩) = none
    ∧ r_descr_twin none = none
    ∧ r_descr_multicast none = none
    ∧ r_descr_ttl none = none := by
  refine ⟨?_, ?_, ?_, rfl, rfl, rfl, rfl, rfl, rfl, rfl⟩
  · by_cases h : info.twin = "" <;> simp [r_descr_twin, h]
  · by_cases h : info.multicast = "" <;> simp [r_descr_multicast, h]
  · by_cases h : info.ttl = "" <;> simp [r_descr_ttl, h]

/-- C19: every accessor is defined on an absent description and on a
description without info record: `r_descr_last_change` yields 0 for an absent
description (and the stored instant when only the info record is absent), the
four string accessors yield nil in both cases. -/
theorem accessors_total (media : List (List MediaDescr)) (last_change : Nat) :
    r_descr_last_change none = 0
    ∧ r_descr_mrl none = none
    ∧ r_descr_twin none = none
    ∧ r_descr_multicast none = none
    ∧ r_descr_ttl none = none
    ∧ r_descr_last_change (some ⟨none, media, last_change⟩) = last_change
    ∧ r_descr_mrl (some ⟨none, media, last_change⟩) = none
    ∧ r_descr_twin (some ⟨none, media, last_change⟩) = none
    ∧ r_descr_multicast (some ⟨none, media, last_change⟩) = none
    ∧ r_descr_ttl (some ⟨none, media, last_change⟩) = none :=
  ⟨rfl, rfl, rfl, rfl, rfl, rfl, rfl, rfl, rfl, rfl⟩

/-! ## The datagrams of a drain -/

theorem header_bytes_length (r : RTP_header) : r.bytes.length = 12 := by
  simp [RTP_header.bytes, be16, be32]

theorem mem_read_length (data : List Nat) (n : Nat) : (mem_read data n).length = n := by
  simp [mem_read]

theorem mem_read_exact (data : List Nat) : mem_read data data.length = data := by
  simp [mem_read]

/-- C20: in a run of `RTP_send_packet` in which no allocation fails, the
datagrams handed to `Sock_write` are, in order, one per slot in the order
`bp_getreader` yielded the slots; every write is on the RTP socket; each
datagram is the 12-byte header of its slot followed by the `data_size`
payload bytes of the slot (the whole of `slot.data` when that is what the
slot holds), and its length, also the length passed to `Sock_write`, is
`12 + slot.data_size`. -/
theorem datagrams_in_slot_order (env : Env) (session : RTP_session)
    (hall : alloc_ok_on env session.cons 0) :
    obtained (RTP_send_packet env session).trace = session.cons
    ∧ writes (RTP_send_packet env session).trace
        = (session.cons.map fun slot =>
            ((RTP_build_header session (r_selected_track session) slot).bytes
                ++ mem_read slot.data slot.data_size,
             slot.data_size + 12))
    ∧ (∀ slot ∈ session.cons,
        (RTP_build_header session (r_selected_track session) slot).bytes.length = 12
        ∧ ((RTP_build_header session (r_selected_track session) slot).bytes
              ++ mem_read slot.data slot.data_size).length = 12 + slot.data_size
        ∧ (slot.data.length = slot.data_size →
            mem_read slot.data slot.data_size = slot.data))
    ∧ ∀ sock packet len ret,
        Call.Sock_write sock packet len ret ∈ (RTP_send_packet env session).trace →
        sock = session.transport.rtp_sock := by
  have h := send_loop_all_ok env session (r_selected_track session) session.cons 0
    session.rtcp_stats_server hall
  have htr : (RTP_send_packet env session).trace
      = (session.cons.enumFrom 0).flatMap (slot_calls env session (r_selected_track session))
        ++ [Call.bp_getreader none,
            Call.event_buffer_low (RTP_send_packet env session).ret] := by
    unfold RTP_send_packet
    rw [h]
  have hsnd : (session.cons.enumFrom 0).map Prod.snd = session.cons := by
    rw [← List.enum, List.enum_map_snd]
  refine ⟨?_, ?_, ?_, ?_⟩
  · rw [htr, obtained_blocks, hsnd]
    simp [obtained]
  · rw [htr, writes_blocks]
    have hw : writes [Call.bp_getreader none,
        Call.event_buffer_low (RTP_send_packet env session).ret] = [] := by
      simp [writes]
    rw [hw, List.append_nil]
    conv_rhs => rw [← hsnd]
    rw [List.map_map]
    rfl
  · intro slot _
    refine ⟨header_bytes_length _, ?_, ?_⟩
    · rw [List.length_append, header_bytes_length, mem_read_length]
    · intro hlen
      rw [← hlen, mem_read_exact]
  · intro sock packet len ret hmem
    rw [htr] at hmem
    simp only [List.mem_append, List.mem_flatMap, List.mem_cons, List.mem_singleton,
      List.not_mem_nil, or_false] at hmem
    rcases hmem with ⟨p, _, hp⟩ | hp
    · simp only [slot_calls, List.mem_cons, List.mem_singleton, List.not_mem_nil,
        or_false] at hp
      rcases hp with hp | hp | hp | hp | hp
      · cases hp
      · cases hp
      · cases hp
        rfl
      · cases hp
      · cases hp
    · rcases hp with hp | hp
      · cases hp
      · cases hp

/-- Witness of C20: slots A and B, the write of B fails. -/
theorem datagrams_in_slot_order_witness :
    alloc_ok_on env_second_write_fails drain_session.cons 0
    ∧ obtained (RTP_send_packet env_second_write_fails drain_session).trace
        = drain_session.cons
    ∧ writes (RTP_send_packet env_second_write_fails drain_session).trace
        = (drain_session.cons.map fun slot =>
            ((RTP_build_header drain_session (r_selected_track drain_session) slot).bytes
                ++ mem_read slot.data slot.data_size,
             slot.data_size + 12)) :=
  ⟨fun _ _ => rfl,
   (datagrams_in_slot_order env_second_write_fails drain_session (fun _ _ => rfl)).1,
   (datagrams_in_slot_order env_second_write_fails drain_session (fun _ _ => rfl)).2.1⟩

/-! ## Allocation failure -/

theorem send_packet_alloc_fail (env : Env) (session : RTP_session)
    (pre : List BPSlot) (slot : BPSlot) (post : List BPSlot)
    (hcons : session.cons = pre ++ slot :: post)
    (hpre : alloc_ok_on env pre 0)
    (hfail : env.calloc_ok pre.length (slot.data_size + hdr_size) = false) :
    RTP_send_packet env session
      = { ret := env.ERR_ALLOC
          session :=
            { session with
              cons := slot :: post
              rtcp_stats_server :=
                stats_after env session (r_selected_track session) (pre.enumFrom 0)
                  session.rtcp_stats_server }
          trace := (pre.enumFrom 0).flatMap (slot_calls env session (r_selected_track session))
            ++ [Call.bp_getreader (some slot),
                Call.calloc (slot.data_size + hdr_size) false] } := by
  have hfail2 : env.calloc_ok (0 + pre.length) (slot.data_size + hdr_size) = false := by
    rw [Nat.zero_add]
    exact hfail
  unfold RTP_send_packet
  rw [hcons, send_loop_split env session _ pre (slot :: post) 0 _ hpre,
    send_loop_cons_fail _ _ _ _ _ _ _ hfail2]

/-- C21: when the allocation fails for the slot that follows the slots `pre`,
`RTP_send_packet` returns right after the failed `calloc`: the slot has been
obtained from `bp_getreader` but no `Sock_write` is attempted for it (the
writes are those of the earlier slots), no `bp_gotreader` is issued for it
(there is one per earlier slot and the slot stays first in the consumer), and
`event_buffer_low` is not invoked. -/
theorem alloc_failure_leaves_slot (env : Env) (session : RTP_session)
    (pre : List BPSlot) (slot : BPSlot) (post : List BPSlot)
    (hcons : session.cons = pre ++ slot :: post)
    (hpre : alloc_ok_on env pre 0)
    (hfail : env.calloc_ok pre.length (slot.data_size + hdr_size) = false) :
    obtained (RTP_send_packet env session).trace = pre ++ [slot]
    ∧ writes (RTP_send_packet env session).trace
        = (pre.map fun s =>
            (RTP_build_packet session (r_selected_track session) s, s.data_size + hdr_size))
    ∧ gotreader_count (RTP_send_packet env session).trace = pre.length
    ∧ buffer_low_calls (RTP_send_packet env session).trace = []
    ∧ (RTP_send_packet env session).session.cons = slot :: post
    ∧ ∃ before : List Call,
        (RTP_send_packet env session).trace
          = before ++ [Call.bp_getreader (some slot),
                       Call.calloc (slot.data_size + hdr_size) false] := by
  rw [send_packet_alloc_fail env session pre slot post hcons hpre hfail]
  have hsnd : (pre.enumFrom 0).map Prod.snd = pre := by
    rw [← List.enum, List.enum_map_snd]
  refine ⟨?_, ?_, ?_, ?_, rfl, _, rfl⟩
  · simp only
    rw [obtained_blocks, hsnd]
    simp [obtained]
  · simp only
    rw [writes_blocks]
    have hw : writes [Call.bp_getreader (some slot),
        Call.calloc (slot.data_size + hdr_size) false] = [] := by
      simp [writes]
    rw [hw, List.append_nil]
    conv_rhs => rw [← hsnd]
    rw [List.map_map]
    rfl
  · simp only
    rw [gotreader_blocks]
    simp [gotreader_count]
  · simp only
    rw [buffer_low_blocks]
    simp [buffer_low_calls]

/-- Witness of C21: slots A and B, the allocation for B fails after A was
sent. -/
theorem alloc_failure_leaves_slot_witness :
    drain_session.cons = [slot_A] ++ slot_B :: []
    ∧ alloc_ok_on env_second_alloc_fails [slot_A] 0
    ∧ env_second_alloc_fails.calloc_ok [slot_A].length (slot_B.data_size + hdr_size) = false
    ∧ obtained (RTP_send_packet env_second_alloc_fails drain_session).trace
        = [slot_A] ++ [slot_B]
    ∧ (writes (RTP_send_packet env_second_alloc_fails drain_session).trace).length = 1
    ∧ gotreader_count (RTP_send_packet env_second_alloc_fails drain_session).trace = 1
    ∧ buffer_low_calls (RTP_send_packet env_second_alloc_fails drain_session).trace = []
    ∧ (RTP_send_packet env_second_alloc_fails drain_session).session.cons = [slot_B] :=
  ⟨rfl, by intro p hp; simp [List.enumFrom] at hp; subst hp; rfl, rfl,
   (alloc_failure_leaves_slot env_second_alloc_fails drain_session [slot_A] slot_B [] rfl
      (by intro p hp; simp [List.enumFrom] at hp; subst hp; rfl) rfl).1,
   by rw [(alloc_failure_leaves_slot env_second_alloc_fails drain_session [slot_A] slot_B []
      rfl (by intro p hp; simp [List.enumFrom] at hp; subst hp; rfl) rfl).2.1]; rfl,
   (alloc_failure_leaves_slot env_second_alloc_fails drain_session [slot_A] slot_B [] rfl
      (by intro p hp; simp [List.enumFrom] at hp; subst hp; rfl) rfl).2.2.1,
   (alloc_failure_leaves_slot env_second_alloc_fails drain_session [slot_A] slot_B [] rfl
      (by intro p hp; simp [List.enumFrom] at hp; subst hp; rfl) rfl).2.2.2.1,
   (alloc_failure_leaves_slot env_second_alloc_fails drain_session [slot_A] slot_B [] rfl
      (by intro p hp; simp [List.enumFrom] at hp; subst hp; rfl) rfl).2.2.2.2.1⟩

end Feng
